import Mathlib

/-!
# Verification of the hron schedule library (Rust) against its specification

Shallow embedding of the hron crate (`src/rust/hron/src/{ast,lexer,parser,
display,cron,eval}.rs`) in Lean 4, with theorems settling the frozen claims
C1..C10.

Modelling conventions:
* Rust `u8` truncation (`n as u8`) is `n % 256`; `u32` parsing checks the
  `4294967295` bound as Rust's `str::parse::<u32>` does.
* Strings are processed as `List Char`; the hron input language is ASCII at
  every decision point of the lexer, so byte-level and char-level scanning
  agree on all inputs the lexer accepts.
* Error values carry only their message kind; source spans are dropped since
  no claim depends on the span payload (acceptance and produced ASTs are
  unaffected).
* The external calendar/timezone library (jiff) is modelled explicitly:
  civil dates with proleptic-Gregorian arithmetic, and a timezone as a pair
  of wall-clock/instant conversion functions (the zone resolver).
-/

namespace Hron

/-! ## Error model (`error.rs`), spans dropped -/

inductive ScheduleError where
  | lexE (message : String)
  | parseE (message : String)
  | evalE (message : String)
  | cronE (message : String)
  deriving Repr, DecidableEq

instance {ε α : Type} [DecidableEq ε] [DecidableEq α] : DecidableEq (Except ε α) :=
  fun x y =>
    match x, y with
    | .error a, .error b =>
      if h : a = b then .isTrue (by rw [h]) else .isFalse (by simp [h])
    | .error _, .ok _ => .isFalse (by simp)
    | .ok _, .error _ => .isFalse (by simp)
    | .ok a, .ok b =>
      if h : a = b then .isTrue (by rw [h]) else .isFalse (by simp [h])

/-! ## AST (`ast.rs`) -/

inductive Weekday where
  | monday | tuesday | wednesday | thursday | friday | saturday | sunday
  deriving Repr, DecidableEq

namespace Weekday

/-- `Weekday::as_str` -/
def as_str : Weekday → String
  | .monday => "monday"
  | .tuesday => "tuesday"
  | .wednesday => "wednesday"
  | .thursday => "thursday"
  | .friday => "friday"
  | .saturday => "saturday"
  | .sunday => "sunday"

/-- `Weekday::number` (ISO: Monday=1 .. Sunday=7) -/
def number : Weekday → Nat
  | .monday => 1
  | .tuesday => 2
  | .wednesday => 3
  | .thursday => 4
  | .friday => 5
  | .saturday => 6
  | .sunday => 7

/-- `Weekday::all_weekdays` -/
def all_weekdays : List Weekday :=
  [.monday, .tuesday, .wednesday, .thursday, .friday]

end Weekday

/-- `str::to_lowercase` at the character level (ASCII; all strings the
library lowercases are ASCII at the deciding positions). -/
def strToLower (s : String) : String := String.mk (s.data.map Char.toLower)

/-- `ast::parse_weekday` (`s.to_lowercase()` then match). -/
def parse_weekday (s : String) : Option Weekday :=
  match strToLower s with
  | "monday" | "mon" => some .monday
  | "tuesday" | "tue" => some .tuesday
  | "wednesday" | "wed" => some .wednesday
  | "thursday" | "thu" => some .thursday
  | "friday" | "fri" => some .friday
  | "saturday" | "sat" => some .saturday
  | "sunday" | "sun" => some .sunday
  | _ => none

inductive MonthName where
  | january | february | march | april | may | june
  | july | august | september | october | november | december
  deriving Repr, DecidableEq

namespace MonthName

/-- `MonthName::as_str` (lowercase 3-letter) -/
def as_str : MonthName → String
  | .january => "jan"
  | .february => "feb"
  | .march => "mar"
  | .april => "apr"
  | .may => "may"
  | .june => "jun"
  | .july => "jul"
  | .august => "aug"
  | .september => "sep"
  | .october => "oct"
  | .november => "nov"
  | .december => "dec"

/-- `MonthName::number` -/
def number : MonthName → Nat
  | .january => 1
  | .february => 2
  | .march => 3
  | .april => 4
  | .may => 5
  | .june => 6
  | .july => 7
  | .august => 8
  | .september => 9
  | .october => 10
  | .november => 11
  | .december => 12

end MonthName

/-- `ast::parse_month_name` (`s.to_lowercase()` then match). -/
def parse_month_name (s : String) : Option MonthName :=
  match strToLower s with
  | "january" | "jan" => some .january
  | "february" | "feb" => some .february
  | "march" | "mar" => some .march
  | "april" | "apr" => some .april
  | "may" => some .may
  | "june" | "jun" => some .june
  | "july" | "jul" => some .july
  | "august" | "aug" => some .august
  | "september" | "sep" => some .september
  | "october" | "oct" => some .october
  | "november" | "nov" => some .november
  | "december" | "dec" => some .december
  | _ => none

/-- `TimeOfDay` (`hour`, `minute` are `u8` in the source) -/
structure TimeOfDay where
  hour : Nat
  minute : Nat
  deriving Repr, DecidableEq

inductive DayFilter where
  | every
  | weekday
  | weekend
  | days (ds : List Weekday)
  deriving Repr, DecidableEq

inductive DayOfMonthSpec where
  | single (d : Nat)
  | range (a b : Nat)
  deriving Repr, DecidableEq

/-- `DayOfMonthSpec::expand` -/
def DayOfMonthSpec.expand : DayOfMonthSpec → List Nat
  | .single d => [d]
  | .range a b => (List.range (b + 1 - a)).map (a + ·)

inductive NearestDirection where
  | next
  | previous
  deriving Repr, DecidableEq

inductive MonthTarget where
  | days (specs : List DayOfMonthSpec)
  | lastDay
  | lastWeekday
  | nearestWeekday (day : Nat) (direction : Option NearestDirection)
  deriving Repr, DecidableEq

/-- `MonthTarget::expand_days` -/
def MonthTarget.expand_days : MonthTarget → List Nat
  | .days specs => specs.flatMap DayOfMonthSpec.expand
  | _ => []

inductive OrdinalPosition where
  | first | second | third | fourth | fifth | last
  deriving Repr, DecidableEq

/-- `OrdinalPosition::as_str` -/
def OrdinalPosition.as_str : OrdinalPosition → String
  | .first => "first"
  | .second => "second"
  | .third => "third"
  | .fourth => "fourth"
  | .fifth => "fifth"
  | .last => "last"

inductive YearTarget where
  | date (month : MonthName) (day : Nat)
  | ordinalWeekday (ordinal : OrdinalPosition) (weekday : Weekday) (month : MonthName)
  | dayOfMonth (day : Nat) (month : MonthName)
  | lastWeekday (month : MonthName)
  deriving Repr, DecidableEq

inductive DateSpec where
  | named (month : MonthName) (day : Nat)
  | iso (s : String)
  deriving Repr, DecidableEq

inductive Exception where
  | named (month : MonthName) (day : Nat)
  | iso (s : String)
  deriving Repr, DecidableEq

inductive UntilSpec where
  | iso (s : String)
  | named (month : MonthName) (day : Nat)
  deriving Repr, DecidableEq

inductive IntervalUnit where
  | minutes
  | hours
  deriving Repr, DecidableEq

inductive ScheduleExpr where
  | intervalRepeat (interval : Nat) (unit : IntervalUnit) (from_ to_ : TimeOfDay)
      (day_filter : Option DayFilter)
  | dayRepeat (interval : Nat) (days : DayFilter) (times : List TimeOfDay)
  | weekRepeat (interval : Nat) (days : List Weekday) (times : List TimeOfDay)
  | monthRepeat (interval : Nat) (target : MonthTarget) (times : List TimeOfDay)
  | ordinalRepeat (interval : Nat) (ordinal : OrdinalPosition) (day : Weekday)
      (times : List TimeOfDay)
  | singleDate (date : DateSpec) (times : List TimeOfDay)
  | yearRepeat (interval : Nat) (target : YearTarget) (times : List TimeOfDay)
  deriving Repr, DecidableEq

/-- Civil date (`jiff::civil::Date`): proleptic Gregorian.  The host date
library's `±9999` year bound is modelled as absent (unbounded years); all
claims concern dates far from that bound. -/
structure CivilDate where
  year : Int
  month : Int
  day : Int
  deriving Repr, DecidableEq

structure Schedule where
  expr : ScheduleExpr
  timezone : Option String
  except : List Exception
  until_ : Option UntilSpec
  anchor : Option CivilDate
  during : List MonthName
  deriving Repr, DecidableEq

/-- `Schedule::new` -/
def Schedule.new (expr : ScheduleExpr) : Schedule :=
  { expr := expr, timezone := none, except := [], until_ := none,
    anchor := none, during := [] }

/-- `Schedule::with_anchor` (`lib.rs`) -/
def Schedule.with_anchor (s : Schedule) (date : CivilDate) : Schedule :=
  { s with anchor := some date }

/-! ## Lexer (`lexer.rs`)

Tokens are modelled by their kinds; the byte spans carried by the Rust
lexer are dropped (no claim depends on span payloads). -/

inductive TokenKind where
  | everyK | onK | atK | fromK | toK | inK | ofK | theK | lastK
  | exceptK | untilK | startingK | duringK | yearK
  | dayK | weekdayK | weekendK | weeksK | monthK
  | dayName (s : String)
  | monthName (s : String)
  | ordinalW (s : String)
  | intervalUnit (s : String)
  | number (n : Nat)
  | ordinalNumber (n : Nat)
  | timeT (h m : Nat)
  | isoDate (s : String)
  | comma
  | timezone (s : String)
  deriving Repr, DecidableEq

/-- Rust `u8::is_ascii_whitespace`: space, tab, line feed, form feed,
carriage return. -/
def isWs (c : Char) : Bool :=
  c = ' ' || c = '\t' || c = '\n' || c = '\x0c' || c = '\r'

/-- Word characters inside `lex_word`: ASCII alphanumeric or underscore. -/
def isWordChar (c : Char) : Bool :=
  c.isAlphanum || c = '_'

/-- Numeric value of a digit run (the value `str::parse` computes). -/
def digitsVal (l : List Char) : Nat :=
  l.foldl (fun acc c => acc * 10 + (c.toNat - 48)) 0

/-- Rust `str::parse::<u32>`: fails on empty input, non-digits, or
overflow past `u32::MAX`. -/
def parseU32 (l : List Char) : Option Nat :=
  if l.isEmpty then none
  else if l.all Char.isDigit then
    let v := digitsVal l
    if v ≤ 4294967295 then some v else none
  else none

/-- Rust `str::parse::<u8>` (same, bound 255). -/
def parseU8 (l : List Char) : Option Nat :=
  if l.isEmpty then none
  else if l.all Char.isDigit then
    let v := digitsVal l
    if v ≤ 255 then some v else none
  else none

/-- The ordinal-suffix test of `lex_number_or_time_or_date`: the next two
characters, lowercased, spell `st`, `nd`, `rd` or `th`. -/
def isOrdinalSuffix (c1 c2 : Char) : Bool :=
  (c1.toLower = 's' && c2.toLower = 't') ||
  (c1.toLower = 'n' && c2.toLower = 'd') ||
  (c1.toLower = 'r' && c2.toLower = 'd') ||
  (c1.toLower = 't' && c2.toLower = 'h')

/-- Tail of `lex_number_or_time_or_date` after the ISO-date and time
branches: emit `Number` or `OrdinalNumber` from the scanned digits; `rest`
is the scan position (which the failed time branch may have advanced). -/
def lexNumTail (digits : List Char) (rest : List Char) :
    Except ScheduleError (TokenKind × List Char) :=
  match parseU32 digits with
  | none => .error (.lexE "invalid number")
  | some num =>
    match rest with
    | c1 :: c2 :: tail =>
      if isOrdinalSuffix c1 c2 then .ok (.ordinalNumber num, tail)
      else .ok (.number num, rest)
    | _ => .ok (.number num, rest)

/-- `lex_number_or_time_or_date`, split into the digit scan and the
branch on what follows the scanned digits. -/
def lexNumberCore (digits rest : List Char) :
    Except ScheduleError (TokenKind × List Char) :=
  match rest with
  | '-' :: m1 :: m2 :: '-' :: d1 :: d2 :: tail =>
    -- ISO date branch: exactly 4 digits followed by -DD-DD
    if digits.length = 4 && m1.isDigit && m2.isDigit && d1.isDigit && d2.isDigit then
      .ok (.isoDate (String.mk (digits ++ ['-', m1, m2, '-', d1, d2])), tail)
    else lexNumTail digits rest
  | ':' :: r2 =>
    -- time branch: 1-2 digits, then ':', then exactly two minute digits
    if digits.length = 1 || digits.length = 2 then
      if (r2.takeWhile Char.isDigit).length = 2 then
        match parseU8 digits, parseU8 (r2.takeWhile Char.isDigit) with
        | some hour, some minute =>
          if hour > 23 || minute > 59 then .error (.lexE "invalid time")
          else .ok (.timeT hour minute, r2.dropWhile Char.isDigit)
        | _, _ => .error (.lexE "invalid time")
      else
        -- failed minute scan: position stays after the scanned digits
        lexNumTail digits (r2.dropWhile Char.isDigit)
    else lexNumTail digits rest
  | _ => lexNumTail digits rest

def lexNumber (l : List Char) : Except ScheduleError (TokenKind × List Char) :=
  lexNumberCore (l.takeWhile Char.isDigit) (l.dropWhile Char.isDigit)

/-- The keyword table of `lex_word` (word already lowercased).  `none`
means "unknown keyword" — note the table has no entry for `next`,
`previous` or `nearest`.  The boolean is the `after_in` flag the lexer
sets when emitting `in`. -/
def wordKind (w : String) : Option (TokenKind × Bool) :=
  match w with
  | "every" => some (.everyK, false)
  | "on" => some (.onK, false)
  | "at" => some (.atK, false)
  | "from" => some (.fromK, false)
  | "to" => some (.toK, false)
  | "in" => some (.inK, true)
  | "of" => some (.ofK, false)
  | "the" => some (.theK, false)
  | "last" => some (.lastK, false)
  | "except" => some (.exceptK, false)
  | "until" => some (.untilK, false)
  | "starting" => some (.startingK, false)
  | "during" => some (.duringK, false)
  | "year" => some (.yearK, false)
  | "day" => some (.dayK, false)
  | "weekday" | "weekdays" => some (.weekdayK, false)
  | "weekend" | "weekends" => some (.weekendK, false)
  | "weeks" | "week" => some (.weeksK, false)
  | "month" => some (.monthK, false)
  | "monday" | "mon" => some (.dayName "monday", false)
  | "tuesday" | "tue" => some (.dayName "tuesday", false)
  | "wednesday" | "wed" => some (.dayName "wednesday", false)
  | "thursday" | "thu" => some (.dayName "thursday", false)
  | "friday" | "fri" => some (.dayName "friday", false)
  | "saturday" | "sat" => some (.dayName "saturday", false)
  | "sunday" | "sun" => some (.dayName "sunday", false)
  | "january" | "jan" => some (.monthName "jan", false)
  | "february" | "feb" => some (.monthName "feb", false)
  | "march" | "mar" => some (.monthName "mar", false)
  | "april" | "apr" => some (.monthName "apr", false)
  | "may" => some (.monthName "may", false)
  | "june" | "jun" => some (.monthName "jun", false)
  | "july" | "jul" => some (.monthName "jul", false)
  | "august" | "aug" => some (.monthName "aug", false)
  | "september" | "sep" => some (.monthName "sep", false)
  | "october" | "oct" => some (.monthName "oct", false)
  | "november" | "nov" => some (.monthName "nov", false)
  | "december" | "dec" => some (.monthName "dec", false)
  | "first" => some (.ordinalW "first", false)
  | "second" => some (.ordinalW "second", false)
  | "third" => some (.ordinalW "third", false)
  | "fourth" => some (.ordinalW "fourth", false)
  | "fifth" => some (.ordinalW "fifth", false)
  | "min" | "mins" | "minute" | "minutes" => some (.intervalUnit "min", false)
  | "hour" | "hours" | "hr" | "hrs" => some (.intervalUnit "hours", false)
  | _ => none

/-- `lex_word`: take the run of word characters, lowercase it, look it up
in the keyword table. -/
def lexWord (l : List Char) : Except ScheduleError (TokenKind × Bool × List Char) :=
  match wordKind (String.mk ((l.takeWhile isWordChar).map Char.toLower)) with
  | some (k, ai) => .ok (k, ai, l.dropWhile isWordChar)
  | none => .error (.lexE "unknown keyword")

theorem dropWhile_length_le {α : Type} (p : α → Bool) (l : List α) :
    (l.dropWhile p).length ≤ l.length := by
  have : (l.takeWhile p).length + (l.dropWhile p).length = l.length := by
    rw [← List.length_append, List.takeWhile_append_dropWhile]
  omega

theorem dropWhile_head_false {p : Char → Bool} :
    ∀ {l : List Char} {c : Char} {cs : List Char},
      l.dropWhile p = c :: cs → p c = false := by
  intro l
  induction l with
  | nil => intro c cs h; simp [List.dropWhile] at h
  | cons a as ih =>
    intro c cs h
    by_cases hp : p a
    · exact ih (by simpa [List.dropWhile, hp] using h)
    · simp [List.dropWhile, hp] at h
      simpa [h.1.symm] using hp

/-- The `tokenize` loop of `Lexer::tokenize`: skip whitespace, then branch
on the `after_in` flag and the first character.  One fuel unit per loop
iteration; `tokenize` supplies `length + 1`, which always suffices since
every iteration consumes at least one character. -/
def tokenizeAux : Nat → Bool → List Char → Except ScheduleError (List TokenKind)
  | 0, _, _ => .error (.lexE "out of fuel")
  | fuel + 1, afterIn, l =>
    match l.dropWhile isWs with
    | [] => .ok []
    | c :: cs =>
      if afterIn then
        -- `lex_timezone`: consume a run of non-whitespace characters;
        -- nonempty here since `c` is not whitespace
        match tokenizeAux fuel false ((c :: cs).dropWhile (fun x => !isWs x)) with
        | .error e => .error e
        | .ok ts =>
          .ok (.timezone (String.mk ((c :: cs).takeWhile (fun x => !isWs x))) :: ts)
      else if c = ',' then
        match tokenizeAux fuel false cs with
        | .error e => .error e
        | .ok ts => .ok (.comma :: ts)
      else if c.isDigit then
        match lexNumber (c :: cs) with
        | .error e => .error e
        | .ok (t, rest) =>
          -- `lex_number_or_time_or_date` never touches `after_in`
          match tokenizeAux fuel false rest with
          | .error e => .error e
          | .ok ts => .ok (t :: ts)
      else if c.isAlpha then
        match lexWord (c :: cs) with
        | .error e => .error e
        | .ok (t, ai, rest) =>
          match tokenizeAux fuel ai rest with
          | .error e => .error e
          | .ok ts => .ok (t :: ts)
      else .error (.lexE "unexpected character")

/-- `Lexer::tokenize` over a whole input string. -/
def tokenize (s : String) : Except ScheduleError (List TokenKind) :=
  tokenizeAux (s.data.length + 1) false s.data

/-! ## Parser (`parser.rs`)

The recursive-descent parser, embedded as functions that consume the front
of the token list (the Rust code advances a position index over the same
list; one-token lookahead either way).

`parse_month_repeat` in the source has a match arm
`Some(TokenKind::Next) | Some(TokenKind::Previous) | Some(TokenKind::Nearest)`
and a helper `parse_nearest_weekday_target` — but `TokenKind` in `lexer.rs`
has no `Next`, `Previous` or `Nearest` variants (and `lex_word` has no entry
producing them), so that arm matches no token the lexer can emit and is
omitted here. -/

/-- ISO `YYYY-MM-DD` parsing of the host date library, as used by
`validate_iso_date` / `starting` (`d.parse::<jiff::civil::Date>()`).
All strings reaching it through the lexer have exactly this shape. -/
def isLeapYear (y : Int) : Bool :=
  (y % 4 = 0 && y % 100 ≠ 0) || y % 400 = 0

def daysInMonth (y : Int) (m : Int) : Int :=
  if m = 2 then (if isLeapYear y then 29 else 28)
  else if m = 4 || m = 6 || m = 9 || m = 11 then 30
  else 31

/-- Date validity (`jiff::civil::Date::new` succeeding); the year bound of
the host library is not modelled (see `CivilDate`). -/
def dateValid (y m d : Int) : Bool :=
  1 ≤ m && m ≤ 12 && 1 ≤ d && d ≤ daysInMonth y m

def CivilDate.new (y m d : Int) : Option CivilDate :=
  if dateValid y m d then some ⟨y, m, d⟩ else none

def parseIsoDate (s : String) : Option CivilDate :=
  match s.data with
  | [y1, y2, y3, y4, '-', m1, m2, '-', d1, d2] =>
    if [y1, y2, y3, y4, m1, m2, d1, d2].all Char.isDigit then
      let y : Int := digitsVal [y1, y2, y3, y4]
      let m : Int := digitsVal [m1, m2]
      let d : Int := digitsVal [d1, d2]
      CivilDate.new y m d
    else none
  | _ => none

abbrev P (α : Type) := Except ScheduleError (α × List TokenKind)

def perr {α : Type} (msg : String) : P α := .error (.parseE msg)

/-- `parse_time` -/
def parse_time : List TokenKind → P TimeOfDay
  | .timeT h m :: rest => .ok (⟨h, m⟩, rest)
  | _ => perr "expected time (HH:MM)"

/-- comma-loop of `parse_time_list` -/
def parse_time_list_aux (acc : List TimeOfDay) : List TokenKind → P (List TimeOfDay)
  | .comma :: .timeT h m :: rest => parse_time_list_aux (acc ++ [⟨h, m⟩]) rest
  | .comma :: _ => perr "expected time (HH:MM)"
  | ts => .ok (acc, ts)

/-- `parse_time_list` -/
def parse_time_list (ts : List TokenKind) : P (List TimeOfDay) :=
  match parse_time ts with
  | .error e => .error e
  | .ok (t, rest) => parse_time_list_aux [t] rest

/-- comma-loop of `parse_day_list` -/
def parse_day_list_aux (acc : List Weekday) : List TokenKind → P (List Weekday)
  | .comma :: .dayName n :: rest =>
    match parse_weekday n with
    | some w => parse_day_list_aux (acc ++ [w]) rest
    | none => perr "expected day name after comma"
  | .comma :: _ => perr "expected day name after comma"
  | ts => .ok (acc, ts)

/-- `parse_day_list` -/
def parse_day_list : List TokenKind → P (List Weekday)
  | .dayName n :: rest =>
    match parse_weekday n with
    | some w => parse_day_list_aux [w] rest
    | none => perr "expected day name"
  | _ => perr "expected day name"

/-- `parse_month_name_token` -/
def parse_month_name_token : List TokenKind → P MonthName
  | .monthName m :: rest =>
    match parse_month_name m with
    | some mn => .ok (mn, rest)
    | none => perr "expected month name"
  | _ => perr "expected month name"

/-- comma-loop of `parse_month_list` -/
def parse_month_list_aux (acc : List MonthName) : List TokenKind → P (List MonthName)
  | .comma :: .monthName m :: rest =>
    match parse_month_name m with
    | some mn => parse_month_list_aux (acc ++ [mn]) rest
    | none => perr "expected month name"
  | .comma :: _ => perr "expected month name"
  | ts => .ok (acc, ts)

/-- `parse_month_list` -/
def parse_month_list (ts : List TokenKind) : P (List MonthName) :=
  match parse_month_name_token ts with
  | .error e => .error e
  | .ok (m, rest) => parse_month_list_aux [m] rest

/-- `parse_exception` (note: the day number is taken `as u8` with NO range
check in the source). -/
def parse_exception : List TokenKind → P Exception
  | .isoDate d :: rest =>
    match parseIsoDate d with
    | some _ => .ok (.iso d, rest)
    | none => perr "invalid date"
  | .monthName m :: rest =>
    match parse_month_name m with
    | some mn =>
      match rest with
      | .number n :: rest' => .ok (.named mn (n % 256), rest')
      | .ordinalNumber n :: rest' => .ok (.named mn (n % 256), rest')
      | _ => perr "expected day number after month name in exception"
    | none => perr "expected ISO date or month-day in exception"
  | _ => perr "expected ISO date or month-day in exception"

/-- comma-loop of `parse_exception_list`.  The element parser
(`parse_exception`) is inlined into the patterns so the recursion is
structural; each arm mirrors the corresponding `parse_exception` branch. -/
def parse_exception_list_aux (acc : List Exception) :
    List TokenKind → P (List Exception)
  | .comma :: .isoDate d :: rest =>
    match parseIsoDate d with
    | some _ => parse_exception_list_aux (acc ++ [.iso d]) rest
    | none => perr "invalid date"
  | .comma :: .monthName m :: .number n :: rest =>
    match parse_month_name m with
    | some mn => parse_exception_list_aux (acc ++ [.named mn (n % 256)]) rest
    | none => perr "expected ISO date or month-day in exception"
  | .comma :: .monthName m :: .ordinalNumber n :: rest =>
    match parse_month_name m with
    | some mn => parse_exception_list_aux (acc ++ [.named mn (n % 256)]) rest
    | none => perr "expected ISO date or month-day in exception"
  | .comma :: .monthName _ :: _ => perr "expected day number after month name in exception"
  | .comma :: _ => perr "expected ISO date or month-day in exception"
  | ts => .ok (acc, ts)

/-- `parse_exception_list` -/
def parse_exception_list (ts : List TokenKind) : P (List Exception) :=
  match parse_exception ts with
  | .error e => .error e
  | .ok (exc, rest) => parse_exception_list_aux [exc] rest

/-- `parse_until_spec` (again no range check on the day). -/
def parse_until_spec : List TokenKind → P UntilSpec
  | .isoDate d :: rest =>
    match parseIsoDate d with
    | some _ => .ok (.iso d, rest)
    | none => perr "invalid date"
  | .monthName m :: rest =>
    match parse_month_name m with
    | some mn =>
      match rest with
      | .number n :: rest' => .ok (.named mn (n % 256), rest')
      | .ordinalNumber n :: rest' => .ok (.named mn (n % 256), rest')
      | _ => perr "expected day number after month name in until"
    | none => perr "expected ISO date or month-day after until"
  | _ => perr "expected ISO date or month-day after until"

/-- `parse_ordinal_day_spec`: `Nst` or `Nst to Mst` (days truncated
`as u8`, no range or order check). -/
def parse_ordinal_day_spec : List TokenKind → P DayOfMonthSpec
  | .ordinalNumber n :: .toK :: .ordinalNumber n2 :: rest =>
    .ok (.range (n % 256) (n2 % 256), rest)
  | .ordinalNumber _ :: .toK :: _ => perr "expected ordinal day number after to"
  | .ordinalNumber n :: rest => .ok (.single (n % 256), rest)
  | _ => perr "expected ordinal day number"

/-- comma-loop of `parse_ordinal_day_list`, element parser inlined for
structural recursion (arms mirror `parse_ordinal_day_spec`). -/
def parse_ordinal_day_list_aux (acc : List DayOfMonthSpec) :
    List TokenKind → P (List DayOfMonthSpec)
  | .comma :: .ordinalNumber n :: .toK :: .ordinalNumber n2 :: rest =>
    parse_ordinal_day_list_aux (acc ++ [.range (n % 256) (n2 % 256)]) rest
  | .comma :: .ordinalNumber _ :: .toK :: _ => perr "expected ordinal day number after to"
  | .comma :: .ordinalNumber n :: rest =>
    parse_ordinal_day_list_aux (acc ++ [.single (n % 256)]) rest
  | .comma :: _ => perr "expected ordinal day number"
  | ts => .ok (acc, ts)

/-- `parse_ordinal_day_list` -/
def parse_ordinal_day_list (ts : List TokenKind) : P (List DayOfMonthSpec) :=
  match parse_ordinal_day_spec ts with
  | .error e => .error e
  | .ok (sp, rest) => parse_ordinal_day_list_aux [sp] rest

/-- `parse_date_target` -/
def parse_date_target : List TokenKind → P DateSpec
  | .isoDate d :: rest =>
    match parseIsoDate d with
    | some _ => .ok (.iso d, rest)
    | none => perr "invalid date"
  | .monthName m :: rest =>
    match parse_month_name m with
    | some mn =>
      match rest with
      | .number n :: rest' => .ok (.named mn (n % 256), rest')
      | .ordinalNumber n :: rest' => .ok (.named mn (n % 256), rest')
      | _ => perr "expected day number after month name"
    | none => perr "expected date"
  | _ => perr "expected date (ISO date or month name)"

/-- `parse_day_target` -/
def parse_day_target : List TokenKind → P DayFilter
  | .dayK :: rest => .ok (.every, rest)
  | .weekdayK :: rest => .ok (.weekday, rest)
  | .weekendK :: rest => .ok (.weekend, rest)
  | .dayName n :: rest =>
    match parse_day_list (.dayName n :: rest) with
    | .error e => .error e
    | .ok (ds, rest') => .ok (.days ds, rest')
  | _ => perr "expected day, weekday, weekend, or day name"

/-- `parse_ordinal_position` -/
def parse_ordinal_position : List TokenKind → P OrdinalPosition
  | .ordinalW s :: rest =>
    match s with
    | "first" => .ok (.first, rest)
    | "second" => .ok (.second, rest)
    | "third" => .ok (.third, rest)
    | "fourth" => .ok (.fourth, rest)
    | "fifth" => .ok (.fifth, rest)
    | _ => perr "unknown ordinal"
  | .lastK :: rest => .ok (.last, rest)
  | _ => perr "expected ordinal (first, second, third, fourth, fifth, last)"

/-- the `'at' time_list` tail shared by the repeat productions -/
def parse_at_times : List TokenKind → P (List TimeOfDay)
  | .atK :: rest => parse_time_list rest
  | _ => perr "expected at"

/-- `parse_day_repeat`: when the filter is `Every` the `day` token is still
to be consumed. -/
def parse_day_repeat (interval : Nat) (days : DayFilter) (ts : List TokenKind) :
    P ScheduleExpr :=
  if days = .every then
    match ts with
    | .dayK :: rest =>
      match parse_at_times rest with
      | .error e => .error e
      | .ok (times, rest') => .ok (.dayRepeat interval days times, rest')
    | _ => perr "expected day"
  else
    match parse_at_times ts with
    | .error e => .error e
    | .ok (times, rest') => .ok (.dayRepeat interval days times, rest')

/-- tail of `parse_interval_repeat` after the unit has been decoded -/
def parse_interval_tail (interval : Nat) (unit : IntervalUnit) :
    List TokenKind → P ScheduleExpr
  | .fromK :: rest =>
    match parse_time rest with
    | .error e => .error e
    | .ok (fromT, rest1) =>
      match rest1 with
      | .toK :: rest2 =>
        match parse_time rest2 with
        | .error e => .error e
        | .ok (toT, rest3) =>
          match rest3 with
          | .onK :: rest4 =>
            match parse_day_target rest4 with
            | .error e => .error e
            | .ok (df, rest5) =>
              .ok (.intervalRepeat interval unit fromT toT (some df), rest5)
          | _ => .ok (.intervalRepeat interval unit fromT toT none, rest3)
      | _ => perr "expected to"
  | _ => perr "expected from"

/-- `parse_interval_repeat` (entered at the `IntervalUnit` token) -/
def parse_interval_repeat (interval : Nat) : List TokenKind → P ScheduleExpr
  | .intervalUnit u :: rest =>
    match u with
    | "min" => parse_interval_tail interval .minutes rest
    | "hours" => parse_interval_tail interval .hours rest
    | _ => perr "invalid interval unit"
  | _ => perr "expected interval unit"

/-- `parse_week_repeat` -/
def parse_week_repeat (interval : Nat) : List TokenKind → P ScheduleExpr
  | .onK :: rest =>
    match parse_day_list rest with
    | .error e => .error e
    | .ok (days, rest1) =>
      match parse_at_times rest1 with
      | .error e => .error e
      | .ok (times, rest2) => .ok (.weekRepeat interval days times, rest2)
  | _ => perr "expected on"

/-- `parse_month_repeat`.  The source's `Next | Previous | Nearest` arm is
omitted (no such token kinds exist; see the section comment). -/
def parse_month_repeat (interval : Nat) : List TokenKind → P ScheduleExpr
  | .onK :: .theK :: rest =>
    match h : (match rest with
      | .lastK :: .dayK :: r => (.ok (MonthTarget.lastDay, r) : P MonthTarget)
      | .lastK :: .weekdayK :: r => .ok (.lastWeekday, r)
      | .lastK :: _ => perr "expected day or weekday after last"
      | .ordinalNumber n :: r =>
        match parse_ordinal_day_list (.ordinalNumber n :: r) with
        | .error e => .error e
        | .ok (specs, r') => .ok (.days specs, r')
      | _ => perr "expected ordinal day, last, or nearest after the") with
    | .error e => .error e
    | .ok (target, rest1) =>
      match parse_at_times rest1 with
      | .error e => .error e
      | .ok (times, rest2) => .ok (.monthRepeat interval target times, rest2)
  | .onK :: _ => perr "expected the"
  | _ => perr "expected on"

/-- `parse_ordinal_repeat`: `first monday of every [N] month at ...` -/
def parse_ordinal_repeat (ts : List TokenKind) : P ScheduleExpr :=
  match parse_ordinal_position ts with
  | .error e => .error e
  | .ok (ord, rest) =>
    match rest with
    | .dayName n :: rest1 =>
      match parse_weekday n with
      | some wd =>
        match rest1 with
        | .ofK :: .everyK :: rest2 =>
          -- optional interval number, rejected when zero
          let cont : Nat → List TokenKind → P ScheduleExpr := fun interval rest3 =>
            match rest3 with
            | .monthK :: rest4 =>
              match parse_at_times rest4 with
              | .error e => .error e
              | .ok (times, rest5) =>
                .ok (.ordinalRepeat interval ord wd times, rest5)
            | _ => perr "expected month"
          match rest2 with
          | .number n2 :: rest3 =>
            if n2 = 0 then perr "interval must be at least 1"
            else cont n2 rest3
          | _ => cont 1 rest2
        | .ofK :: _ => perr "expected every"
        | _ => perr "expected of"
      | none => perr "expected day name after ordinal"
    | _ => perr "expected day name after ordinal"

/-- `parse_year_target_after_the` -/
def parse_year_target_after_the : List TokenKind → P YearTarget
  | .lastK :: .weekdayK :: .ofK :: rest =>
    match parse_month_name_token rest with
    | .error e => .error e
    | .ok (m, rest') => .ok (.lastWeekday m, rest')
  | .lastK :: .weekdayK :: _ => perr "expected of"
  | .lastK :: .dayName n :: .ofK :: rest =>
    match parse_weekday n with
    | some wd =>
      match parse_month_name_token rest with
      | .error e => .error e
      | .ok (m, rest') => .ok (.ordinalWeekday .last wd m, rest')
    | none => perr "expected weekday or day name after last"
  | .lastK :: .dayName _ :: _ => perr "expected of"
  | .lastK :: _ => perr "expected weekday or day name after last in yearly expression"
  | .ordinalW s :: rest =>
    match parse_ordinal_position (.ordinalW s :: rest) with
    | .error e => .error e
    | .ok (ord, rest1) =>
      match rest1 with
      | .dayName n :: .ofK :: rest2 =>
        match parse_weekday n with
        | some wd =>
          match parse_month_name_token rest2 with
          | .error e => .error e
          | .ok (m, rest') => .ok (.ordinalWeekday ord wd m, rest')
        | none => perr "expected day name after ordinal in yearly expression"
      | .dayName _ :: _ => perr "expected of"
      | _ => perr "expected day name after ordinal in yearly expression"
  | .ordinalNumber n :: .ofK :: rest =>
    match parse_month_name_token rest with
    | .error e => .error e
    | .ok (m, rest') => .ok (.dayOfMonth (n % 256) m, rest')
  | .ordinalNumber _ :: _ => perr "expected of"
  | _ => perr "expected ordinal, day number, or last after the in yearly expression"

/-- `parse_year_repeat` -/
def parse_year_repeat (interval : Nat) : List TokenKind → P ScheduleExpr
  | .onK :: rest =>
    match h : (match rest with
      | .theK :: rest1 => parse_year_target_after_the rest1
      | .monthName m :: rest1 =>
        match parse_month_name m with
        | some mn =>
          (match rest1 with
            | .number n :: rest2 => .ok (YearTarget.date mn (n % 256), rest2)
            | .ordinalNumber n :: rest2 => .ok (.date mn (n % 256), rest2)
            | _ => perr "expected day number after month name")
        | none => perr "expected month name"
      | _ => perr "expected month name or the after every year on") with
    | .error e => .error e
    | .ok (target, rest1) =>
      match parse_at_times rest1 with
      | .error e => .error e
      | .ok (times, rest2) => .ok (.yearRepeat interval target times, rest2)
  | _ => perr "expected on"

/-- `parse_number_repeat` (entered at the `Number` token) -/
def parse_number_repeat : List TokenKind → P ScheduleExpr
  | .number n :: rest =>
    if n = 0 then perr "interval must be at least 1"
    else
      match rest with
      | .weeksK :: r => parse_week_repeat n r
      | .intervalUnit u :: r => parse_interval_repeat n (.intervalUnit u :: r)
      | .dayK :: r => parse_day_repeat n .every (.dayK :: r)
      | .monthK :: r => parse_month_repeat n r
      | .yearK :: r => parse_year_repeat n r
      | _ => perr "expected unit after number"
  | _ => perr "expected number"

/-- `parse_every` (after the `every` token) -/
def parse_every : List TokenKind → P ScheduleExpr
  | [] => perr "expected repeater"
  | .yearK :: rest => parse_year_repeat 1 rest
  | .dayK :: rest => parse_day_repeat 1 .every (.dayK :: rest)
  | .weekdayK :: rest => parse_day_repeat 1 .weekday rest
  | .weekendK :: rest => parse_day_repeat 1 .weekend rest
  | .dayName n :: rest =>
    match parse_day_list (.dayName n :: rest) with
    | .error e => .error e
    | .ok (days, rest') => parse_day_repeat 1 (.days days) rest'
  | .monthK :: rest => parse_month_repeat 1 rest
  | .number n :: rest => parse_number_repeat (.number n :: rest)
  | _ => perr "expected day, weekday, weekend, year, day name, month, or number after every"

/-- `parse_on` -/
def parse_on (ts : List TokenKind) : P ScheduleExpr :=
  match parse_date_target ts with
  | .error e => .error e
  | .ok (date, rest) =>
    match parse_at_times rest with
    | .error e => .error e
    | .ok (times, rest') => .ok (.singleDate date times, rest')

/-- trailing clauses of `parse_trailing_clauses`, one helper each -/
def parse_except_clause (sched : Schedule) : List TokenKind → P Schedule
  | .exceptK :: rest =>
    match parse_exception_list rest with
    | .error e => .error e
    | .ok (excs, rest') => .ok ({ sched with except := excs }, rest')
  | ts => .ok (sched, ts)

def parse_until_clause (sched : Schedule) : List TokenKind → P Schedule
  | .untilK :: rest =>
    match parse_until_spec rest with
    | .error e => .error e
    | .ok (u, rest') => .ok ({ sched with until_ := some u }, rest')
  | ts => .ok (sched, ts)

def parse_starting_clause (sched : Schedule) : List TokenKind → P Schedule
  | .startingK :: .isoDate d :: rest =>
    match parseIsoDate d with
    | some date => .ok ({ sched with anchor := some date }, rest)
    | none => perr "invalid starting date"
  | .startingK :: _ => perr "expected ISO date (YYYY-MM-DD) after starting"
  | ts => .ok (sched, ts)

def parse_during_clause (sched : Schedule) : List TokenKind → P Schedule
  | .duringK :: rest =>
    match parse_month_list rest with
    | .error e => .error e
    | .ok (ms, rest') => .ok ({ sched with during := ms }, rest')
  | ts => .ok (sched, ts)

def parse_in_clause (sched : Schedule) : List TokenKind → P Schedule
  | .inK :: .timezone tz :: rest => .ok ({ sched with timezone := some tz }, rest)
  | .inK :: _ => perr "expected timezone after in"
  | ts => .ok (sched, ts)

/-- `parse_trailing_clauses`: except → until → starting → during → in -/
def parse_trailing_clauses (expr : ScheduleExpr) (ts : List TokenKind) : P Schedule :=
  match parse_except_clause (Schedule.new expr) ts with
  | .error e => .error e
  | .ok (s1, ts1) =>
    match parse_until_clause s1 ts1 with
    | .error e => .error e
    | .ok (s2, ts2) =>
      match parse_starting_clause s2 ts2 with
      | .error e => .error e
      | .ok (s3, ts3) =>
        match parse_during_clause s3 ts3 with
        | .error e => .error e
        | .ok (s4, ts4) => parse_in_clause s4 ts4

/-- `parse_expression` -/
def parse_expression (ts : List TokenKind) : P Schedule :=
  match h : (match ts with
    | .everyK :: rest => parse_every rest
    | .onK :: rest => parse_on rest
    | .ordinalW s :: rest => parse_ordinal_repeat (.ordinalW s :: rest)
    | .lastK :: rest => parse_ordinal_repeat (.lastK :: rest)
    | _ => perr "expected every, on, or an ordinal (first, second, ...)") with
  | .error e => .error e
  | .ok (expr, rest) => parse_trailing_clauses expr rest

/-- `parser::parse` -/
def parse (input : String) : Except ScheduleError Schedule :=
  match tokenize input with
  | .error e => .error e
  | .ok [] => .error (.parseE "empty expression")
  | .ok (t :: ts) =>
    match parse_expression (t :: ts) with
    | .error e => .error e
    | .ok (sched, []) => .ok sched
    | .ok (_, _ :: _) => .error (.parseE "unexpected tokens after expression")

/-! ## Display (`display.rs`)

`display.rs` in this source tree destructures `DayRepeat { days, times }`,
`MonthRepeat { target, times }` and `OrdinalRepeat { ordinal, day, times }`
without `interval` fields, and its `MonthTarget` match has no
`NearestWeekday` arm: the file predates those `ast.rs` additions.  The
embedding renders exactly what the file writes — the interval fields of
those three variants do not appear in the output, and the formatter is
partial (`none`) on `MonthTarget::NearestWeekday`, which has no arm. -/

def digitChar (n : Nat) : Char := Char.ofNat (48 + n)

/-- Decimal rendering of a natural number (Rust's `Display` for integers),
with structural fuel (`n + 1` suffices: dividing by ten strictly shrinks). -/
def natDigitsAux : Nat → Nat → List Char
  | 0, _ => []
  | fuel + 1, n =>
    if n < 10 then [digitChar n]
    else natDigitsAux fuel (n / 10) ++ [digitChar (n % 10)]

def natDigits (n : Nat) : List Char := natDigitsAux (n + 1) n

def natRepr (n : Nat) : String := String.mk (natDigits n)

/-- `format!("{:02}", n)` -/
def pad2 (n : Nat) : String :=
  if n < 10 then "0" ++ natRepr n else natRepr n

/-- `format!("{:04}", n)` (year part of `jiff::civil::Date`'s `Display`) -/
def pad4 (n : Nat) : String :=
  if n < 10 then "000" ++ natRepr n
  else if n < 100 then "00" ++ natRepr n
  else if n < 1000 then "0" ++ natRepr n
  else natRepr n

/-- `jiff::civil::Date` `Display`: `YYYY-MM-DD` (negative years signed). -/
def displayCivilDate (d : CivilDate) : String :=
  (if d.year < 0 then "-" ++ pad4 (-d.year).toNat else pad4 d.year.toNat)
    ++ "-" ++ pad2 d.month.toNat ++ "-" ++ pad2 d.day.toNat

/-- `Display` for `TimeOfDay`: two-digit `HH:MM` -/
def displayTimeOfDay (t : TimeOfDay) : String :=
  pad2 t.hour ++ ":" ++ pad2 t.minute

/-- comma-space joining used by the `write!` loops -/
def joinSep (sep : String) : List String → String
  | [] => ""
  | [x] => x
  | x :: y :: xs => x ++ sep ++ joinSep sep (y :: xs)

/-- `write_time_list` -/
def write_time_list (times : List TimeOfDay) : String :=
  joinSep ", " (times.map displayTimeOfDay)

/-- `write_day_list` -/
def write_day_list (days : List Weekday) : String :=
  joinSep ", " (days.map Weekday.as_str)

/-- `Display` for `DayFilter` -/
def displayDayFilter : DayFilter → String
  | .every => "day"
  | .weekday => "weekday"
  | .weekend => "weekend"
  | .days ds => write_day_list ds

/-- `ordinal_suffix` -/
def ordinal_suffix (n : Nat) : String :=
  if 11 ≤ n % 100 && n % 100 ≤ 13 then "th"
  else match n % 10 with
    | 1 => "st"
    | 2 => "nd"
    | 3 => "rd"
    | _ => "th"

/-- `write_ordinal_day_specs` -/
def write_ordinal_day_specs (specs : List DayOfMonthSpec) : String :=
  joinSep ", " (specs.map fun sp =>
    match sp with
    | .single d => natRepr d ++ ordinal_suffix d
    | .range a b => natRepr a ++ ordinal_suffix a ++ " to " ++ natRepr b ++ ordinal_suffix b)

/-- `unit_display` -/
def unit_display (interval : Nat) (unit : IntervalUnit) : String :=
  match unit with
  | .minutes => if interval = 1 then "minute" else "min"
  | .hours => if interval = 1 then "hour" else "hours"

/-- `Display` for `ScheduleExpr` (partial: no `NearestWeekday` arm). -/
def displayExpr : ScheduleExpr → Option String
  | .intervalRepeat interval unit fromT toT day_filter =>
    some ("every " ++ natRepr interval ++ " " ++ unit_display interval unit
      ++ " from " ++ displayTimeOfDay fromT ++ " to " ++ displayTimeOfDay toT
      ++ (match day_filter with
          | some df => " on " ++ displayDayFilter df
          | none => ""))
  | .dayRepeat _ days times =>
    some ("every " ++ displayDayFilter days ++ " at " ++ write_time_list times)
  | .weekRepeat interval days times =>
    some ("every " ++ natRepr interval ++ " weeks on " ++ write_day_list days
      ++ " at " ++ write_time_list times)
  | .monthRepeat _ target times =>
    match target with
    | .days specs =>
      some ("every month on the " ++ write_ordinal_day_specs specs
        ++ " at " ++ write_time_list times)
    | .lastDay => some ("every month on the last day at " ++ write_time_list times)
    | .lastWeekday => some ("every month on the last weekday at " ++ write_time_list times)
    | .nearestWeekday _ _ => none
  | .ordinalRepeat _ ordinal day times =>
    some (ordinal.as_str ++ " " ++ day.as_str ++ " of every month at "
      ++ write_time_list times)
  | .singleDate date times =>
    some ("on " ++ (match date with
        | .named month day => month.as_str ++ " " ++ natRepr day
        | .iso d => d)
      ++ " at " ++ write_time_list times)
  | .yearRepeat _ target times =>
    some ("every year on " ++ (match target with
        | .date month day => month.as_str ++ " " ++ natRepr day
        | .ordinalWeekday ordinal weekday month =>
          "the " ++ ordinal.as_str ++ " " ++ weekday.as_str ++ " of " ++ month.as_str
        | .dayOfMonth day month =>
          "the " ++ natRepr day ++ ordinal_suffix day ++ " of " ++ month.as_str
        | .lastWeekday month => "the last weekday of " ++ month.as_str)
      ++ " at " ++ write_time_list times)

/-- `Display` for `Schedule`: expression then trailing clauses in order. -/
def display (s : Schedule) : Option String :=
  match displayExpr s.expr with
  | none => none
  | some e =>
    some (e
      ++ (if s.except.isEmpty then "" else
          " except " ++ joinSep ", " (s.except.map fun exc =>
            match exc with
            | .named month day => month.as_str ++ " " ++ natRepr day
            | .iso d => d))
      ++ (match s.until_ with
          | some (.iso d) => " until " ++ d
          | some (.named month day) => " until " ++ month.as_str ++ " " ++ natRepr day
          | none => "")
      ++ (match s.anchor with
          | some a => " starting " ++ displayCivilDate a
          | none => "")
      ++ (if s.during.isEmpty then "" else
          " during " ++ joinSep ", " (s.during.map MonthName.as_str))
      ++ (match s.timezone with
          | some tz => " in " ++ tz
          | none => ""))

/-! ## Cron bridge (`cron.rs`)

String utilities mirror the Rust `str` methods used by the file.  Like
`display.rs`, `cron.rs` predates `MonthTarget::NearestWeekday`: the
`to_cron` match on `MonthTarget` has no arm for it (modelled as an
unreachable-arm error).  Rust's integer `parse` also accepts a leading
`+`, which never occurs in any string the bridge produces or the claims
touch, so the model requires plain digit runs. -/

def strToUpper (s : String) : String := String.mk (s.data.map Char.toUpper)

/-- `str::trim` (ASCII whitespace; the inputs of interest are ASCII). -/
def trimStr (s : String) : String :=
  String.mk (((s.data.dropWhile isWs).reverse.dropWhile isWs).reverse)

/-- `str::split_whitespace` -/
def splitWs (s : String) : List String :=
  ((s.data.splitOnP isWs).filter (fun w => !w.isEmpty)).map String.mk

/-- `str::split(c)` (keeps empty pieces) -/
def splitOnChar (sep : Char) (s : String) : List String :=
  (s.data.splitOn sep).map String.mk

/-- `str::split_once(c)` -/
def splitOnceAux (sep : Char) : List Char → Option (List Char × List Char)
  | [] => none
  | c :: cs =>
    if c = sep then some ([], cs)
    else (splitOnceAux sep cs).map (fun p => (c :: p.1, p.2))

def splitOnceChar (sep : Char) (s : String) : Option (String × String) :=
  (splitOnceAux sep s.data).map (fun p => (String.mk p.1, String.mk p.2))

def containsChar (c : Char) (s : String) : Bool := s.data.any (· = c)

def endsWithChar (c : Char) (s : String) : Bool := s.data.getLast? = some c

/-- ascending stable insertion (the result of Rust's `sort` on integers) -/
def insertNat (n : Nat) : List Nat → List Nat
  | [] => [n]
  | m :: rest => if n < m then n :: m :: rest else m :: insertNat n rest

def sortNats (l : List Nat) : List Nat := l.foldl (fun acc n => insertNat n acc) []

/-- `sort_by_key(|d| d.number())` for weekdays (stable insertion). -/
def insertWd (w : Weekday) : List Weekday → List Weekday
  | [] => [w]
  | m :: rest => if w.number < m.number then w :: m :: rest else m :: insertWd w rest

def sortWdsByNumber (l : List Weekday) : List Weekday :=
  l.foldl (fun acc w => insertWd w acc) []

/-- the ascending `while n <= end { push n; n += step }` loops (step ≥ 1) -/
def stepRange (start end_ step : Nat) : List Nat :=
  (List.range (end_ + 1 - start)).filterMap
    (fun i => if i % step = 0 then some (start + i) else none)

/-- `cron_dow_number`: cron uses 0=Sunday .. 6=Saturday -/
def cron_dow_number : Weekday → Nat
  | .sunday => 0
  | .monday => 1
  | .tuesday => 2
  | .wednesday => 3
  | .thursday => 4
  | .friday => 5
  | .saturday => 6

/-- `day_filter_to_cron_dow` (its `Result` never carries an error) -/
def day_filter_to_cron_dow : DayFilter → String
  | .every => "*"
  | .weekday => "1-5"
  | .weekend => "0,6"
  | .days days => joinSep "," ((sortNats (days.map cron_dow_number)).map natRepr)

/-- `to_cron` -/
def to_cron (schedule : Schedule) : Except ScheduleError String :=
  if !schedule.except.isEmpty then
    .error (.cronE "not expressible as cron (except clauses not supported)")
  else if schedule.until_.isSome then
    .error (.cronE "not expressible as cron (until clauses not supported)")
  else if !schedule.during.isEmpty then
    .error (.cronE "not expressible as cron (during clauses not supported)")
  else
    match schedule.expr with
    | .dayRepeat interval days times =>
      if interval > 1 then
        .error (.cronE "not expressible as cron (multi-day intervals not supported)")
      else
        match times with
        | [time] =>
          .ok (natRepr time.minute ++ " " ++ natRepr time.hour ++ " * * "
            ++ day_filter_to_cron_dow days)
        | _ => .error (.cronE "not expressible as cron (multiple times not supported)")
    | .intervalRepeat interval unit fromT toT day_filter =>
      -- only expressible if window is full day (00:00 to 23:59)
      if !(fromT.hour = 0 && fromT.minute = 0 && toT.hour = 23 && toT.minute = 59) then
        .error (.cronE "not expressible as cron (partial-day interval windows not supported)")
      else if day_filter.isSome then
        .error (.cronE "not expressible as cron (interval with day filter not supported)")
      else
        match unit with
        | .minutes =>
          -- Rust `60 % interval` panics at interval = 0; parse-produced
          -- intervals are ≥ 1 (Lean's `60 % 0 = 60` takes the error branch)
          if 60 % interval ≠ 0 then
            .error (.cronE "not expressible as cron (interval breaks at hour boundaries)")
          else .ok ("*/" ++ natRepr interval ++ " * * * *")
        | .hours => .ok ("0 */" ++ natRepr interval ++ " * * *")
    | .weekRepeat _ _ _ =>
      .error (.cronE "not expressible as cron (multi-week intervals not supported)")
    | .monthRepeat interval target times =>
      if interval > 1 then
        .error (.cronE "not expressible as cron (multi-month intervals not supported)")
      else
        match times with
        | [time] =>
          match target with
          | .days _ =>
            .ok (natRepr time.minute ++ " " ++ natRepr time.hour ++ " "
              ++ joinSep "," (target.expand_days.map natRepr) ++ " * *")
          | .lastDay =>
            .error (.cronE "not expressible as cron (last day of month not supported)")
          | .lastWeekday =>
            .error (.cronE "not expressible as cron (last weekday of month not supported)")
          | .nearestWeekday _ _ =>
            -- no arm in the source's match (pre-NearestWeekday cron.rs)
            .error (.cronE "unreachable: no match arm for NearestWeekday")
        | _ => .error (.cronE "not expressible as cron (multiple times not supported)")
    | .ordinalRepeat _ _ _ _ =>
      .error (.cronE "not expressible as cron (ordinal weekday of month not supported)")
    | .singleDate _ _ =>
      .error (.cronE "not expressible as cron (single dates are not repeating)")
    | .yearRepeat _ _ _ =>
      .error (.cronE "not expressible as cron (yearly schedules not supported in 5-field cron)")

/-- `parse_cron_shortcut` -/
def parse_cron_shortcut (cron : String) : Except ScheduleError Schedule :=
  match strToLower cron with
  | "@yearly" | "@annually" =>
    .ok (Schedule.new (.yearRepeat 1 (.date .january 1) [⟨0, 0⟩]))
  | "@monthly" =>
    .ok (Schedule.new (.monthRepeat 1 (.days [.single 1]) [⟨0, 0⟩]))
  | "@weekly" =>
    .ok (Schedule.new (.dayRepeat 1 (.days [.sunday]) [⟨0, 0⟩]))
  | "@daily" | "@midnight" =>
    .ok (Schedule.new (.dayRepeat 1 .every [⟨0, 0⟩]))
  | "@hourly" =>
    .ok (Schedule.new (.intervalRepeat 1 .hours ⟨0, 0⟩ ⟨23, 59⟩ none))
  | _ => .error (.cronE "unknown @ shortcut")

/-- `month_from_number` -/
def month_from_number (n : Nat) : Except ScheduleError MonthName :=
  match n with
  | 1 => .ok .january
  | 2 => .ok .february
  | 3 => .ok .march
  | 4 => .ok .april
  | 5 => .ok .may
  | 6 => .ok .june
  | 7 => .ok .july
  | 8 => .ok .august
  | 9 => .ok .september
  | 10 => .ok .october
  | 11 => .ok .november
  | 12 => .ok .december
  | _ => .error (.cronE "invalid month number")

/-- `parse_month_value` (number 1-12 or name) -/
def parse_month_value (s : String) : Except ScheduleError MonthName :=
  match parseU8 s.data with
  | some n => month_from_number n
  | none =>
    match parse_month_name s with
    | some m => .ok m
    | none => .error (.cronE "invalid month")

/-- one comma-part of `parse_month_field` -/
def parse_month_field_part (part : String) : Except ScheduleError (List MonthName) :=
  match splitOnceChar '/' part with
  | some (range, stepS) =>
    -- step values FIRST (e.g. 1-12/3 or */3)
    match (if range = "*" then (.ok (1, 12) : Except ScheduleError (Nat × Nat))
      else match splitOnceChar '-' range with
        | some (sS, eS) =>
          match parse_month_value sS, parse_month_value eS with
          | .ok sm, .ok em => .ok (sm.number, em.number)
          | .error e, _ => .error e
          | _, .error e => .error e
        | none => .error (.cronE "invalid month step expression")) with
    | .error e => .error e
    | .ok (start, end_) =>
      match parseU8 stepS.data with
      | none => .error (.cronE "invalid month step value")
      | some step =>
        if step = 0 then .error (.cronE "step cannot be 0")
        else (stepRange start end_ step).mapM month_from_number
  | none =>
    match splitOnceChar '-' part with
    | some (startS, endS) =>
      match parse_month_value startS, parse_month_value endS with
      | .ok sm, .ok em =>
        if sm.number > em.number then .error (.cronE "invalid month range")
        else (stepRange sm.number em.number 1).mapM month_from_number
      | .error e, _ => .error e
      | _, .error e => .error e
    | none =>
      match parse_month_value part with
      | .ok m => .ok [m]
      | .error e => .error e

/-- `parse_month_field` -/
def parse_month_field (field : String) : Except ScheduleError (List MonthName) :=
  if field = "*" then .ok []
  else ((splitOnChar ',' field).mapM parse_month_field_part).map List.flatten

/-- `cron_dow_to_weekday` -/
def cron_dow_to_weekday (n : Nat) : Except ScheduleError Weekday :=
  match n with
  | 0 | 7 => .ok .sunday
  | 1 => .ok .monday
  | 2 => .ok .tuesday
  | 3 => .ok .wednesday
  | 4 => .ok .thursday
  | 5 => .ok .friday
  | 6 => .ok .saturday
  | _ => .error (.cronE "invalid DOW number")

/-- `parse_dow_value_raw` (no 7→0 normalization) -/
def parse_dow_value_raw (s : String) : Except ScheduleError Nat :=
  match parseU8 s.data with
  | some n => if n > 7 then .error (.cronE "DOW must be 0-7") else .ok n
  | none =>
    match strToUpper s with
    | "SUN" => .ok 0
    | "MON" => .ok 1
    | "TUE" => .ok 2
    | "WED" => .ok 3
    | "THU" => .ok 4
    | "FRI" => .ok 5
    | "SAT" => .ok 6
    | _ => .error (.cronE "invalid DOW")

/-- `parse_dow_value` (7 normalized to 0) -/
def parse_dow_value (s : String) : Except ScheduleError Nat :=
  match parse_dow_value_raw s with
  | .ok raw => .ok (if raw = 7 then 0 else raw)
  | .error e => .error e

/-- one comma-part of `parse_cron_dow` -/
def parse_cron_dow_part (part : String) : Except ScheduleError (List Weekday) :=
  match splitOnceChar '/' part with
  | some (rangeS, stepS) =>
    match (if rangeS = "*" then (.ok (0, 6) : Except ScheduleError (Nat × Nat))
      else match splitOnceChar '-' rangeS with
        | some (sS, eS) =>
          match parse_dow_value_raw sS, parse_dow_value_raw eS with
          | .ok sn, .ok en =>
            if sn > en then .error (.cronE "range start must be <= end")
            else .ok (sn, en)
          | .error e, _ => .error e
          | _, .error e => .error e
        | none =>
          match parse_dow_value_raw rangeS with
          | .ok sn => .ok (sn, 6)
          | .error e => .error e) with
    | .error e => .error e
    | .ok (start, end_) =>
      match parseU8 stepS.data with
      | none => .error (.cronE "invalid DOW step")
      | some step =>
        if step = 0 then .error (.cronE "step cannot be 0")
        else (stepRange start end_ step).mapM cron_dow_to_weekday
  | none =>
    match splitOnceChar '-' part with
    | some (startS, endS) =>
      match parse_dow_value_raw startS, parse_dow_value_raw endS with
      | .ok sn, .ok en =>
        if sn > en then .error (.cronE "range start must be <= end")
        else (stepRange sn en 1).mapM
          (fun d => cron_dow_to_weekday (if d = 7 then 0 else d))
      | .error e, _ => .error e
      | _, .error e => .error e
    | none =>
      match parse_dow_value part with
      | .ok n =>
        match cron_dow_to_weekday n with
        | .ok w => .ok [w]
        | .error e => .error e
      | .error e => .error e

/-- `parse_cron_dow` -/
def parse_cron_dow (field : String) : Except ScheduleError DayFilter :=
  if field = "*" then .ok .every
  else
    match ((splitOnChar ',' field).mapM parse_cron_dow_part).map List.flatten with
    | .error e => .error e
    | .ok days =>
      -- special patterns: all five weekdays, or the weekend pair
      if days.length = 5 && sortWdsByNumber days = Weekday.all_weekdays then
        .ok .weekday
      else if days.length = 2 && sortWdsByNumber days = [.saturday, .sunday] then
        .ok .weekend
      else .ok (.days days)

/-- `validate_dom` -/
def validate_dom (day : Nat) : Except ScheduleError Unit :=
  if day < 1 || day > 31 then .error (.cronE "DOM must be 1-31")
  else .ok ()

/-- one comma-part of `parse_dom_field` -/
def parse_dom_field_part (part : String) : Except ScheduleError (List DayOfMonthSpec) :=
  match splitOnceChar '/' part with
  | some (rangeS, stepS) =>
    match (if rangeS = "*" then (.ok (1, 31) : Except ScheduleError (Nat × Nat))
      else match splitOnceChar '-' rangeS with
        | some (sS, eS) =>
          match parseU8 sS.data, parseU8 eS.data with
          | some sn, some en =>
            if sn > en then .error (.cronE "range start must be <= end")
            else .ok (sn, en)
          | none, _ => .error (.cronE "invalid DOM range start")
          | _, none => .error (.cronE "invalid DOM range end")
        | none =>
          match parseU8 rangeS.data with
          | some sn => .ok (sn, 31)
          | none => .error (.cronE "invalid DOM value")) with
    | .error e => .error e
    | .ok (start, end_) =>
      match parseU8 stepS.data with
      | none => .error (.cronE "invalid DOM step")
      | some step =>
        if step = 0 then .error (.cronE "step cannot be 0")
        else
          match validate_dom start, validate_dom end_ with
          | .ok _, .ok _ => .ok ((stepRange start end_ step).map DayOfMonthSpec.single)
          | .error e, _ => .error e
          | _, .error e => .error e
  | none =>
    match splitOnceChar '-' part with
    | some (startS, endS) =>
      match parseU8 startS.data, parseU8 endS.data with
      | some sn, some en =>
        if sn > en then .error (.cronE "range start must be <= end")
        else
          match validate_dom sn, validate_dom en with
          | .ok _, .ok _ => .ok [.range sn en]
          | .error e, _ => .error e
          | _, .error e => .error e
      | none, _ => .error (.cronE "invalid DOM range start")
      | _, none => .error (.cronE "invalid DOM range end")
    | none =>
      match parseU8 part.data with
      | some day =>
        match validate_dom day with
        | .ok _ => .ok [.single day]
        | .error e => .error e
      | none => .error (.cronE "invalid DOM value")

/-- `parse_dom_field` -/
def parse_dom_field (field : String) : Except ScheduleError MonthTarget :=
  (((splitOnChar ',' field).mapM parse_dom_field_part).map List.flatten).map .days

/-- `parse_single_value` -/
def parse_single_value (field : String) (mn mx : Nat) : Except ScheduleError Nat :=
  match parseU8 field.data with
  | some v =>
    if v < mn || v > mx then .error (.cronE "field out of range")
    else .ok v
  | none => .error (.cronE "invalid field")

/-- `try_parse_nth_weekday`: `N#K` (nth weekday) and `NL` (last weekday). -/
def try_parse_nth_weekday (minute_field hour_field dom_field dow_field : String)
    (during : List MonthName) : Except ScheduleError (Option Schedule) :=
  match splitOnceChar '#' dow_field with
  | some (dow_str, nth_str) =>
    match parse_dow_value dow_str with
    | .error e => .error e
    | .ok dow_num =>
      match cron_dow_to_weekday dow_num with
      | .error e => .error e
      | .ok weekday =>
        match parseU8 nth_str.data with
        | none => .error (.cronE "invalid nth value")
        | some nth =>
          if nth = 0 || nth > 5 then .error (.cronE "nth must be 1-5")
          else
            match (match nth with
              | 1 => some OrdinalPosition.first
              | 2 => some .second
              | 3 => some .third
              | 4 => some .fourth
              | 5 => some .fifth
              | _ => none) with
            | none => .error (.cronE "nth must be 1-5")
            | some ordinal =>
              if dom_field ≠ "*" && dom_field ≠ "?" then
                .error (.cronE "DOM must be * when using nth weekday")
              else
                match parse_single_value minute_field 0 59,
                    parse_single_value hour_field 0 23 with
                | .ok minute, .ok hour =>
                  .ok (some { Schedule.new
                      (.ordinalRepeat 1 ordinal weekday [⟨hour, minute⟩]) with
                    during := during })
                | .error e, _ => .error e
                | _, .error e => .error e
  | none =>
    -- nL pattern (last weekday of month)
    if endsWithChar 'L' dow_field && dow_field.length > 1 then
      match parse_dow_value (String.mk (dow_field.data.dropLast)) with
      | .error e => .error e
      | .ok dow_num =>
        match cron_dow_to_weekday dow_num with
        | .error e => .error e
        | .ok weekday =>
          if dom_field ≠ "*" && dom_field ≠ "?" then
            .error (.cronE "DOM must be * when using nL for last weekday")
          else
            match parse_single_value minute_field 0 59,
                parse_single_value hour_field 0 23 with
            | .ok minute, .ok hour =>
              .ok (some { Schedule.new
                  (.ordinalRepeat 1 .last weekday [⟨hour, minute⟩]) with
                during := during })
            | .error e, _ => .error e
            | _, .error e => .error e
    else .ok none

/-- `try_parse_last_day`: DOM `L` or `LW`. -/
def try_parse_last_day (minute_field hour_field dom_field dow_field : String)
    (during : List MonthName) : Except ScheduleError (Option Schedule) :=
  if dom_field ≠ "L" && dom_field ≠ "LW" then .ok none
  else if dow_field ≠ "*" && dow_field ≠ "?" then
    .error (.cronE "DOW must be * when using L or LW in DOM")
  else
    match parse_single_value minute_field 0 59, parse_single_value hour_field 0 23 with
    | .ok minute, .ok hour =>
      .ok (some { Schedule.new (.monthRepeat 1
          (if dom_field = "LW" then .lastWeekday else .lastDay) [⟨hour, minute⟩]) with
        during := during })
    | .error e, _ => .error e
    | _, .error e => .error e

/-- `try_parse_interval`: `*/N` or `range/N` in the minute or hour field. -/
def try_parse_interval (minute_field hour_field dom_field dow_field : String)
    (during : List MonthName) : Except ScheduleError (Option Schedule) :=
  match (if containsChar '/' minute_field then
    -- minute interval
    match splitOnceChar '/' minute_field with
    | none => (.error (.cronE "invalid minute interval") :
        Except ScheduleError (Option Schedule))
    | some (range_part, step_str) =>
      match parseU32 step_str.data with
      | none => .error (.cronE "invalid minute interval value")
      | some interval =>
        if interval = 0 then .error (.cronE "step cannot be 0")
        else
          match (if range_part = "*" then (.ok (0, 59) : Except ScheduleError (Nat × Nat))
            else match splitOnceChar '-' range_part with
              | some (startS, endS) =>
                match parseU8 startS.data, parseU8 endS.data with
                | some s, some e =>
                  if s > e then .error (.cronE "range start must be <= end")
                  else .ok (s, e)
                | none, _ => .error (.cronE "invalid minute range")
                | _, none => .error (.cronE "invalid minute range")
              | none =>
                -- single value with step (e.g. 0/15): treat as starting point
                match parseU8 range_part.data with
                | some s => .ok (s, 59)
                | none => .error (.cronE "invalid minute value")) with
          | .error e => .error e
          | .ok (from_minute, to_minute) =>
            -- determine the hour window
            match (if hour_field = "*" then
                (.ok (some (0, 23)) : Except ScheduleError (Option (Nat × Nat)))
              else match splitOnceChar '-' hour_field with
                | some (startS, endS) =>
                  match parseU8 startS.data, parseU8 endS.data with
                  | some s, some e => .ok (some (s, e))
                  | none, _ => .error (.cronE "invalid hour range")
                  | _, none => .error (.cronE "invalid hour range")
                | none =>
                  if containsChar '/' hour_field then
                    -- hour also has a step: fall through to hour handling
                    .ok none
                  else
                    match parseU8 hour_field.data with
                    | some h => .ok (some (h, h))
                    | none => .error (.cronE "invalid hour")) with
            | .error e => .error e
            | .ok none => .ok none
            | .ok (some (from_hour, to_hour)) =>
              match (if dow_field = "*" then
                  (.ok none : Except ScheduleError (Option DayFilter))
                else (parse_cron_dow dow_field).map some) with
              | .error e => .error e
              | .ok day_filter =>
                if dom_field = "*" || dom_field = "?" then
                  -- end minute: 59 for the full day, 00 for a full minute
                  -- range on a partial day, otherwise the range's end
                  .ok (some { Schedule.new (.intervalRepeat interval .minutes
                      ⟨from_hour, from_minute⟩
                      ⟨to_hour,
                        if from_minute = 0 && to_minute = 59 && to_hour = 23 then 59
                        else if from_minute = 0 && to_minute = 59 then 0
                        else to_minute⟩
                      day_filter) with
                    during := during })
                else .ok none
    else .ok none) with
  | .error e => .error e
  | .ok (some sched) => .ok (some sched)
  | .ok none =>
    -- hour interval: minute field must be literal 0
    if containsChar '/' hour_field && (minute_field = "0" || minute_field = "00") then
      match splitOnceChar '/' hour_field with
      | none => .error (.cronE "invalid hour interval")
      | some (range_part, step_str) =>
        match parseU32 step_str.data with
        | none => .error (.cronE "invalid hour interval value")
        | some interval =>
          if interval = 0 then .error (.cronE "step cannot be 0")
          else
            match (if range_part = "*" then (.ok (0, 23) : Except ScheduleError (Nat × Nat))
              else match splitOnceChar '-' range_part with
                | some (startS, endS) =>
                  match parseU8 startS.data, parseU8 endS.data with
                  | some s, some e =>
                    if s > e then .error (.cronE "range start must be <= end")
                    else .ok (s, e)
                  | none, _ => .error (.cronE "invalid hour range")
                  | _, none => .error (.cronE "invalid hour range")
                | none =>
                  match parseU8 range_part.data with
                  | some h => .ok (h, 23)
                  | none => .error (.cronE "invalid hour value")) with
            | .error e => .error e
            | .ok (from_hour, to_hour) =>
              if (dom_field = "*" || dom_field = "?")
                  && (dow_field = "*" || dow_field = "?") then
                .ok (some { Schedule.new (.intervalRepeat interval .hours
                    ⟨from_hour, 0⟩
                    ⟨to_hour, if from_hour = 0 && to_hour = 23 then 59 else 0⟩
                    none) with
                  during := during })
              else .ok none
    else .ok none

/-- `from_cron` -/
def from_cron (cron : String) : Except ScheduleError Schedule :=
  let cron := trimStr cron
  match cron.data with
  | '@' :: _ => parse_cron_shortcut cron
  | _ =>
    match splitWs cron with
    | [minute_field, hour_field, dom_field0, month_field, dow_field0] =>
      -- normalize ? to *
      let dom_field := if dom_field0 = "?" then "*" else dom_field0
      let dow_field := if dow_field0 = "?" then "*" else dow_field0
      match parse_month_field month_field with
      | .error e => .error e
      | .ok during =>
        match try_parse_nth_weekday minute_field hour_field dom_field dow_field during with
        | .error e => .error e
        | .ok (some sched) => .ok sched
        | .ok none =>
          match try_parse_last_day minute_field hour_field dom_field dow_field during with
          | .error e => .error e
          | .ok (some sched) => .ok sched
          | .ok none =>
            if endsWithChar 'W' dom_field && dom_field ≠ "LW" then
              .error (.cronE "W (nearest weekday) not yet supported")
            else
              match try_parse_interval minute_field hour_field dom_field dow_field during with
              | .error e => .error e
              | .ok (some sched) => .ok sched
              | .ok none =>
                match parse_single_value minute_field 0 59,
                    parse_single_value hour_field 0 23 with
                | .ok minute, .ok hour =>
                  if dom_field ≠ "*" && dow_field = "*" then
                    match parse_dom_field dom_field with
                    | .error e => .error e
                    | .ok target =>
                      .ok { Schedule.new (.monthRepeat 1 target [⟨hour, minute⟩]) with
                        during := during }
                  else
                    match parse_cron_dow dow_field with
                    | .error e => .error e
                    | .ok days =>
                      .ok { Schedule.new (.dayRepeat 1 days [⟨hour, minute⟩]) with
                        during := during }
                | .error e, _ => .error e
                | _, .error e => .error e
    | fields =>
      .error (.cronE ("expected 5 cron fields, got " ++ natRepr fields.length))

/-! ## Round-trip facts about decimal rendering and field splitting -/

theorem digitChar_toNat {n : Nat} (h : n < 10) : (digitChar n).toNat = 48 + n := by
  interval_cases n <;> decide

theorem digitChar_isDigit {n : Nat} (h : n < 10) : (digitChar n).isDigit = true := by
  interval_cases n <;> decide

theorem digitsVal_append_singleton (l : List Char) (c : Char) :
    digitsVal (l ++ [c]) = digitsVal l * 10 + (c.toNat - 48) := by
  simp [digitsVal, List.foldl_append]

theorem natDigitsAux_sound {fuel n : Nat} (h : n < fuel) :
    digitsVal (natDigitsAux fuel n) = n ∧ natDigitsAux fuel n ≠ [] ∧
      ∀ c ∈ natDigitsAux fuel n, c.isDigit = true := by
  induction fuel generalizing n with
  | zero => omega
  | succ fuel ih =>
    by_cases hn : n < 10
    · refine ⟨?_, by simp [natDigitsAux, hn], ?_⟩
      · simp [natDigitsAux, hn, digitsVal, digitChar_toNat hn]
      · intro c hc
        simp [natDigitsAux, hn] at hc
        subst hc
        exact digitChar_isDigit hn
    · have hdiv : n / 10 < fuel := by
        have := Nat.div_lt_self (by omega : 0 < n) (by omega : 1 < 10)
        omega
      obtain ⟨ihv, ihne, ihd⟩ := ih hdiv
      have hmod : n % 10 < 10 := Nat.mod_lt _ (by omega)
      refine ⟨?_, by simp [natDigitsAux, hn], ?_⟩
      · rw [natDigitsAux]
        simp only [if_neg hn]
        rw [digitsVal_append_singleton, ihv, digitChar_toNat hmod]
        omega
      · intro c hc
        rw [natDigitsAux] at hc
        simp only [if_neg hn, List.mem_append, List.mem_singleton] at hc
        rcases hc with hc | hc
        · exact ihd c hc
        · subst hc
          exact digitChar_isDigit hmod

theorem digitsVal_natDigits (n : Nat) : digitsVal (natDigits n) = n :=
  (natDigitsAux_sound (Nat.lt_succ_self n)).1

theorem natDigits_ne_nil (n : Nat) : natDigits n ≠ [] :=
  (natDigitsAux_sound (Nat.lt_succ_self n)).2.1

theorem natDigits_all_digits (n : Nat) : ∀ c ∈ natDigits n, c.isDigit = true :=
  (natDigitsAux_sound (Nat.lt_succ_self n)).2.2

theorem natRepr_data (n : Nat) : (natRepr n).data = natDigits n := rfl

theorem parseU8_natRepr {n : Nat} (h : n ≤ 255) : parseU8 (natRepr n).data = some n := by
  rw [natRepr_data]
  unfold parseU8
  rw [if_neg (by simpa using natDigits_ne_nil n)]
  rw [if_pos (by simpa [List.all_eq_true] using natDigits_all_digits n)]
  simp [digitsVal_natDigits, h]

theorem parseU32_natRepr {n : Nat} (h : n ≤ 4294967295) :
    parseU32 (natRepr n).data = some n := by
  rw [natRepr_data]
  unfold parseU32
  rw [if_neg (by simpa using natDigits_ne_nil n)]
  rw [if_pos (by simpa [List.all_eq_true] using natDigits_all_digits n)]
  simp [digitsVal_natDigits, h]

/-- a digit is not one of the separator characters the bridge splits on -/
theorem digit_not_sep {c : Char} (h : c.isDigit = true) :
    c ≠ ',' ∧ c ≠ '/' ∧ c ≠ '-' ∧ c ≠ '#' ∧ isWs c = false := by
  refine ⟨fun hc => absurd h (by subst hc; decide),
    fun hc => absurd h (by subst hc; decide),
    fun hc => absurd h (by subst hc; decide),
    fun hc => absurd h (by subst hc; decide), ?_⟩
  cases hws : isWs c with
  | false => rfl
  | true =>
    exfalso
    have : (((c = ' ' ∨ c = '\t') ∨ c = '\n') ∨ c = '\x0c') ∨ c = '\r' := by
      simpa [isWs] using hws
    rcases this with (((rfl | rfl) | rfl) | rfl) | rfl <;> exact absurd h (by decide)

theorem splitOnP_ws_sep (w r : List Char) (hw : ∀ x ∈ w, isWs x = false) :
    (w ++ ' ' :: r).splitOnP isWs = w :: r.splitOnP isWs :=
  List.splitOnP_first isWs w (fun x hx => by simp [hw x hx]) ' ' (by decide) r

theorem splitOnP_ws_single (w : List Char) (hw : ∀ x ∈ w, isWs x = false) :
    w.splitOnP isWs = [w] :=
  List.splitOnP_eq_single isWs w (fun x hx => by simp [hw x hx])

/-- non-whitespace strings: every character fails `isWs` -/
def NoWsStr (s : String) : Prop := ∀ x ∈ s.data, isWs x = false

theorem splitWs_five (a b c d e : String)
    (ha : NoWsStr a) (hb : NoWsStr b) (hc : NoWsStr c) (hd : NoWsStr d) (he : NoWsStr e)
    (na : a.data ≠ []) (nb : b.data ≠ []) (nc : c.data ≠ []) (nd : d.data ≠ [])
    (ne' : e.data ≠ []) :
    splitWs (a ++ " " ++ b ++ " " ++ c ++ " " ++ d ++ " " ++ e) = [a, b, c, d, e] := by
  unfold splitWs
  have hdata : (a ++ " " ++ b ++ " " ++ c ++ " " ++ d ++ " " ++ e).data
      = a.data ++ ' ' :: (b.data ++ ' ' :: (c.data ++ ' ' :: (d.data ++ ' ' :: e.data))) := by
    simp [String.data_append]
  rw [hdata, splitOnP_ws_sep _ _ ha, splitOnP_ws_sep _ _ hb, splitOnP_ws_sep _ _ hc,
    splitOnP_ws_sep _ _ hd, splitOnP_ws_single _ he]
  simp [na, nb, nc, nd, ne']

theorem splitOn_comma_sep (w r : List Char) (hw : ∀ x ∈ w, x ≠ ',') :
    (w ++ ',' :: r).splitOn ',' = w :: r.splitOn ','  := by
  unfold List.splitOn
  exact List.splitOnP_first (· == ',') w (fun x hx => by simp [hw x hx]) ',' (by simp) r

theorem splitOn_comma_single (w : List Char) (hw : ∀ x ∈ w, x ≠ ',') :
    w.splitOn ',' = [w] := by
  unfold List.splitOn
  exact List.splitOnP_eq_single (· == ',') w (fun x hx => by simp [hw x hx])

/-- splitting the comma-join of comma-free parts recovers the parts -/
theorem splitOnChar_joinSep (ss : List String) (hne : ss ≠ [])
    (h : ∀ s ∈ ss, ∀ x ∈ s.data, x ≠ ',') :
    splitOnChar ',' (joinSep "," ss) = ss := by
  induction ss with
  | nil => exact absurd rfl hne
  | cons p ps ih =>
    cases ps with
    | nil =>
      unfold splitOnChar joinSep
      rw [splitOn_comma_single p.data (h p (by simp))]
      simp
    | cons q qs =>
      unfold splitOnChar joinSep
      have hdata : (p ++ "," ++ joinSep "," (q :: qs)).data
          = p.data ++ ',' :: (joinSep "," (q :: qs)).data := by
        simp [String.data_append]
      rw [hdata, splitOn_comma_sep p.data _ (h p (by simp))]
      have := ih (by simp) (fun s hs => h s (by simp [hs]))
      unfold splitOnChar at this
      simp only [List.map_cons]
      rw [show (joinSep "," (q :: qs)).data.splitOn ',' =
          ((joinSep "," (q :: qs)).data.splitOn ',') from rfl]
      have hmk : ((joinSep "," (q :: qs)).data.splitOn ',').map String.mk = q :: qs := this
      simp [hmk]

theorem splitOnceAux_sep (sep : Char) (a b : List Char) (ha : ∀ x ∈ a, x ≠ sep) :
    splitOnceAux sep (a ++ sep :: b) = some (a, b) := by
  induction a with
  | nil => simp [splitOnceAux]
  | cons c cs ih =>
    have hc : c ≠ sep := ha c (by simp)
    have ih' := ih (fun x hx => ha x (by simp [hx]))
    simp [splitOnceAux, hc, ih']

theorem splitOnceAux_none (sep : Char) (a : List Char) (ha : ∀ x ∈ a, x ≠ sep) :
    splitOnceAux sep a = none := by
  induction a with
  | nil => rfl
  | cons c cs ih =>
    have ih' := ih (fun x hx => ha x (by simp [hx]))
    simp [splitOnceAux, ha c (by simp), ih']

theorem containsChar_false (c : Char) (s : String) (h : ∀ x ∈ s.data, x ≠ c) :
    containsChar c s = false := by
  unfold containsChar
  simpa [List.any_eq_true] using h

theorem dropWhile_eq_self_of_head {p : Char → Bool} :
    ∀ {l : List Char}, (∀ c, l.head? = some c → p c = false) → l.dropWhile p = l := by
  intro l h
  cases l with
  | nil => rfl
  | cons c cs => simp [List.dropWhile, h c rfl]

/-- `trim` is the identity on strings with non-whitespace first and last
characters -/
theorem trimStr_eq_self (s : String)
    (h1 : ∀ c, s.data.head? = some c → isWs c = false)
    (h2 : ∀ c, s.data.getLast? = some c → isWs c = false) :
    trimStr s = s := by
  unfold trimStr
  rw [dropWhile_eq_self_of_head h1]
  rw [dropWhile_eq_self_of_head (by
    intro c hc
    apply h2
    rwa [List.getLast?_eq_head?_reverse])]
  simp

/-! sorting facts for the cron day-of-week round trip -/

theorem insertNat_perm (n : Nat) (l : List Nat) : (insertNat n l).Perm (n :: l) := by
  induction l with
  | nil => simp [insertNat]
  | cons m rest ih =>
    by_cases h : n < m
    · simp [insertNat, h]
    · simp only [insertNat, if_neg h]
      exact (ih.cons m).trans (List.Perm.swap n m rest)

theorem sortNats_perm (l : List Nat) : (sortNats l).Perm l := by
  suffices h : ∀ acc, (l.foldl (fun acc n => insertNat n acc) acc).Perm (acc ++ l) by
    simpa [sortNats] using h []
  induction l with
  | nil => simp
  | cons n rest ih =>
    intro acc
    exact (ih (insertNat n acc)).trans
      (((insertNat_perm n acc).append_right rest).trans List.perm_middle.symm)

theorem insertNat_sorted {l : List Nat} (n : Nat) (h : l.Sorted (· ≤ ·)) :
    (insertNat n l).Sorted (· ≤ ·) := by
  induction l with
  | nil => simp [insertNat]
  | cons m rest ih =>
    rw [List.sorted_cons] at h
    by_cases hlt : n < m
    · rw [insertNat, if_pos hlt, List.sorted_cons]
      refine ⟨?_, List.sorted_cons.mpr h⟩
      intro b hb
      rcases List.mem_cons.mp hb with rfl | hb
      · omega
      · have := h.1 b hb
        omega
    · rw [insertNat, if_neg hlt, List.sorted_cons]
      refine ⟨?_, ih h.2⟩
      intro b hb
      have := (insertNat_perm n rest).mem_iff.mp hb
      rcases List.mem_cons.mp this with rfl | hb'
      · omega
      · exact h.1 b hb'

theorem sortNats_sorted (l : List Nat) : (sortNats l).Sorted (· ≤ ·) := by
  suffices h : ∀ acc, acc.Sorted (· ≤ ·) →
      (l.foldl (fun acc n => insertNat n acc) acc).Sorted (· ≤ ·) by
    exact h [] (by simp)
  induction l with
  | nil => intro acc hacc; simpa using hacc
  | cons n rest ih =>
    intro acc hacc
    exact ih _ (insertNat_sorted n hacc)

theorem sortNats_eq_of_sorted {l : List Nat} (h : l.Sorted (· ≤ ·)) : sortNats l = l :=
  List.eq_of_perm_of_sorted (sortNats_perm l) (sortNats_sorted l) h

/-- comparisons by ISO weekday number -/
def wdLe (a b : Weekday) : Prop := a.number ≤ b.number

instance : DecidableRel wdLe := fun a b => Nat.decLe _ _

instance : IsAntisymm Weekday wdLe :=
  ⟨fun a b h1 h2 => by cases a <;> cases b <;> revert h1 h2 <;> decide⟩

theorem insertWd_perm (w : Weekday) (l : List Weekday) : (insertWd w l).Perm (w :: l) := by
  induction l with
  | nil => simp [insertWd]
  | cons m rest ih =>
    by_cases h : w.number < m.number
    · simp [insertWd, h]
    · simp only [insertWd, if_neg h]
      exact (ih.cons m).trans (List.Perm.swap w m rest)

theorem sortWdsByNumber_perm (l : List Weekday) : (sortWdsByNumber l).Perm l := by
  suffices h : ∀ acc, (l.foldl (fun acc w => insertWd w acc) acc).Perm (acc ++ l) by
    simpa [sortWdsByNumber] using h []
  induction l with
  | nil => simp
  | cons w rest ih =>
    intro acc
    exact (ih (insertWd w acc)).trans
      (((insertWd_perm w acc).append_right rest).trans List.perm_middle.symm)

theorem cron_dow_number_le (w : Weekday) : cron_dow_number w ≤ 6 := by
  cases w <;> decide

theorem cron_dow_to_weekday_inv {n : Nat} (h : n ≤ 6) :
    ∃ w, cron_dow_to_weekday n = .ok w ∧ cron_dow_number w = n := by
  interval_cases n <;> exact ⟨_, rfl, rfl⟩

def AllDigits (s : String) : Prop := ∀ c ∈ s.data, c.isDigit = true

theorem natRepr_allDigits (n : Nat) : AllDigits (natRepr n) := by
  intro c hc
  exact natDigits_all_digits n c hc

theorem natRepr_ne_nil (n : Nat) : (natRepr n).data ≠ [] := natDigits_ne_nil n

theorem joinSep_cons_data (s : String) (ss : List String) (hne : ss ≠ []) :
    (joinSep "," (s :: ss)).data = s.data ++ ',' :: (joinSep "," ss).data := by
  cases ss with
  | nil => exact absurd rfl hne
  | cons y ys => simp [joinSep, String.data_append]

theorem joinSep_comma_chars (ss : List String) (h : ∀ s ∈ ss, AllDigits s) :
    ∀ c ∈ (joinSep "," ss).data, c.isDigit = true ∨ c = ',' := by
  induction ss with
  | nil => intro c hc; simp [joinSep] at hc
  | cons s rest ih =>
    intro c hc
    cases rest with
    | nil =>
      simp only [joinSep] at hc
      exact .inl (h s (by simp) c hc)
    | cons y ys =>
      rw [joinSep_cons_data s (y :: ys) (by simp)] at hc
      rcases List.mem_append.mp hc with hc | hc
      · exact .inl (h s (by simp) c hc)
      · rcases List.mem_cons.mp hc with rfl | hc
        · exact .inr rfl
        · exact ih (fun t ht => h t (by simp [ht])) c hc

theorem joinSep_head (s : String) (ss : List String) (h : s.data ≠ []) :
    (joinSep "," (s :: ss)).data.head? = s.data.head? := by
  cases ss with
  | nil => rfl
  | cons y ys =>
    rw [joinSep_cons_data s (y :: ys) (by simp)]
    cases hd : s.data with
    | nil => exact absurd hd h
    | cons c cs => simp [hd]

theorem joinSep_ne_nil (s : String) (ss : List String) (h : s.data ≠ []) :
    (joinSep "," (s :: ss)).data ≠ [] := by
  cases ss with
  | nil => exact h
  | cons y ys =>
    rw [joinSep_cons_data s (y :: ys) (by simp)]
    simp [h]

theorem getLast?_append_right {α : Type} (a b : List α) (h : b ≠ []) :
    (a ++ b).getLast? = b.getLast? := by
  rw [List.getLast?_append]
  cases hb : b.getLast? with
  | none => exact absurd (List.getLast?_eq_none_iff.mp hb) h
  | some x => simp

theorem joinSep_last (ss : List String) (s : String)
    (hall : ∀ t ∈ ss ++ [s], t.data ≠ []) :
    (joinSep "," (ss ++ [s])).data.getLast? = s.data.getLast? := by
  induction ss with
  | nil => rfl
  | cons y ys ih =>
    have hys : (ys ++ [s]) ≠ [] := by simp
    have hjoin : (joinSep "," (ys ++ [s])).data ≠ [] := by
      cases ys with
      | nil => exact hall s (by simp)
      | cons z zs => exact joinSep_ne_nil z _ (hall z (by simp))
    rw [show (y :: ys) ++ [s] = y :: (ys ++ [s]) from rfl,
      joinSep_cons_data y (ys ++ [s]) hys,
      getLast?_append_right y.data _ (by simp)]
    rw [show (',' :: (joinSep "," (ys ++ [s])).data)
        = [','] ++ (joinSep "," (ys ++ [s])).data from rfl,
      getLast?_append_right [','] _ hjoin]
    exact ih (fun t ht => hall t (by simp at ht ⊢; tauto))

/-- the weekday cron number `n ≤ 6` decodes to -/
def wdOfCron : Nat → Weekday
  | 0 => .sunday
  | 1 => .monday
  | 2 => .tuesday
  | 3 => .wednesday
  | 4 => .thursday
  | 5 => .friday
  | 6 => .saturday
  | _ => .sunday

theorem cron_dow_to_weekday_ok {n : Nat} (h : n ≤ 6) :
    cron_dow_to_weekday n = .ok (wdOfCron n) := by
  interval_cases n <;> rfl

theorem cron_dow_number_wdOfCron {n : Nat} (h : n ≤ 6) :
    cron_dow_number (wdOfCron n) = n := by
  interval_cases n <;> rfl

theorem mapM_map_ok {α β γ : Type} (m : α → β) (f : β → Except ScheduleError γ)
    (g : α → γ) : ∀ l : List α, (∀ x ∈ l, f (m x) = .ok (g x)) →
      (l.map m).mapM f = .ok (l.map g) := by
  intro l
  induction l with
  | nil => intro _; rfl
  | cons a rest ih =>
    intro h
    rw [List.map_cons, List.mapM_cons, h a (by simp),
      ih (fun x hx => h x (by simp [hx]))]
    rfl

theorem parse_dow_value_natRepr {n : Nat} (h : n ≤ 6) :
    parse_dow_value (natRepr n) = .ok n := by
  have h8 : parseU8 (natRepr n).data = some n := parseU8_natRepr (by omega)
  unfold parse_dow_value parse_dow_value_raw
  rw [h8]
  dsimp only
  rw [if_neg (by omega : ¬n > 7)]
  dsimp only
  rw [if_neg (by omega : ¬n = 7)]

theorem parse_cron_dow_part_natRepr {n : Nat} (h : n ≤ 6) :
    parse_cron_dow_part (natRepr n) = .ok [wdOfCron n] := by
  have hd := natRepr_allDigits n
  unfold parse_cron_dow_part
  rw [show splitOnceChar '/' (natRepr n) = none from by
      unfold splitOnceChar
      rw [splitOnceAux_none '/' _ (fun x hx => (digit_not_sep (hd x hx)).2.1)]
      rfl]
  rw [show splitOnceChar '-' (natRepr n) = none from by
      unfold splitOnceChar
      rw [splitOnceAux_none '-' _ (fun x hx => (digit_not_sep (hd x hx)).2.2.1)]
      rfl]
  dsimp only
  rw [parse_dow_value_natRepr h]
  dsimp only
  rw [cron_dow_to_weekday_ok h]

theorem flatten_map_singleton {α β : Type} (g : α → β) :
    ∀ l : List α, (l.map (fun x => [g x])).flatten = l.map g
  | [] => rfl
  | a :: rest => by
    rw [List.map_cons, List.flatten_cons, flatten_map_singleton g rest]
    rfl

theorem sorted_nums_facts (ds : List Weekday) (hne : ds ≠ []) :
    sortNats (ds.map cron_dow_number) ≠ [] ∧
      (∀ n ∈ sortNats (ds.map cron_dow_number), n ≤ 6) ∧
      (sortNats (ds.map cron_dow_number)).Sorted (· ≤ ·) := by
  refine ⟨?_, ?_, sortNats_sorted _⟩
  · intro hnil
    have := (sortNats_perm (ds.map cron_dow_number)).symm.length_eq
    rw [hnil] at this
    simp at this
    exact hne this
  · intro n hn
    have := (sortNats_perm (ds.map cron_dow_number)).mem_iff.mp hn
    rcases List.mem_map.mp this with ⟨w, _, rfl⟩
    exact cron_dow_number_le w

/-- round trip of a general day list through the cron DOW field, excluding
the Monday–Friday quintuple (which `parse_cron_dow` folds into `Weekday`,
changing the rendered field to `1-5`). -/
theorem dow_days_roundtrip (ds : List Weekday) (hne : ds ≠ [])
    (hq : sortNats (ds.map cron_dow_number) ≠ [1, 2, 3, 4, 5]) :
    ∃ df, parse_cron_dow (day_filter_to_cron_dow (.days ds)) = .ok df ∧
      day_filter_to_cron_dow df = day_filter_to_cron_dow (.days ds) := by
  obtain ⟨hn0, hle, hsorted⟩ := sorted_nums_facts ds hne
  obtain ⟨n0, rest, hnums⟩ : ∃ n0 rest, sortNats (ds.map cron_dow_number) = n0 :: rest := by
    cases h : sortNats (ds.map cron_dow_number) with
    | nil => exact absurd h hn0
    | cons a b => exact ⟨a, b, rfl⟩
  have hstr : day_filter_to_cron_dow (.days ds)
      = joinSep "," ((sortNats (ds.map cron_dow_number)).map natRepr) := rfl
  set nums := sortNats (ds.map cron_dow_number) with hnumsdef
  set str := joinSep "," (nums.map natRepr) with hstrdef
  -- the field is not "*": its first character is a digit
  have hhead : str.data.head? = (natRepr n0).data.head? := by
    rw [hstrdef, hnums, List.map_cons]
    exact joinSep_head _ _ (natRepr_ne_nil n0)
  have hne_star : str ≠ "*" := by
    intro heq
    obtain ⟨c, cs, hc⟩ : ∃ c cs, (natRepr n0).data = c :: cs := by
      cases h : (natRepr n0).data with
      | nil => exact absurd h (natRepr_ne_nil n0)
      | cons a b => exact ⟨a, b, rfl⟩
    have hdig : c.isDigit = true := natRepr_allDigits n0 c (by simp [hc])
    rw [heq] at hhead
    rw [hc] at hhead
    simp at hhead
    rw [← hhead] at hdig
    exact absurd hdig (by decide)
  -- splitting the join recovers the parts
  have hsplit : splitOnChar ',' str = nums.map natRepr := by
    rw [hstrdef]
    apply splitOnChar_joinSep
    · rw [hnums]; simp
    · intro s hs x hx
      rcases List.mem_map.mp hs with ⟨n, _, rfl⟩
      exact (digit_not_sep (natRepr_allDigits n x hx)).1
  have hparts : (nums.map natRepr).mapM parse_cron_dow_part
      = .ok (nums.map (fun n => [wdOfCron n])) :=
    mapM_map_ok natRepr parse_cron_dow_part (fun n => [wdOfCron n]) nums
      (fun n hn => parse_cron_dow_part_natRepr (hle n hn))
  have hflat : (nums.map (fun n => [wdOfCron n])).flatten = nums.map wdOfCron :=
    flatten_map_singleton wdOfCron nums
  set days' := nums.map wdOfCron with hdays'
  have hmapback : days'.map cron_dow_number = nums := by
    rw [hdays', List.map_map]
    apply List.map_congr_left ?_ |>.trans (List.map_id nums)
    intro n hn
    exact cron_dow_number_wdOfCron (hle n hn)
  have hrun : parse_cron_dow str
      = (if days'.length = 5 && sortWdsByNumber days' = Weekday.all_weekdays then
          .ok .weekday
        else if days'.length = 2 && sortWdsByNumber days' = [.saturday, .sunday] then
          .ok .weekend
        else .ok (.days days')) := by
    unfold parse_cron_dow
    rw [if_neg hne_star, hsplit, hparts]
    dsimp only [Except.map]
    rw [hflat]
  by_cases h5 : days'.length = 5 ∧ sortWdsByNumber days' = Weekday.all_weekdays
  · -- the excluded quintuple
    exfalso
    have hperm : days'.Perm Weekday.all_weekdays := by
      rw [← h5.2]
      exact (sortWdsByNumber_perm days').symm
    have : nums.Perm [1, 2, 3, 4, 5] := by
      have := hperm.map cron_dow_number
      rw [hmapback] at this
      simpa using this
    exact hq (List.eq_of_perm_of_sorted this hsorted (by decide))
  · by_cases h2 : days'.length = 2 ∧ sortWdsByNumber days' = [Weekday.saturday, .sunday]
    · -- the weekend pair renders back to "0,6"
      have hperm : days'.Perm [Weekday.saturday, .sunday] := by
        rw [← h2.2]
        exact (sortWdsByNumber_perm days').symm
      have hnums06 : nums = [0, 6] := by
        have := hperm.map cron_dow_number
        rw [hmapback] at this
        have h06 : nums.Perm [0, 6] := by
          refine this.trans ?_
          decide
        exact List.eq_of_perm_of_sorted h06 hsorted (by decide)
      refine ⟨.weekend, ?_, ?_⟩
      · rw [hstr, hrun, if_neg (by simpa using h5), if_pos (by simp [h2.1, h2.2])]
      · rw [hstr, hstrdef, hnums06]
        rfl
    · refine ⟨.days days', ?_, ?_⟩
      · rw [hstr, hrun, if_neg (by simpa using h5), if_neg (by simpa using h2)]
      · show joinSep "," ((sortNats (days'.map cron_dow_number)).map natRepr)
          = day_filter_to_cron_dow (.days ds)
        rw [hmapback, sortNats_eq_of_sorted hsorted, hstr]


/-! ## Cron round trip: `from_cron` evaluation on rendered fields -/

theorem endsWithChar_false (c : Char) (s : String) (h : ∀ x ∈ s.data, x ≠ c) :
    endsWithChar c s = false := by
  unfold endsWithChar
  cases hl : s.data.getLast? with
  | none => simp
  | some x =>
    have hx : x ∈ s.data := List.mem_of_mem_getLast? hl
    simp [h x hx]

theorem from_cron_fields (f1 f2 f3 f4 f5 : String)
    (h1 : NoWsStr f1) (h2 : NoWsStr f2) (h3 : NoWsStr f3) (h4 : NoWsStr f4)
    (h5 : NoWsStr f5)
    (n1 : f1.data ≠ []) (n2 : f2.data ≠ []) (n3 : f3.data ≠ []) (n4 : f4.data ≠ [])
    (n5 : f5.data ≠ [])
    (hat : ∀ c, f1.data.head? = some c → c ≠ '@')
    (q3 : f3 ≠ "?") (q5 : f5 ≠ "?") :
    from_cron (f1 ++ " " ++ f2 ++ " " ++ f3 ++ " " ++ f4 ++ " " ++ f5)
      = (match parse_month_field f4 with
        | .error e => .error e
        | .ok during =>
          match try_parse_nth_weekday f1 f2 f3 f5 during with
          | .error e => .error e
          | .ok (some sched) => .ok sched
          | .ok none =>
            match try_parse_last_day f1 f2 f3 f5 during with
            | .error e => .error e
            | .ok (some sched) => .ok sched
            | .ok none =>
              if endsWithChar 'W' f3 && f3 ≠ "LW" then
                .error (.cronE "W (nearest weekday) not yet supported")
              else
                match try_parse_interval f1 f2 f3 f5 during with
                | .error e => .error e
                | .ok (some sched) => .ok sched
                | .ok none =>
                  match parse_single_value f1 0 59, parse_single_value f2 0 23 with
                  | .ok minute, .ok hour =>
                    if f3 ≠ "*" && f5 = "*" then
                      match parse_dom_field f3 with
                      | .error e => .error e
                      | .ok target =>
                        .ok { Schedule.new (.monthRepeat 1 target [⟨hour, minute⟩]) with
                          during := during }
                    else
                      match parse_cron_dow f5 with
                      | .error e => .error e
                      | .ok days =>
                        .ok { Schedule.new (.dayRepeat 1 days [⟨hour, minute⟩]) with
                          during := during }
                  | .error e, _ => .error e
                  | _, .error e => .error e) := by
  set joined := f1 ++ " " ++ f2 ++ " " ++ f3 ++ " " ++ f4 ++ " " ++ f5 with hjoined
  have hdata : joined.data
      = f1.data ++ ' ' :: (f2.data ++ ' ' :: (f3.data ++ ' ' :: (f4.data ++ ' ' :: f5.data))) := by
    simp [hjoined, String.data_append]
  obtain ⟨a, as, hf1⟩ : ∃ a as, f1.data = a :: as := by
    cases hf : f1.data with
    | nil => exact absurd hf n1
    | cons a as => exact ⟨a, as, rfl⟩
  have htrim : trimStr joined = joined := by
    apply trimStr_eq_self
    · intro c hc
      rw [hdata, hf1] at hc
      simp at hc
      rw [← hc]
      exact h1 a (by simp [hf1])
    · intro c hc
      rw [hdata] at hc
      rw [show f1.data ++ ' ' :: (f2.data ++ ' ' :: (f3.data ++ ' ' :: (f4.data ++ ' ' :: f5.data)))
          = (f1.data ++ ' ' :: f2.data ++ ' ' :: f3.data ++ ' ' :: f4.data ++ [' ']) ++ f5.data
        from by simp] at hc
      rw [getLast?_append_right _ _ n5] at hc
      exact h5 c (List.mem_of_mem_getLast? hc)
  have hsplit : splitWs joined = [f1, f2, f3, f4, f5] :=
    splitWs_five f1 f2 f3 f4 f5 h1 h2 h3 h4 h5 n1 n2 n3 n4 n5
  unfold from_cron
  rw [htrim]
  dsimp only
  rw [hdata, hf1]
  split
  next x heq =>
    exfalso
    have : a = '@' := by
      have := heq
      simp at this
      exact this.1
    exact hat a (by rw [hf1]; rfl) (by rw [this])
  next =>
    rw [hsplit]
    dsimp only
    rw [if_neg q3, if_neg q5]

theorem nth_weekday_none (m h dom dow : String) (dur : List MonthName)
    (hsharp : ∀ x ∈ dow.data, x ≠ '#')
    (hL : endsWithChar 'L' dow = false) :
    try_parse_nth_weekday m h dom dow dur = .ok none := by
  unfold try_parse_nth_weekday
  rw [show splitOnceChar '#' dow = none from by
    unfold splitOnceChar
    rw [splitOnceAux_none '#' _ hsharp]
    rfl]
  simp [hL]

theorem last_day_none (m h dom dow : String) (dur : List MonthName)
    (h1 : dom ≠ "L") (h2 : dom ≠ "LW") :
    try_parse_last_day m h dom dow dur = .ok none := by
  unfold try_parse_last_day
  rw [if_pos (by simp [h1, h2])]

theorem interval_none (m h dom dow : String) (dur : List MonthName)
    (hm : containsChar '/' m = false) (hh : containsChar '/' h = false) :
    try_parse_interval m h dom dow dur = .ok none := by
  unfold try_parse_interval
  rw [hm, hh]
  simp

theorem parse_single_value_natRepr {n mn mx : Nat} (hmn : mn ≤ n) (hmx : n ≤ mx)
    (h255 : n ≤ 255) :
    parse_single_value (natRepr n) mn mx = .ok n := by
  unfold parse_single_value
  rw [parseU8_natRepr h255]
  dsimp only
  rw [if_neg (by simp; omega)]

theorem try_parse_interval_minutes (i : Nat) (h1 : 1 ≤ i) (hle : i ≤ 4294967295) :
    try_parse_interval ("*/" ++ natRepr i) "*" "*" "*" []
      = .ok (some { Schedule.new (.intervalRepeat i .minutes ⟨0, 0⟩ ⟨23, 59⟩ none) with
          during := [] }) := by
  have hdata : ("*/" ++ natRepr i).data = '*' :: '/' :: (natRepr i).data := by
    simp [String.data_append]
  unfold try_parse_interval
  rw [show containsChar '/' ("*/" ++ natRepr i) = true from by
    unfold containsChar
    rw [hdata]
    simp]
  rw [show splitOnceChar '/' ("*/" ++ natRepr i) = some ("*", natRepr i) from by
    unfold splitOnceChar
    rw [hdata, show '*' :: '/' :: (natRepr i).data = ['*'] ++ '/' :: (natRepr i).data from rfl,
      splitOnceAux_sep '/' ['*'] _ (by decide)]
    rfl]
  dsimp only
  rw [parseU32_natRepr hle]
  dsimp only
  rw [if_neg (by omega : ¬i = 0)]
  rw [if_pos rfl]
  simp [Schedule.new]

theorem try_parse_interval_hours (i : Nat) (h1 : 1 ≤ i) (hle : i ≤ 4294967295) :
    try_parse_interval "0" ("*/" ++ natRepr i) "*" "*" []
      = .ok (some { Schedule.new (.intervalRepeat i .hours ⟨0, 0⟩ ⟨23, 59⟩ none) with
          during := [] }) := by
  have hdata : ("*/" ++ natRepr i).data = '*' :: '/' :: (natRepr i).data := by
    simp [String.data_append]
  unfold try_parse_interval
  rw [show containsChar '/' ("0" : String) = false from by decide,
    show containsChar '/' ("*/" ++ natRepr i) = true from by
      unfold containsChar
      rw [hdata]
      simp]
  simp only [reduceIte]
  rw [show splitOnceChar '/' ("*/" ++ natRepr i) = some ("*", natRepr i) from by
    unfold splitOnceChar
    rw [hdata, show '*' :: '/' :: (natRepr i).data = ['*'] ++ '/' :: (natRepr i).data from rfl,
      splitOnceAux_sep '/' ['*'] _ (by decide)]
    rfl]
  dsimp only
  rw [parseU32_natRepr hle]
  dsimp only
  rw [if_neg (by omega : ¬i = 0)]
  rw [if_pos rfl]
  simp [Schedule.new]

theorem natRepr_noWs (n : Nat) : NoWsStr (natRepr n) :=
  fun c hc => (digit_not_sep (natRepr_allDigits n c hc)).2.2.2.2

theorem allDigits_head_ne_at {s : String} (h : AllDigits s) :
    ∀ c, s.data.head? = some c → c ≠ '@' := by
  intro c hc he
  have hm : c ∈ s.data := by
    cases hd : s.data with
    | nil => rw [hd] at hc; cases hc
    | cons a as =>
      rw [hd] at hc
      simp at hc
      simp [hd, hc]
  have := h c hm
  rw [he] at this
  exact absurd this (by decide)

theorem digitComma_noWs {s : String}
    (hdc : ∀ c ∈ s.data, c.isDigit = true ∨ c = ',') : NoWsStr s := by
  intro x hx
  rcases hdc x hx with hd | hc
  · exact (digit_not_sep hd).2.2.2.2
  · subst hc; decide

theorem digitComma_not_mem {s : String}
    (hdc : ∀ c ∈ s.data, c.isDigit = true ∨ c = ',')
    {c : Char} (h1 : c.isDigit = false) (h2 : c ≠ ',') : ∀ x ∈ s.data, x ≠ c := by
  intro x hx he
  subst he
  rcases hdc x hx with hd | hc
  · rw [h1] at hd; cases hd
  · exact h2 hc

theorem ne_of_char {s t : String} (c : Char) (hc : c ∈ t.data) (hn : ∀ x ∈ s.data, x ≠ c) :
    s ≠ t := by
  intro h
  subst h
  exact hn c hc rfl

theorem parse_dom_field_part_natRepr {d : Nat} (h1 : 1 ≤ d) (h31 : d ≤ 31) :
    parse_dom_field_part (natRepr d) = .ok [.single d] := by
  have hd := natRepr_allDigits d
  unfold parse_dom_field_part
  rw [show splitOnceChar '/' (natRepr d) = none from by
    unfold splitOnceChar
    rw [splitOnceAux_none '/' _ (fun x hx => (digit_not_sep (hd x hx)).2.1)]
    rfl]
  rw [show splitOnceChar '-' (natRepr d) = none from by
    unfold splitOnceChar
    rw [splitOnceAux_none '-' _ (fun x hx => (digit_not_sep (hd x hx)).2.2.1)]
    rfl]
  dsimp only
  rw [parseU8_natRepr (by omega)]
  dsimp only
  rw [show validate_dom d = .ok () from by
    unfold validate_dom
    rw [if_neg (by simp; omega)]]

theorem parse_dom_field_days (l : List Nat) (hne : l ≠ []) (hb : ∀ d ∈ l, 1 ≤ d ∧ d ≤ 31) :
    parse_dom_field (joinSep "," (l.map natRepr)) = .ok (.days (l.map .single)) := by
  unfold parse_dom_field
  rw [show splitOnChar ',' (joinSep "," (l.map natRepr)) = l.map natRepr from
    splitOnChar_joinSep _ (by simp [hne]) (fun s hs x hx => by
      rcases List.mem_map.mp hs with ⟨n, _, rfl⟩
      exact (digit_not_sep (natRepr_allDigits n x hx)).1)]
  rw [mapM_map_ok natRepr parse_dom_field_part (fun d => [DayOfMonthSpec.single d]) l
    (fun d hd => parse_dom_field_part_natRepr (hb d hd).1 (hb d hd).2)]
  dsimp only [Except.map]
  rw [flatten_map_singleton]

theorem expand_days_map_single (l : List Nat) :
    (MonthTarget.days (l.map .single)).expand_days = l := by
  show (l.map DayOfMonthSpec.single).flatMap DayOfMonthSpec.expand = l
  induction l with
  | nil => rfl
  | cons a rest ih =>
    rw [List.map_cons, List.flatMap_cons, ih]
    rfl

theorem noWsStr_of_all (s : String) (h : s.data.all (fun c => !isWs c) = true) :
    NoWsStr s := by
  intro x hx
  have := List.all_eq_true.mp h x hx
  simpa using this

theorem noWs_star : NoWsStr "*" := by
  intro x hx
  rw [show ("*" : String).data = ['*'] from rfl] at hx
  simp at hx
  subst hx
  decide

theorem from_cron_day_shape (mi hr : Nat) (hmi : mi ≤ 59) (hhr : hr ≤ 23) (D : String)
    (hws : NoWsStr D) (hne : D.data ≠ []) (hq : D ≠ "?")
    (hsharp : ∀ x ∈ D.data, x ≠ '#') (hL : endsWithChar 'L' D = false) :
    from_cron (natRepr mi ++ " " ++ natRepr hr ++ " * * " ++ D)
      = (match parse_cron_dow D with
        | .error e => .error e
        | .ok days =>
          .ok { Schedule.new (.dayRepeat 1 days [⟨hr, mi⟩]) with during := [] }) := by
  rw [show natRepr mi ++ " " ++ natRepr hr ++ " * * " ++ D
      = natRepr mi ++ " " ++ natRepr hr ++ " " ++ "*" ++ " " ++ "*" ++ " " ++ D from by
    simp [show (" * * " : String) = " " ++ "*" ++ " " ++ "*" ++ " " from rfl,
      String.append_assoc]]
  rw [from_cron_fields (natRepr mi) (natRepr hr) "*" "*" D
    (natRepr_noWs mi) (natRepr_noWs hr) noWs_star noWs_star hws
    (natRepr_ne_nil mi) (natRepr_ne_nil hr) (by decide) (by decide) hne
    (allDigits_head_ne_at (natRepr_allDigits mi)) (by decide) hq]
  rw [show parse_month_field "*" = Except.ok [] from rfl]
  dsimp only
  rw [nth_weekday_none _ _ _ _ _ hsharp hL]
  dsimp only
  rw [last_day_none _ _ _ _ _ (by decide) (by decide)]
  dsimp only
  rw [show endsWithChar 'W' "*" = false from by decide]
  simp only [reduceIte, Bool.false_and]
  rw [interval_none _ _ _ _ _
    (containsChar_false _ _ (fun x hx => (digit_not_sep (natRepr_allDigits mi x hx)).2.1))
    (containsChar_false _ _ (fun x hx => (digit_not_sep (natRepr_allDigits hr x hx)).2.1))]
  dsimp only
  rw [parse_single_value_natRepr (Nat.zero_le _) hmi (by omega),
    parse_single_value_natRepr (Nat.zero_le _) hhr (by omega)]
  dsimp only
  rw [if_neg (by simp : ¬((decide ("*" ≠ "*") && decide (D = "*")) = true))]
  rw [if_neg (by decide : ¬(false = true))]

theorem slashNum_noWs (i : Nat) : NoWsStr ("*/" ++ natRepr i) := by
  intro x hx
  rw [show ("*/" ++ natRepr i).data = '*' :: '/' :: (natRepr i).data from by
    simp [String.data_append]] at hx
  rcases List.mem_cons.mp hx with rfl | hx
  · rfl
  · rcases List.mem_cons.mp hx with rfl | hx
    · rfl
    · exact natRepr_noWs i x hx

theorem slashNum_ne_nil (i : Nat) : ("*/" ++ natRepr i).data ≠ [] := by
  rw [show ("*/" ++ natRepr i).data = '*' :: '/' :: (natRepr i).data from by
    simp [String.data_append]]
  simp

theorem from_cron_minutes_shape (i : Nat) (h1 : 1 ≤ i) (hle : i ≤ 4294967295) :
    from_cron ("*/" ++ natRepr i ++ " * * * *")
      = .ok { Schedule.new (.intervalRepeat i .minutes ⟨0, 0⟩ ⟨23, 59⟩ none) with
          during := [] } := by
  rw [show "*/" ++ natRepr i ++ " * * * *"
      = ("*/" ++ natRepr i) ++ " " ++ "*" ++ " " ++ "*" ++ " " ++ "*" ++ " " ++ "*" from by
    simp [show (" * * * *" : String) = " " ++ "*" ++ " " ++ "*" ++ " " ++ "*" ++ " " ++ "*" from rfl,
      String.append_assoc]]
  rw [from_cron_fields ("*/" ++ natRepr i) "*" "*" "*" "*"
    (slashNum_noWs i) noWs_star noWs_star noWs_star noWs_star
    (slashNum_ne_nil i) (by decide) (by decide) (by decide) (by decide)
    (fun c hc => by
      rw [show ("*/" ++ natRepr i).data = '*' :: '/' :: (natRepr i).data from by
        simp [String.data_append]] at hc
      simp at hc
      rw [← hc]
      decide)
    (by decide) (by decide)]
  rw [show parse_month_field "*" = Except.ok [] from rfl]
  dsimp only
  rw [nth_weekday_none _ _ _ _ _ (by decide) (by decide)]
  dsimp only
  rw [last_day_none _ _ _ _ _ (by decide) (by decide)]
  dsimp only
  rw [show endsWithChar 'W' "*" = false from by decide]
  simp only [reduceIte, Bool.false_and]
  rw [if_neg (by decide : ¬(false = true))]
  rw [try_parse_interval_minutes i h1 hle]

theorem from_cron_hours_shape (i : Nat) (h1 : 1 ≤ i) (hle : i ≤ 4294967295) :
    from_cron ("0 */" ++ natRepr i ++ " * * *")
      = .ok { Schedule.new (.intervalRepeat i .hours ⟨0, 0⟩ ⟨23, 59⟩ none) with
          during := [] } := by
  rw [show "0 */" ++ natRepr i ++ " * * *"
      = "0" ++ " " ++ ("*/" ++ natRepr i) ++ " " ++ "*" ++ " " ++ "*" ++ " " ++ "*" from by
    apply String.ext
    simp [String.data_append, show ("0 */" : String).data = ['0', ' ', '*', '/'] from rfl,
      show (" * * *" : String).data = [' ', '*', ' ', '*', ' ', '*'] from rfl,
      show ("0" : String).data = ['0'] from rfl, show (" " : String).data = [' '] from rfl,
      show ("*/" : String).data = ['*', '/'] from rfl,
      show ("*" : String).data = ['*'] from rfl]]
  rw [from_cron_fields "0" ("*/" ++ natRepr i) "*" "*" "*"
    (noWsStr_of_all _ (by decide)) (slashNum_noWs i) noWs_star noWs_star noWs_star
    (by decide) (slashNum_ne_nil i) (by decide) (by decide) (by decide)
    (fun c hc => by
      rw [show ("0" : String).data = ['0'] from rfl] at hc
      simp at hc
      rw [← hc]
      decide)
    (by decide) (by decide)]
  rw [show parse_month_field "*" = Except.ok [] from rfl]
  dsimp only
  rw [nth_weekday_none _ _ _ _ _ (by decide) (by decide)]
  dsimp only
  rw [last_day_none _ _ _ _ _ (by decide) (by decide)]
  dsimp only
  rw [show endsWithChar 'W' "*" = false from by decide]
  simp only [reduceIte, Bool.false_and]
  rw [if_neg (by decide : ¬(false = true))]
  rw [try_parse_interval_hours i h1 hle]

theorem from_cron_month_shape (mi hr : Nat) (hmi : mi ≤ 59) (hhr : hr ≤ 23)
    (l : List Nat) (hlne : l ≠ []) (hb : ∀ d ∈ l, 1 ≤ d ∧ d ≤ 31) :
    from_cron (natRepr mi ++ " " ++ natRepr hr ++ " "
        ++ joinSep "," (l.map natRepr) ++ " * *")
      = .ok { Schedule.new (.monthRepeat 1 (.days (l.map .single)) [⟨hr, mi⟩]) with
          during := [] } := by
  set dom := joinSep "," (l.map natRepr) with hdom
  have hdc : ∀ c ∈ dom.data, c.isDigit = true ∨ c = ',' :=
    joinSep_comma_chars _ (fun s hs => by
      rcases List.mem_map.mp hs with ⟨n, _, rfl⟩
      exact natRepr_allDigits n)
  obtain ⟨n0, rest, hl⟩ : ∃ n0 rest, l = n0 :: rest := by
    cases l with
    | nil => exact absurd rfl hlne
    | cons a b => exact ⟨a, b, rfl⟩
  have hdne : dom.data ≠ [] := by
    rw [hdom, hl, List.map_cons]
    exact joinSep_ne_nil _ _ (natRepr_ne_nil n0)
  have hstar : dom ≠ "*" :=
    ne_of_char '*' (by decide) (digitComma_not_mem hdc (by decide) (by decide))
  rw [show natRepr mi ++ " " ++ natRepr hr ++ " " ++ dom ++ " * *"
      = natRepr mi ++ " " ++ natRepr hr ++ " " ++ dom ++ " " ++ "*" ++ " " ++ "*" from by
    apply String.ext
    simp [String.data_append, show (" * *" : String).data = [' ', '*', ' ', '*'] from rfl,
      show (" " : String).data = [' '] from rfl,
      show ("*" : String).data = ['*'] from rfl]]
  rw [from_cron_fields (natRepr mi) (natRepr hr) dom "*" "*"
    (natRepr_noWs mi) (natRepr_noWs hr) (digitComma_noWs hdc) noWs_star noWs_star
    (natRepr_ne_nil mi) (natRepr_ne_nil hr) hdne (by decide) (by decide)
    (allDigits_head_ne_at (natRepr_allDigits mi))
    (ne_of_char '?' (by decide) (digitComma_not_mem hdc (by decide) (by decide)))
    (by decide)]
  rw [show parse_month_field "*" = Except.ok [] from rfl]
  dsimp only
  rw [nth_weekday_none _ _ _ _ _ (by decide) (by decide)]
  dsimp only
  rw [last_day_none _ _ _ _ _
    (ne_of_char 'L' (by decide) (digitComma_not_mem hdc (by decide) (by decide)))
    (ne_of_char 'L' (by decide) (digitComma_not_mem hdc (by decide) (by decide)))]
  dsimp only
  rw [show endsWithChar 'W' dom = false from
    endsWithChar_false _ _ (digitComma_not_mem hdc (by decide) (by decide))]
  simp only [reduceIte, Bool.false_and]
  rw [if_neg (by decide : ¬(false = true))]
  rw [interval_none _ _ _ _ _
    (containsChar_false _ _ (fun x hx => (digit_not_sep (natRepr_allDigits mi x hx)).2.1))
    (containsChar_false _ _ (fun x hx => (digit_not_sep (natRepr_allDigits hr x hx)).2.1))]
  dsimp only
  rw [parse_single_value_natRepr (Nat.zero_le _) hmi (by omega),
    parse_single_value_natRepr (Nat.zero_le _) hhr (by omega)]
  dsimp only
  rw [if_pos (by simp [hstar] : (decide (dom ≠ "*") && decide True) = true)]
  rw [parse_dom_field_days l hlne hb]

theorem to_cron_dayRepeat1 (df : DayFilter) (t : TimeOfDay) :
    to_cron { Schedule.new (.dayRepeat 1 df [t]) with during := [] }
      = .ok (natRepr t.minute ++ " " ++ natRepr t.hour ++ " * * "
          ++ day_filter_to_cron_dow df) := rfl

theorem to_cron_monthDays1 (specs : List DayOfMonthSpec) (t : TimeOfDay) :
    to_cron { Schedule.new (.monthRepeat 1 (.days specs) [t]) with during := [] }
      = .ok (natRepr t.minute ++ " " ++ natRepr t.hour ++ " "
          ++ joinSep "," ((MonthTarget.days specs).expand_days.map natRepr) ++ " * *") := rfl

theorem to_cron_intervalHours (i : Nat) :
    to_cron { Schedule.new (.intervalRepeat i .hours ⟨0, 0⟩ ⟨23, 59⟩ none) with
        during := [] }
      = .ok ("0 */" ++ natRepr i ++ " * * *") := rfl

theorem to_cron_intervalMinutes (i : Nat) (h60 : 60 % i = 0) :
    to_cron { Schedule.new (.intervalRepeat i .minutes ⟨0, 0⟩ ⟨23, 59⟩ none) with
        during := [] }
      = .ok ("*/" ++ natRepr i ++ " * * * *") := by
  unfold to_cron
  simp [Schedule.new, h60]

/-- The §3 well-formedness invariants, restricted to what the cron
round trip needs: times within 23:59, intervals in `1..=u32::MAX`,
day lists nonempty and not the Monday–Friday quintuple (which
`from_cron` canonicalises to `Weekday`, changing the rendered DOW
field), month-day lists nonempty with all days in `1..=31`. -/
def cronRoundtripWF (S : Schedule) : Prop :=
  match S.expr with
  | .dayRepeat _ df times =>
    (∀ t ∈ times, t.hour ≤ 23 ∧ t.minute ≤ 59) ∧
      (match df with
        | .days ds => ds ≠ [] ∧ sortNats (ds.map cron_dow_number) ≠ [1, 2, 3, 4, 5]
        | _ => True)
  | .intervalRepeat i _ _ _ _ => 1 ≤ i ∧ i ≤ 4294967295
  | .monthRepeat _ target times =>
    (∀ t ∈ times, t.hour ≤ 23 ∧ t.minute ≤ 59) ∧
      (match target with
        | .days _ => target.expand_days ≠ [] ∧ ∀ d ∈ target.expand_days, 1 ≤ d ∧ d ≤ 31
        | _ => True)
  | _ => True

theorem cron_roundtrip_master (S : Schedule) (c : String)
    (hWF : cronRoundtripWF S) (h : to_cron S = .ok c) :
    ∃ S2, from_cron c = .ok S2 ∧ to_cron S2 = .ok c := by
  unfold cronRoundtripWF at hWF
  unfold to_cron at h
  split at h
  · exact absurd h (by simp)
  split at h
  · exact absurd h (by simp)
  split at h
  · exact absurd h (by simp)
  split at h
  -- dayRepeat
  case _ interval df times heq =>
    rw [heq] at hWF
    split at h
    · exact absurd h (by simp)
    split at h
    case _ time =>
      injection h with h
      obtain ⟨htime, hdf⟩ := hWF
      obtain ⟨hh23, hm59⟩ := htime time (by simp)
      subst h
      match df with
      | .every =>
        refine ⟨{ Schedule.new (.dayRepeat 1 .every [⟨time.hour, time.minute⟩]) with
          during := [] }, ?_, ?_⟩
        · rw [show day_filter_to_cron_dow .every = "*" from rfl,
            from_cron_day_shape time.minute time.hour hm59 hh23 "*"
              noWs_star (by decide) (by decide) (by decide) (by decide)]
          rfl
        · rw [to_cron_dayRepeat1]
      | .weekday =>
        refine ⟨{ Schedule.new (.dayRepeat 1 .weekday [⟨time.hour, time.minute⟩]) with
          during := [] }, ?_, ?_⟩
        · rw [show day_filter_to_cron_dow .weekday = "1-5" from rfl,
            from_cron_day_shape time.minute time.hour hm59 hh23 "1-5"
              (noWsStr_of_all _ (by decide)) (by decide) (by decide)
              (by intro x hx; rw [show ("1-5" : String).data = ['1', '-', '5'] from rfl] at hx
                  simp at hx
                  rcases hx with rfl | rfl | rfl <;> decide)
              (by decide)]
          rw [show parse_cron_dow "1-5" = .ok .weekday from by decide]
        · rw [to_cron_dayRepeat1]
      | .weekend =>
        refine ⟨{ Schedule.new (.dayRepeat 1 .weekend [⟨time.hour, time.minute⟩]) with
          during := [] }, ?_, ?_⟩
        · rw [show day_filter_to_cron_dow .weekend = "0,6" from rfl,
            from_cron_day_shape time.minute time.hour hm59 hh23 "0,6"
              (noWsStr_of_all _ (by decide)) (by decide) (by decide)
              (by intro x hx; rw [show ("0,6" : String).data = ['0', ',', '6'] from rfl] at hx
                  simp at hx
                  rcases hx with rfl | rfl | rfl <;> decide)
              (by decide)]
          rw [show parse_cron_dow "0,6" = .ok .weekend from by decide]
        · rw [to_cron_dayRepeat1]
      | .days ds =>
        obtain ⟨hdsne, hquint⟩ := hdf
        obtain ⟨hn0, hle6, hsorted⟩ := sorted_nums_facts ds hdsne
        have hdc : ∀ x ∈ (day_filter_to_cron_dow (.days ds)).data,
            x.isDigit = true ∨ x = ',' := by
          show ∀ x ∈ (joinSep "," ((sortNats (ds.map cron_dow_number)).map natRepr)).data, _
          exact joinSep_comma_chars _ (fun s hs => by
            rcases List.mem_map.mp hs with ⟨n, _, rfl⟩
            exact natRepr_allDigits n)
        have hdne : (day_filter_to_cron_dow (.days ds)).data ≠ [] := by
          show (joinSep "," ((sortNats (ds.map cron_dow_number)).map natRepr)).data ≠ []
          obtain ⟨n0, rest, hnums⟩ : ∃ n0 rest,
              sortNats (ds.map cron_dow_number) = n0 :: rest := by
            cases hz : sortNats (ds.map cron_dow_number) with
            | nil => exact absurd hz hn0
            | cons a b => exact ⟨a, b, rfl⟩
          rw [hnums, List.map_cons]
          exact joinSep_ne_nil _ _ (natRepr_ne_nil n0)
        obtain ⟨df2, hparse, hrender⟩ := dow_days_roundtrip ds hdsne hquint
        refine ⟨{ Schedule.new (.dayRepeat 1 df2 [⟨time.hour, time.minute⟩]) with
          during := [] }, ?_, ?_⟩
        · rw [from_cron_day_shape time.minute time.hour hm59 hh23 _
            (digitComma_noWs hdc) hdne
            (ne_of_char '?' (by decide) (digitComma_not_mem hdc (by decide) (by decide)))
            (digitComma_not_mem hdc (by decide) (by decide))
            (endsWithChar_false _ _ (digitComma_not_mem hdc (by decide) (by decide)))]
          rw [hparse]
        · rw [to_cron_dayRepeat1, hrender]
    · exact absurd h (by simp)
  -- intervalRepeat
  case _ interval unit fromT toT day_filter heq =>
    rw [heq] at hWF
    obtain ⟨hi1, hile⟩ := hWF
    split at h
    · exact absurd h (by simp)
    split at h
    · exact absurd h (by simp)
    split at h
    -- minutes
    · split at h
      · exact absurd h (by simp)
      case _ h60 =>
        injection h with h
        subst h
        refine ⟨_, from_cron_minutes_shape interval hi1 hile, ?_⟩
        exact to_cron_intervalMinutes interval (by omega)
    -- hours
    · injection h with h
      subst h
      exact ⟨_, from_cron_hours_shape interval hi1 hile, to_cron_intervalHours interval⟩
  · exact absurd h (by simp)
  -- monthRepeat
  case _ interval target times heq =>
    rw [heq] at hWF
    split at h
    · exact absurd h (by simp)
    split at h
    case _ time =>
      obtain ⟨htime, htgt⟩ := hWF
      obtain ⟨hh23, hm59⟩ := htime time (by simp)
      split at h
      -- .days specs
      case _ specs =>
        obtain ⟨hexne, hexb⟩ := htgt
        injection h with h
        subst h
        refine ⟨{ Schedule.new (.monthRepeat 1
            (.days ((MonthTarget.days specs).expand_days.map .single))
            [⟨time.hour, time.minute⟩]) with during := [] }, ?_, ?_⟩
        · rw [from_cron_month_shape time.minute time.hour hm59 hh23
            (MonthTarget.days specs).expand_days hexne hexb]
        · rw [to_cron_monthDays1, expand_days_map_single]
      · exact absurd h (by simp)
      · exact absurd h (by simp)
      · exact absurd h (by simp)
    · exact absurd h (by simp)
  · exact absurd h (by simp)
  · exact absurd h (by simp)
  · exact absurd h (by simp)

/-- **C4, counterexample**: the cron round trip is not string-stable for every
schedule `to_cron` accepts. The day list Monday–Friday renders to
`0 9 * * 1,2,3,4,5`, which `from_cron` folds into the `Weekday` filter, and
that schedule renders to `0 9 * * 1-5`, a different string. -/
theorem C4_counterexample :
    to_cron (Schedule.new (.dayRepeat 1
        (.days [.monday, .tuesday, .wednesday, .thursday, .friday]) [⟨9, 0⟩]))
      = .ok "0 9 * * 1,2,3,4,5"
    ∧ ∃ S2, from_cron "0 9 * * 1,2,3,4,5" = .ok S2
        ∧ to_cron S2 = .ok "0 9 * * 1-5"
        ∧ "0 9 * * 1-5" ≠ "0 9 * * 1,2,3,4,5" := by
  exact ⟨by decide, { Schedule.new (.dayRepeat 1 .weekday [⟨9, 0⟩]) with during := [] },
    by decide, by decide, by decide⟩

/-- **C4, amended**: for every schedule `S` satisfying the §3 well-formedness
invariants (bounded times, intervals in `1..=u32::MAX`, nonempty in-range day
lists) whose day filter is not the Monday–Friday quintuple list, if
`to_cron S` succeeds with string `c` then `from_cron c` succeeds and the
resulting schedule renders back to exactly `c`. -/
theorem C4_cron_roundtrip_amended (S : Schedule) (c : String)
    (hWF : cronRoundtripWF S) (h : to_cron S = .ok c) :
    ∃ S2, from_cron c = .ok S2 ∧ to_cron S2 = .ok c :=
  cron_roundtrip_master S c hWF h

theorem C4_cron_roundtrip_amended_witness :
    cronRoundtripWF (Schedule.new (.dayRepeat 1 (.days [.monday, .wednesday]) [⟨9, 0⟩]))
    ∧ to_cron (Schedule.new (.dayRepeat 1 (.days [.monday, .wednesday]) [⟨9, 0⟩]))
        = .ok "0 9 * * 1,3"
    ∧ ∃ S2, from_cron "0 9 * * 1,3" = .ok S2 ∧ to_cron S2 = .ok "0 9 * * 1,3" :=
  ⟨⟨by decide, by decide⟩, by decide,
    C4_cron_roundtrip_amended
      (Schedule.new (.dayRepeat 1 (.days [.monday, .wednesday]) [⟨9, 0⟩]))
      "0 9 * * 1,3" ⟨by decide, by decide⟩ (by decide)⟩

theorem try_parse_interval_minute_range (a b st hh : Nat)
    (hab : a ≤ b) (hb : b ≤ 255) (hh255 : hh ≤ 255)
    (hst1 : 1 ≤ st) (hstle : st ≤ 4294967295) :
    try_parse_interval (natRepr a ++ "-" ++ natRepr b ++ "/" ++ natRepr st)
        (natRepr hh) "*" "*" []
      = .ok (some { Schedule.new (.intervalRepeat st .minutes ⟨hh, a⟩
          ⟨hh, if a = 0 ∧ b = 59 ∧ hh = 23 then 59
            else if a = 0 ∧ b = 59 then 0 else b⟩
          none) with during := [] }) := by
  have hra : (natRepr a ++ "-" ++ natRepr b).data
      = (natRepr a).data ++ '-' :: (natRepr b).data := by
    simp [String.data_append]
  have hdata : (natRepr a ++ "-" ++ natRepr b ++ "/" ++ natRepr st).data
      = ((natRepr a).data ++ '-' :: (natRepr b).data) ++ '/' :: (natRepr st).data := by
    simp [String.data_append]
  have hnoslash : ∀ x ∈ (natRepr a).data ++ '-' :: (natRepr b).data, x ≠ '/' := by
    intro x hx
    rcases List.mem_append.mp hx with hx | hx
    · exact (digit_not_sep (natRepr_allDigits a x hx)).2.1
    · rcases List.mem_cons.mp hx with rfl | hx
      · decide
      · exact (digit_not_sep (natRepr_allDigits b x hx)).2.1
  unfold try_parse_interval
  rw [show containsChar '/' (natRepr a ++ "-" ++ natRepr b ++ "/" ++ natRepr st)
      = true from by
    unfold containsChar
    rw [hdata]
    simp]
  rw [show splitOnceChar '/' (natRepr a ++ "-" ++ natRepr b ++ "/" ++ natRepr st)
      = some (natRepr a ++ "-" ++ natRepr b, natRepr st) from by
    unfold splitOnceChar
    rw [hdata, splitOnceAux_sep '/' _ _ hnoslash]
    dsimp only [Option.map]
    rw [show String.mk ((natRepr a).data ++ '-' :: (natRepr b).data)
        = natRepr a ++ "-" ++ natRepr b from String.ext hra.symm]]
  dsimp only
  rw [parseU32_natRepr hstle]
  dsimp only
  rw [if_neg (by omega : ¬st = 0)]
  rw [if_neg (ne_of_char '*' (by decide) (by
    intro x hx
    rw [hra] at hx
    rcases List.mem_append.mp hx with hx | hx
    · exact (fun he => absurd (natRepr_allDigits a x hx) (by rw [he]; decide))
    · rcases List.mem_cons.mp hx with rfl | hx
      · decide
      · exact (fun he => absurd (natRepr_allDigits b x hx) (by rw [he]; decide))))]
  rw [show splitOnceChar '-' (natRepr a ++ "-" ++ natRepr b)
      = some (natRepr a, natRepr b) from by
    unfold splitOnceChar
    rw [hra, splitOnceAux_sep '-' _ _
      (fun x hx => (digit_not_sep (natRepr_allDigits a x hx)).2.2.1)]
    rfl]
  dsimp only
  rw [parseU8_natRepr (by omega : a ≤ 255), parseU8_natRepr hb]
  dsimp only
  rw [if_neg (by omega : ¬a > b)]
  dsimp only
  rw [if_neg (ne_of_char '*' (by decide)
    (fun x hx => fun he => absurd (natRepr_allDigits hh x hx) (by rw [he]; decide)))]
  rw [show splitOnceChar '-' (natRepr hh) = none from by
    unfold splitOnceChar
    rw [splitOnceAux_none '-' _
      (fun x hx => (digit_not_sep (natRepr_allDigits hh x hx)).2.2.1)]
    rfl]
  dsimp only
  rw [containsChar_false '/' _
    (fun x hx => (digit_not_sep (natRepr_allDigits hh x hx)).2.1)]
  simp only [Bool.false_eq_true, if_false]
  rw [parseU8_natRepr hh255]
  dsimp only
  simp only [if_true]
  rw [if_pos (by simp : (decide True || decide (("*" : String) = "?")) = true)]
  dsimp only
  rw [show (if (decide (a = 0) && decide (b = 59) && decide (hh = 23)) = true then (59 : Nat)
      else if (decide (a = 0) && decide (b = 59)) = true then 0 else b)
      = (if a = 0 ∧ b = 59 ∧ hh = 23 then 59 else if a = 0 ∧ b = 59 then 0 else b) from by
    by_cases h1 : a = 0
    · by_cases h2 : b = 59
      · by_cases h3 : hh = 23 <;> simp [h1, h2, h3]
      · simp [h1, h2]
    · simp [h1]]


theorem from_cron_minute_range_shape (a b st hh : Nat)
    (hab : a ≤ b) (hb : b ≤ 255) (hh255 : hh ≤ 255)
    (hst1 : 1 ≤ st) (hstle : st ≤ 4294967295) :
    from_cron (natRepr a ++ "-" ++ natRepr b ++ "/" ++ natRepr st
        ++ " " ++ natRepr hh ++ " * * *")
      = .ok { Schedule.new (.intervalRepeat st .minutes ⟨hh, a⟩
          ⟨hh, if a = 0 ∧ b = 59 ∧ hh = 23 then 59
            else if a = 0 ∧ b = 59 then 0 else b⟩
          none) with during := [] } := by
  set f1 := natRepr a ++ "-" ++ natRepr b ++ "/" ++ natRepr st with hf1
  have hdata : f1.data
      = (natRepr a).data ++ '-' :: ((natRepr b).data ++ '/' :: (natRepr st).data) := by
    simp [hf1, String.data_append]
  have hclass : ∀ x ∈ f1.data, x.isDigit = true ∨ x = '-' ∨ x = '/' := by
    intro x hx
    rw [hdata] at hx
    rcases List.mem_append.mp hx with hx | hx
    · exact .inl (natRepr_allDigits a x hx)
    · rcases List.mem_cons.mp hx with rfl | hx
      · exact .inr (.inl rfl)
      · rcases List.mem_append.mp hx with hx | hx
        · exact .inl (natRepr_allDigits b x hx)
        · rcases List.mem_cons.mp hx with rfl | hx
          · exact .inr (.inr rfl)
          · exact .inl (natRepr_allDigits st x hx)
  have hnws : NoWsStr f1 := by
    intro x hx
    rcases hclass x hx with hd | rfl | rfl
    · exact (digit_not_sep hd).2.2.2.2
    · rfl
    · rfl
  have hne : f1.data ≠ [] := by
    rw [hdata]
    intro hcontra
    exact (natRepr_ne_nil a) (List.append_eq_nil.mp hcontra).1
  have hq : f1 ≠ "?" := by
    refine ne_of_char '?' (by decide) ?_
    intro x hx he
    rcases hclass x hx with hd | h2 | h2
    · rw [he] at hd; exact absurd hd (by decide)
    · rw [he] at h2; exact absurd h2 (by decide)
    · rw [he] at h2; exact absurd h2 (by decide)
  have hhead : ∀ c, f1.data.head? = some c → c ≠ '@' := by
    intro c hc he
    have hm : c ∈ f1.data := by
      cases hd : f1.data with
      | nil => rw [hd] at hc; cases hc
      | cons y ys =>
        rw [hd] at hc
        simp at hc
        simp [hd, hc]
    rcases hclass c hm with hd | h2 | h2
    · rw [he] at hd; exact absurd hd (by decide)
    · rw [he] at h2; exact absurd h2 (by decide)
    · rw [he] at h2; exact absurd h2 (by decide)
  rw [show f1 ++ " " ++ natRepr hh ++ " * * *"
      = f1 ++ " " ++ natRepr hh ++ " " ++ "*" ++ " " ++ "*" ++ " " ++ "*" from by
    apply String.ext
    simp [String.data_append, show (" * * *" : String).data = [' ', '*', ' ', '*', ' ', '*'] from rfl,
      show (" " : String).data = [' '] from rfl,
      show ("*" : String).data = ['*'] from rfl]]
  rw [from_cron_fields f1 (natRepr hh) "*" "*" "*"
    hnws (natRepr_noWs hh) noWs_star noWs_star noWs_star
    hne (natRepr_ne_nil hh) (by decide) (by decide) (by decide)
    hhead (by decide) (by decide)]
  rw [show parse_month_field "*" = Except.ok [] from rfl]
  dsimp only
  rw [nth_weekday_none _ _ _ _ _ (by decide) (by decide)]
  dsimp only
  rw [last_day_none _ _ _ _ _ (by decide) (by decide)]
  dsimp only
  rw [show endsWithChar 'W' "*" = false from by decide]
  simp only [reduceIte, Bool.false_and]
  rw [if_neg (by decide : ¬(false = true))]
  rw [try_parse_interval_minute_range a b st hh hab hb hh255 hst1 hstle]

/-- **C8, counterexample**: a minute-interval cron expression whose window is
not the full day can still get an end minute of 59 (minute range `5-59` on a
single hour), and a partial minute range passes through its own end (here 50)
rather than becoming 00. -/
theorem C8_counterexample :
    from_cron "5-59/5 9 * * *"
      = .ok { Schedule.new (.intervalRepeat 5 .minutes ⟨9, 5⟩ ⟨9, 59⟩ none) with
          during := [] }
    ∧ from_cron "10-50/5 9 * * *"
      = .ok { Schedule.new (.intervalRepeat 5 .minutes ⟨9, 10⟩ ⟨9, 50⟩ none) with
          during := [] } := by
  exact ⟨by decide, by decide⟩

/-- **C8, amended**: for a 5-field cron expression with minute field `a-b/st`
and a single hour `hh`, `from_cron` yields a minute `IntervalRepeat` whose end
minute is 59 exactly when the minute range is `0-59` and the hour is 23, is 00
when the minute range is `0-59` on an earlier hour, and otherwise is the
range's own end `b`. -/
theorem C8_minute_interval_window (a b st hh : Nat)
    (hab : a ≤ b) (hb : b ≤ 255) (hh255 : hh ≤ 255)
    (hst1 : 1 ≤ st) (hstle : st ≤ 4294967295) :
    from_cron (natRepr a ++ "-" ++ natRepr b ++ "/" ++ natRepr st
        ++ " " ++ natRepr hh ++ " * * *")
      = .ok { Schedule.new (.intervalRepeat st .minutes ⟨hh, a⟩
          ⟨hh, if a = 0 ∧ b = 59 ∧ hh = 23 then 59
            else if a = 0 ∧ b = 59 then 0 else b⟩
          none) with during := [] } :=
  from_cron_minute_range_shape a b st hh hab hb hh255 hst1 hstle

theorem C8_minute_interval_window_witness :
    from_cron (natRepr 5 ++ "-" ++ natRepr 59 ++ "/" ++ natRepr 5
        ++ " " ++ natRepr 9 ++ " * * *")
      = .ok { Schedule.new (.intervalRepeat 5 .minutes ⟨9, 5⟩
          ⟨9, if 5 = 0 ∧ 59 = 59 ∧ 9 = 23 then 59
            else if 5 = 0 ∧ 59 = 59 then 0 else 59⟩
          none) with during := [] } :=
  C8_minute_interval_window 5 59 5 9 (by decide) (by decide) (by decide)
    (by decide) (by decide)

/-- **C7**: the lexer's keyword table has no entries for `next`, `previous`,
or `nearest`, so the nearest-weekday example from the spec fails with an
unknown-keyword lexical error instead of tokenizing (and the parser can never
see such tokens). -/
theorem C7_nearest_keywords_missing :
    wordKind "next" = none ∧ wordKind "previous" = none ∧ wordKind "nearest" = none
    ∧ tokenize "every month on the nearest weekday to 15th at 09:00"
        = .error (.lexE "unknown keyword") :=
  ⟨rfl, rfl, rfl, by decide⟩

/-- **C6, counterexample**: the parser accepts out-of-range day-of-month
numbers instead of rejecting them: day 99 in a month-day list, day 99 in an
exception, and the inverted range 5th–3rd all parse successfully. -/
theorem C6_counterexample :
    parse "every month on the 99th at 9:00"
      = .ok (Schedule.new (.monthRepeat 1 (.days [.single 99]) [⟨9, 0⟩]))
    ∧ parse "every day at 9:00 except december 99"
      = .ok { Schedule.new (.dayRepeat 1 .every [⟨9, 0⟩]) with
          except := [.named .december 99] }
    ∧ parse "every month on the 5th to 3rd at 9:00"
      = .ok (Schedule.new (.monthRepeat 1 (.days [.range 5 3]) [⟨9, 0⟩])) := by
  exact ⟨by decide, by decide, by decide⟩

/-- **C6, amended**: the parser performs no range validation on day-of-month
fields on any of its paths: the day number is truncated to `n % 256` (the
`*n as u8` cast) and accepted for every `n` in an exception, an until spec,
a single-date target and a year target alike, and an ordinal day range is
accepted as `Range (a % 256) (b % 256)` for every `a`, `b`, including
`a > b`. -/
theorem C6_no_range_check (mn : MonthName) (n a b : Nat) (rest : List TokenKind) :
    parse_exception (.monthName mn.as_str :: .number n :: rest)
      = .ok (.named mn (n % 256), rest)
    ∧ parse_until_spec (.monthName mn.as_str :: .number n :: rest)
      = .ok (.named mn (n % 256), rest)
    ∧ parse_date_target (.monthName mn.as_str :: .number n :: rest)
      = .ok (.named mn (n % 256), rest)
    ∧ parse_year_target_after_the
        (.ordinalNumber n :: .ofK :: .monthName mn.as_str :: rest)
      = .ok (.dayOfMonth (n % 256) mn, rest)
    ∧ parse_ordinal_day_spec (.ordinalNumber a :: .toK :: .ordinalNumber b :: rest)
      = .ok (.range (a % 256) (b % 256), rest) := by
  refine ⟨?_, ?_, ?_, ?_, rfl⟩ <;> cases mn <;> rfl

/-! ## Evaluation (`eval.rs`)

Instants (`jiff::Zoned`) are modelled as `Int` timestamps in seconds; a
timezone is a pair of total functions between instants and civil wall
clocks (date plus second-of-day).  `jiff`'s timezone database is a
parameter `db : String → Option TimeZone` of the evaluation functions.
The host library's representable-range errors (year beyond ±9999,
instant overflow) are not modelled: date stepping and zone conversion
are total here.  Rust's `i64` operators `/`, `%` and `rem_euclid` are
written `Int.div`, `Int.tmod` and `Int.emod`. -/

/-- days since 1970-01-01 (`jiff` civil date ↔ epoch day arithmetic) -/
def CivilDate.toDays (d : CivilDate) : Int :=
  let y := if d.month ≤ 2 then d.year - 1 else d.year
  let era := y.fdiv 400
  let yoe := y - era * 400
  let mp := (d.month + 9).emod 12
  let doy := (153 * mp + 2).fdiv 5 + d.day - 1
  let doe := yoe * 365 + yoe.fdiv 4 - yoe.fdiv 100 + doy
  era * 146097 + doe - 719468

/-- epoch day number back to a civil date -/
def CivilDate.fromDays (z0 : Int) : CivilDate :=
  let z := z0 + 719468
  let era := z.fdiv 146097
  let doe := z - era * 146097
  let yoe := (doe - doe.fdiv 1460 + doe.fdiv 36524 - doe.fdiv 146096).fdiv 365
  let y := yoe + era * 400
  let doy := doe - (365 * yoe + yoe.fdiv 4 - yoe.fdiv 100)
  let mp := (5 * doy + 2).fdiv 153
  let dd := doy - (153 * mp + 2).fdiv 5 + 1
  let m := if mp < 10 then mp + 3 else mp - 9
  ⟨if m ≤ 2 then y + 1 else y, m, dd⟩

/-- `Date::tomorrow` (total: the ±9999 year bound is not modelled) -/
def CivilDate.tomorrow (d : CivilDate) : CivilDate :=
  if d.day < daysInMonth d.year d.month then ⟨d.year, d.month, d.day + 1⟩
  else if d.month < 12 then ⟨d.year, d.month + 1, 1⟩
  else ⟨d.year + 1, 1, 1⟩

/-- `Date::yesterday` -/
def CivilDate.yesterday (d : CivilDate) : CivilDate :=
  if d.day > 1 then ⟨d.year, d.month, d.day - 1⟩
  else if d.month > 1 then ⟨d.year, d.month - 1, daysInMonth d.year (d.month - 1)⟩
  else ⟨d.year - 1, 12, 31⟩

/-- `Date::checked_add(Span::days(k))` -/
def CivilDate.addDays (d : CivilDate) (k : Int) : CivilDate :=
  CivilDate.fromDays (d.toDays + k)

/-- `Weekday::to_monday_one_offset` of a date's weekday (1 = Monday,
7 = Sunday; 1970-01-01 was a Thursday). -/
def CivilDate.mondayOffset (d : CivilDate) : Int := (d.toDays + 3).emod 7 + 1

/-- the `jiff` weekday of a date, as this crate's `Weekday`
(`Weekday::from_jiff(date.weekday())`) -/
def CivilDate.weekday (d : CivilDate) : Weekday :=
  match d.mondayOffset with
  | 1 => .monday
  | 2 => .tuesday
  | 3 => .wednesday
  | 4 => .thursday
  | 5 => .friday
  | 6 => .saturday
  | _ => .sunday

/-- strict lexicographic order on civil dates (`jiff`'s `Date` order) -/
def CivilDate.lt (a b : CivilDate) : Prop :=
  a.year < b.year ∨ (a.year = b.year ∧
    (a.month < b.month ∨ (a.month = b.month ∧ a.day < b.day)))

instance (a b : CivilDate) : Decidable (CivilDate.lt a b) := by
  unfold CivilDate.lt
  infer_instance

/-- a civil date with month and day in their calendar ranges (what a
timezone's instant-to-civil map produces) -/
def ValidishDate (d : CivilDate) : Prop :=
  1 ≤ d.month ∧ d.month ≤ 12 ∧ 1 ≤ d.day ∧ d.day ≤ 31

/-- `jiff::tz::TimeZone`, as its two conversion directions: civil wall
clock (date, second-of-day) to instant, and instant back to wall clock. -/
structure TimeZone where
  toInst : CivilDate → Int → Int
  toCiv : Int → CivilDate × Int

/-- the zone maps instants to in-range civil dates, and an instant's
civil date strictly below another (in-range) civil date keeps the
instant below that date's midnight — monotonicity of the two maps. -/
def TimeZone.Coherent (tz : TimeZone) : Prop :=
  (∀ i, ValidishDate (tz.toCiv i).1) ∧
  (∀ i d2, CivilDate.lt (tz.toCiv i).1 d2 → ValidishDate d2 → i < tz.toInst d2 0)

/-- `TimeZone::UTC` -/
def TimeZone.utc : TimeZone where
  toInst d s := d.toDays * 86400 + s
  toCiv i := (CivilDate.fromDays (i.fdiv 86400), i.emod 86400)

/-- `EPOCH_MONDAY`: Monday 1970-01-05 -/
def EPOCH_MONDAY : CivilDate := ⟨1970, 1, 5⟩

/-- `EPOCH_DATE`: 1970-01-01 -/
def EPOCH_DATE : CivilDate := ⟨1970, 1, 1⟩

/-- `resolve_tz`, over the timezone database `db` -/
def resolve_tz (db : String → Option TimeZone) (tz : Option String) :
    Except ScheduleError TimeZone :=
  match tz with
  | some name =>
    match db name with
    | some z => .ok z
    | none => .error (.evalE ("invalid timezone '" ++ name ++ "'"))
  | none => .ok TimeZone.utc

/-- `to_time`: a `TimeOfDay` as a second-of-day -/
def to_time (tod : TimeOfDay) : Int := (tod.hour : Int) * 3600 + (tod.minute : Int) * 60

/-- `at_time_on_date` (total: `to_zoned` range errors are not modelled) -/
def at_time_on_date (date : CivilDate) (time : Int) (tz : TimeZone) : Int :=
  tz.toInst date time

/-- `matches_day_filter` -/
def matches_day_filter (date : CivilDate) (filter : DayFilter) : Bool :=
  let wd := date.weekday
  match filter with
  | .every => true
  | .weekday => wd = .monday || wd = .tuesday || wd = .wednesday
      || wd = .thursday || wd = .friday
  | .weekend => wd = .saturday || wd = .sunday
  | .days days => days.contains wd

/-- `last_day_of_month` -/
def last_day_of_month (year month : Int) : CivilDate :=
  if month = 12 then (⟨year + 1, 1, 1⟩ : CivilDate).yesterday
  else (⟨year, month + 1, 1⟩ : CivilDate).yesterday

/-- the `loop` of `last_weekday_of_month`, fuelled (at most 2 steps are
ever taken from a month's last day) -/
def lastWeekdayAux : Nat → CivilDate → CivilDate
  | 0, d => d
  | fuel + 1, d =>
    if d.weekday ≠ .saturday && d.weekday ≠ .sunday then d
    else lastWeekdayAux fuel d.yesterday

/-- `last_weekday_of_month` -/
def last_weekday_of_month (year month : Int) : CivilDate :=
  lastWeekdayAux 7 (last_day_of_month year month)

/-- the first-occurrence scan of `nth_weekday_of_month`, fuelled -/
def firstWeekdayAux (target : Weekday) : Nat → CivilDate → Option CivilDate
  | 0, _ => none
  | fuel + 1, d =>
    if d.weekday = target then some d
    else firstWeekdayAux target fuel d.tomorrow

/-- `nth_weekday_of_month` -/
def nth_weekday_of_month (year month : Int) (weekday : Weekday) (n : Nat) :
    Option CivilDate :=
  match CivilDate.new year month 1 with
  | none => none
  | some first =>
    match firstWeekdayAux weekday 7 first with
    | none => none
    | some d =>
      let d2 := d.addDays (7 * ((n : Int) - 1))
      if d2.month ≠ month then none else some d2

/-- the backward scan of `last_weekday_in_month`, fuelled -/
def lastWeekdayInAux (target : Weekday) : Nat → CivilDate → CivilDate
  | 0, d => d
  | fuel + 1, d =>
    if d.weekday = target then d
    else lastWeekdayInAux target fuel d.yesterday

/-- `last_weekday_in_month` -/
def last_weekday_in_month (year month : Int) (weekday : Weekday) : CivilDate :=
  lastWeekdayInAux weekday 7 (last_day_of_month year month)

/-- `nearest_weekday` -/
def nearest_weekday (year month : Int) (target_day : Nat)
    (direction : Option NearestDirection) : Option CivilDate :=
  let last := last_day_of_month year month
  let last_day := last.day
  if (target_day : Int) > last_day then none
  else
    match CivilDate.new year month target_day with
    | none => none
    | some date =>
      match date.weekday, direction with
      | .monday, _ | .tuesday, _ | .wednesday, _ | .thursday, _ | .friday, _ =>
        some date
      | .saturday, none =>
        if target_day = 1 then some (date.addDays 2) else some date.yesterday
      | .saturday, some .next => some (date.addDays 2)
      | .saturday, some .previous => some date.yesterday
      | .sunday, none =>
        if (target_day : Int) ≥ last_day then some (date.addDays (-2))
        else some date.tomorrow
      | .sunday, some .next => some date.tomorrow
      | .sunday, some .previous => some (date.addDays (-2))

/-- `weeks_between` (`i64` division truncates) -/
def weeks_between (a b : CivilDate) : Int := (b.toDays - a.toDays).tdiv 7

/-- `days_between` -/
def days_between (a b : CivilDate) : Int := b.toDays - a.toDays

/-- `months_between_ym` -/
def months_between_ym (a b : CivilDate) : Int :=
  (b.year * 12 + b.month) - (a.year * 12 + a.month)

/-- the value of a `u8` after Rust's `as i8` cast (the evaluator compares
day numbers through this cast) -/
def u8AsI8 (n : Nat) : Int :=
  if n % 256 ≥ 128 then (n % 256 : Int) - 256 else (n % 256 : Int)

/-- `is_excepted` (also the behaviour of `ParsedExceptions::is_excepted`:
unparseable ISO exception strings are silently ignored) -/
def is_excepted (date : CivilDate) (exceptions : List Exception) : Bool :=
  exceptions.any (fun exc =>
    match exc with
    | .named month day => date.month = (month.number : Int) && date.day = u8AsI8 day
    | .iso s =>
      match parseIsoDate s with
      | some exc_date => date = exc_date
      | none => false)

/-- `matches_during` -/
def matches_during (date : CivilDate) (during : List MonthName) : Bool :=
  if during.isEmpty then true
  else during.any (fun mn => (mn.number : Int) = date.month)

/-- `next_during_month` (the `months[0]` indexing of the source panics on an
empty list; both call sites guard on a nonempty `during`, and the model
returns January 1 of the next year there) -/
def next_during_month (date : CivilDate) (during : List MonthName) : CivilDate :=
  let months := sortNats (during.map MonthName.number)
  match months.find? (fun (m : Nat) => (m : Int) > date.month) with
  | some m => ⟨date.year, (m : Int), 1⟩
  | none =>
    match months with
    | m0 :: _ => ⟨date.year + 1, (m0 : Int), 1⟩
    | [] => ⟨date.year + 1, 1, 1⟩

/-- `resolve_until` -/
def resolve_until (u : UntilSpec) (now_date : CivilDate) :
    Except ScheduleError CivilDate :=
  match u with
  | .iso s =>
    match parseIsoDate s with
    | some d => .ok d
    | none => .error (.evalE ("invalid until date '" ++ s ++ "'"))
  | .named month day =>
    let year := now_date.year
    match (match CivilDate.new year month.number day with
      | some d => if ¬CivilDate.lt d now_date then some d else none
      | none => none) with
    | some d => .ok d
    | none =>
      match (match CivilDate.new (year + 1) month.number day with
        | some d => if ¬CivilDate.lt d now_date then some d else none
        | none => none) with
      | some d => .ok d
      | none =>
        match CivilDate.new (year + 1) month.number day with
        | some d => .ok d
        | none => .error (.evalE "invalid until date")

/-- `time_matches_with_dst`: the wall clock of `zdt` in `tz` matches a
scheduled time's hour and minute, or the scheduled time resolves (through
a DST gap) to `zdt`'s instant -/
def time_matches_with_dst (date : CivilDate) (times : List TimeOfDay)
    (tz : TimeZone) (zdt : Int) : Bool :=
  times.any (fun tod =>
    let ws := (tz.toCiv zdt).2
    (ws.fdiv 3600 = (tod.hour : Int) && (ws.emod 3600).fdiv 60 = (tod.minute : Int))
    || at_time_on_date date (to_time tod) tz = zdt)

/-- `earliest_future_at_times` -/
def earliest_future_at_times (date : CivilDate) (times : List TimeOfDay)
    (tz : TimeZone) (now : Int) : Option Int :=
  times.foldl (fun best tod =>
    let candidate := at_time_on_date date (to_time tod) tz
    if candidate > now then
      match best with
      | some prev => if candidate < prev then some candidate else some prev
      | none => some candidate
    else best) none

/-- `ordinal_to_n` (the `Last` arm of the source is `unreachable!`; every
caller filters `Last` out first) -/
def ordinal_to_n : OrdinalPosition → Nat
  | .first => 1
  | .second => 2
  | .third => 3
  | .fourth => 4
  | .fifth => 5
  | .last => 0

/-- the 8-day forward scan of `next_day_repeat` (`for _ in 0..8`) -/
def nextDayScan (days : DayFilter) (times : List TimeOfDay) (tz : TimeZone)
    (now : Int) : Nat → CivilDate → Except ScheduleError (Option Int)
  | 0, _ => .ok none
  | fuel + 1, date =>
    let d2 := date.tomorrow
    if matches_day_filter d2 days then
      match earliest_future_at_times d2 times tz now with
      | some c => .ok (some c)
      | none => nextDayScan days times tz now fuel d2
    else nextDayScan days times tz now fuel d2

/-- the 2-step aligned scan of `next_day_repeat`'s interval branch -/
def nextDayAlignedScan (times : List TimeOfDay) (tz : TimeZone) (now step : Int) :
    Nat → CivilDate → Except ScheduleError (Option Int)
  | 0, _ => .ok none
  | fuel + 1, cur =>
    match earliest_future_at_times cur times tz now with
    | some c => .ok (some c)
    | none => nextDayAlignedScan times tz now step fuel (cur.addDays step)

/-- `next_day_repeat` -/
def next_day_repeat (interval : Nat) (days : DayFilter) (times : List TimeOfDay)
    (tz : TimeZone) (anchor : Option CivilDate) (now : Int) :
    Except ScheduleError (Option Int) :=
  let date := (tz.toCiv now).1
  if interval ≤ 1 then
    match (if matches_day_filter date days
      then earliest_future_at_times date times tz now else none) with
    | some c => .ok (some c)
    | none => nextDayScan days times tz now 8 date
  else
    let anchor_date := anchor.getD EPOCH_DATE
    let offset := days_between anchor_date date
    let remainder := offset.emod (interval : Int)
    let aligned := if remainder = 0 then date
      else date.addDays ((interval : Int) - remainder)
    nextDayAlignedScan times tz now (interval : Int) 2 aligned

/-- the 400-day forward scan of `next_interval_repeat` -/
def nextIntervalScan (day_filter : Option DayFilter) (tz : TimeZone)
    (now from_minutes to_minutes step_minutes : Int) (now_date : CivilDate)
    (now_wall_minutes : Int) :
    Nat → CivilDate → Except ScheduleError (Option Int)
  | 0, _ => .ok none
  | fuel + 1, date =>
    if (match day_filter with
      | some df => !matches_day_filter date df
      | none => false) then
      nextIntervalScan day_filter tz now from_minutes to_minutes step_minutes
        now_date now_wall_minutes fuel date.tomorrow
    else
      let now_minutes := if date = now_date then now_wall_minutes else -1
      let next_slot := if now_minutes < from_minutes then from_minutes
        else from_minutes + ((now_minutes - from_minutes).tdiv step_minutes + 1)
          * step_minutes
      if next_slot ≤ to_minutes then
        let candidate := at_time_on_date date (next_slot * 60) tz
        if candidate > now then .ok (some candidate)
        else
          nextIntervalScan day_filter tz now from_minutes to_minutes step_minutes
            now_date now_wall_minutes fuel date.tomorrow
      else
        nextIntervalScan day_filter tz now from_minutes to_minutes step_minutes
          now_date now_wall_minutes fuel date.tomorrow

/-- `next_interval_repeat` -/
def next_interval_repeat (interval : Nat) (unit : IntervalUnit)
    (from_ to_ : TimeOfDay) (day_filter : Option DayFilter) (tz : TimeZone)
    (now : Int) : Except ScheduleError (Option Int) :=
  let now_civ := tz.toCiv now
  let step_minutes : Int := match unit with
    | .minutes => (interval : Int)
    | .hours => (interval : Int) * 60
  let from_minutes : Int := (from_.hour : Int) * 60 + (from_.minute : Int)
  let to_minutes : Int := (to_.hour : Int) * 60 + (to_.minute : Int)
  let now_wall_minutes := (now_civ.2.fdiv 3600) * 60 + (now_civ.2.emod 3600).fdiv 60
  nextIntervalScan day_filter tz now from_minutes to_minutes step_minutes
    now_civ.1 now_wall_minutes 400 now_civ.1

/-- the per-week scan over sorted target weekdays in `next_week_repeat` -/
def weekDaysScan (cur_monday : CivilDate) (times : List TimeOfDay)
    (tz : TimeZone) (now : Int) : List Weekday → Option Int
  | [] => none
  | wd :: rest =>
    let target := cur_monday.addDays ((wd.number : Int) - 1)
    match earliest_future_at_times target times tz now with
    | some c => some c
    | none => weekDaysScan cur_monday times tz now rest

/-- the 2-step aligned-week scan of `next_week_repeat` -/
def nextWeekAlignedScan (sorted_days : List Weekday) (times : List TimeOfDay)
    (tz : TimeZone) (now skip_days : Int) :
    Nat → CivilDate → Except ScheduleError (Option Int)
  | 0, _ => .ok none
  | fuel + 1, cur_monday =>
    match weekDaysScan cur_monday times tz now sorted_days with
    | some c => .ok (some c)
    | none =>
      nextWeekAlignedScan sorted_days times tz now skip_days fuel
        (cur_monday.addDays skip_days)

/-- `next_week_repeat` -/
def next_week_repeat (interval : Nat) (days : List Weekday)
    (times : List TimeOfDay) (tz : TimeZone) (anchor : Option CivilDate)
    (now : Int) : Except ScheduleError (Option Int) :=
  let date := (tz.toCiv now).1
  let anchor_date := anchor.getD EPOCH_MONDAY
  let sorted_days := sortWdsByNumber days
  let dow_offset := date.mondayOffset - 1
  let current_monday := date.addDays (-dow_offset)
  let anchor_dow_offset := anchor_date.mondayOffset - 1
  let anchor_monday := anchor_date.addDays (-anchor_dow_offset)
  let weeks_since_anchor := weeks_between anchor_monday current_monday
  let first_aligned_monday :=
    if weeks_since_anchor < 0 then anchor_monday
    else
      let remainder := weeks_since_anchor.tmod (interval : Int)
      if remainder = 0 then current_monday
      else current_monday.addDays (((interval : Int) - remainder) * 7)
  nextWeekAlignedScan sorted_days times tz now ((interval : Int) * 7) 2
    first_aligned_monday

/-- the candidate dates one month contributes in `next_month_repeat` -/
def monthTargetCandidates (target : MonthTarget) (year month : Int) :
    List CivilDate :=
  match target with
  | .days _ =>
    target.expand_days.filterMap (fun day_num =>
      if u8AsI8 day_num ≤ (last_day_of_month year month).day then
        CivilDate.new year month (u8AsI8 day_num)
      else none)
  | .lastDay => [last_day_of_month year month]
  | .lastWeekday => [last_weekday_of_month year month]
  | .nearestWeekday day direction =>
    match nearest_weekday year month day direction with
    | some d => [d]
    | none => []

/-- the earliest-future fold over one month's candidates -/
def bestOfDates (times : List TimeOfDay) (tz : TimeZone) (now : Int)
    (dates : List CivilDate) : Option Int :=
  dates.foldl (fun best date =>
    match earliest_future_at_times date times tz now with
    | some candidate =>
      match best with
      | some prev => if candidate < prev then some candidate else some prev
      | none => some candidate
    | none => best) none

/-- the month-by-month scan of `next_month_repeat` -/
def nextMonthScan (interval : Nat) (target : MonthTarget)
    (times : List TimeOfDay) (tz : TimeZone) (anchor_date : CivilDate)
    (now : Int) (apply_during : Bool) (during : List MonthName) :
    Nat → Int → Int → Except ScheduleError (Option Int)
  | 0, _, _ => .ok none
  | fuel + 1, year, month =>
    let step : Except ScheduleError (Option Int) :=
      if month + 1 > 12 then
        nextMonthScan interval target times tz anchor_date now apply_during
          during fuel (year + 1) 1
      else
        nextMonthScan interval target times tz anchor_date now apply_during
          during fuel year (month + 1)
    if apply_during && !(during.any (fun mn => (mn.number : Int) = month)) then
      step
    else if interval > 1 &&
        (let cur : CivilDate := ⟨year, month, 1⟩
         let month_offset := months_between_ym anchor_date cur
         month_offset < 0 || month_offset.emod (interval : Int) ≠ 0) then
      step
    else
      match bestOfDates times tz now (monthTargetCandidates target year month) with
      | some best => .ok (some best)
      | none => step

/-- `next_month_repeat` -/
def next_month_repeat (interval : Nat) (target : MonthTarget)
    (times : List TimeOfDay) (tz : TimeZone) (anchor : Option CivilDate)
    (now : Int) (during : List MonthName) : Except ScheduleError (Option Int) :=
  let now_date := (tz.toCiv now).1
  let anchor_date := anchor.getD EPOCH_DATE
  let max_iter := if interval > 1 then 24 * interval else 24
  let apply_during := !during.isEmpty &&
    (match target with
      | .nearestWeekday _ (some _) => true
      | _ => false)
  nextMonthScan interval target times tz anchor_date now apply_during during
    max_iter now_date.year now_date.month

/-- the month-by-month scan of `next_ordinal_repeat` -/
def nextOrdinalScan (interval : Nat) (ordinal : OrdinalPosition) (day : Weekday)
    (times : List TimeOfDay) (tz : TimeZone) (anchor_date : CivilDate)
    (now : Int) : Nat → Int → Int → Except ScheduleError (Option Int)
  | 0, _, _ => .ok none
  | fuel + 1, year, month =>
    let step : Except ScheduleError (Option Int) :=
      if month + 1 > 12 then
        nextOrdinalScan interval ordinal day times tz anchor_date now fuel
          (year + 1) 1
      else
        nextOrdinalScan interval ordinal day times tz anchor_date now fuel
          year (month + 1)
    if interval > 1 &&
        (let cur : CivilDate := ⟨year, month, 1⟩
         let month_offset := months_between_ym anchor_date cur
         month_offset < 0 || month_offset.emod (interval : Int) ≠ 0) then
      step
    else
      let target_date := match ordinal with
        | .last => some (last_weekday_in_month year month day)
        | _ => nth_weekday_of_month year month day (ordinal_to_n ordinal)
      match target_date with
      | some date =>
        match earliest_future_at_times date times tz now with
        | some c => .ok (some c)
        | none => step
      | none => step

/-- `next_ordinal_repeat` -/
def next_ordinal_repeat (interval : Nat) (ordinal : OrdinalPosition)
    (day : Weekday) (times : List TimeOfDay) (tz : TimeZone)
    (anchor : Option CivilDate) (now : Int) : Except ScheduleError (Option Int) :=
  let now_date := (tz.toCiv now).1
  let anchor_date := anchor.getD EPOCH_DATE
  let max_iter := if interval > 1 then 24 * interval else 24
  nextOrdinalScan interval ordinal day times tz anchor_date now max_iter
    now_date.year now_date.month

/-- the 8-year scan of `next_single_date`'s named branch -/
def nextSingleNamedScan (month : MonthName) (day : Nat)
    (times : List TimeOfDay) (tz : TimeZone) (now : Int) :
    Nat → Int → Except ScheduleError (Option Int)
  | 0, _ => .ok none
  | fuel + 1, year =>
    match CivilDate.new year month.number (u8AsI8 day) with
    | some date =>
      match earliest_future_at_times date times tz now with
      | some c => .ok (some c)
      | none => nextSingleNamedScan month day times tz now fuel (year + 1)
    | none => nextSingleNamedScan month day times tz now fuel (year + 1)

/-- `next_single_date` -/
def next_single_date (date_spec : DateSpec) (times : List TimeOfDay)
    (tz : TimeZone) (now : Int) : Except ScheduleError (Option Int) :=
  match date_spec with
  | .iso s =>
    match parseIsoDate s with
    | some date => .ok (earliest_future_at_times date times tz now)
    | none => .error (.evalE ("invalid date '" ++ s ++ "'"))
  | .named month day =>
    let start_year := (tz.toCiv now).1.year
    nextSingleNamedScan month day times tz now 8 start_year

/-- the year-by-year scan of `next_year_repeat` -/
def nextYearScan (interval : Nat) (target : YearTarget)
    (times : List TimeOfDay) (tz : TimeZone) (anchor_year : Int) (now : Int) :
    Nat → Int → Except ScheduleError (Option Int)
  | 0, _ => .ok none
  | fuel + 1, year =>
    let step := nextYearScan interval target times tz anchor_year now fuel (year + 1)
    if interval > 1 &&
        (let year_offset := year - anchor_year
         year_offset < 0 || year_offset.emod (interval : Int) ≠ 0) then
      step
    else
      let target_date := match target with
        | .date month day => CivilDate.new year month.number (u8AsI8 day)
        | .ordinalWeekday ordinal weekday month =>
          (match ordinal with
            | .last => some (last_weekday_in_month year month.number weekday)
            | _ => nth_weekday_of_month year month.number weekday
                (ordinal_to_n ordinal))
        | .dayOfMonth day month => CivilDate.new year month.number (u8AsI8 day)
        | .lastWeekday month => some (last_weekday_of_month year month.number)
      match target_date with
      | some date =>
        match earliest_future_at_times date times tz now with
        | some c => .ok (some c)
        | none => step
      | none => step

/-- `next_year_repeat` -/
def next_year_repeat (interval : Nat) (target : YearTarget)
    (times : List TimeOfDay) (tz : TimeZone) (anchor : Option CivilDate)
    (now : Int) : Except ScheduleError (Option Int) :=
  let start_year := (tz.toCiv now).1.year
  let anchor_year := (anchor.getD EPOCH_DATE).year
  let max_iter := if interval > 1 then 8 * interval else 8
  nextYearScan interval target times tz anchor_year now max_iter start_year

/-- `next_expr` -/
def next_expr (expr : ScheduleExpr) (tz : TimeZone)
    (anchor : Option CivilDate) (now : Int) (during : List MonthName) :
    Except ScheduleError (Option Int) :=
  match expr with
  | .dayRepeat interval days times =>
    next_day_repeat interval days times tz anchor now
  | .intervalRepeat interval unit from_ to_ day_filter =>
    next_interval_repeat interval unit from_ to_ day_filter tz now
  | .weekRepeat interval days times =>
    next_week_repeat interval days times tz anchor now
  | .monthRepeat interval target times =>
    next_month_repeat interval target times tz anchor now during
  | .ordinalRepeat interval ordinal day times =>
    next_ordinal_repeat interval ordinal day times tz anchor now
  | .singleDate date times => next_single_date date times tz now
  | .yearRepeat interval target times =>
    next_year_repeat interval target times tz anchor now

/-- the retry loop of `next_from` (`for _ in 0..1000`), with the schedule's
parts already resolved -/
def nextFromLoop (expr : ScheduleExpr) (tz : TimeZone)
    (anchor : Option CivilDate) (during : List MonthName)
    (exceptions : List Exception) (until_date : Option CivilDate)
    (handles_during_internally : Bool) :
    Nat → Int → Except ScheduleError (Option Int)
  | 0, _ => .ok none
  | fuel + 1, current =>
    match next_expr expr tz anchor current during with
    | .error e => .error e
    | .ok none => .ok none
    | .ok (some candidate) =>
      let c_date := (tz.toCiv candidate).1
      if (match until_date with
        | some u => decide (CivilDate.lt u c_date)
        | none => false) then .ok none
      else if !during.isEmpty && !handles_during_internally
          && !matches_during c_date during then
        let skip_to := next_during_month c_date during
        nextFromLoop expr tz anchor during exceptions until_date
          handles_during_internally fuel (at_time_on_date skip_to 0 tz - 1)
      else if !exceptions.isEmpty && is_excepted c_date exceptions then
        let next_day := c_date.tomorrow
        nextFromLoop expr tz anchor during exceptions until_date
          handles_during_internally fuel (at_time_on_date next_day 0 tz - 1)
      else .ok (some candidate)

/-- `next_from`.  The `now.date()` of `resolve_until` is taken in the
schedule's resolved zone: the model's instants do not carry a zone of
their own. -/
def next_from (db : String → Option TimeZone) (schedule : Schedule)
    (now : Int) : Except ScheduleError (Option Int) :=
  match resolve_tz db schedule.timezone with
  | .error e => .error e
  | .ok tz =>
    match (match schedule.until_ with
      | some u => (resolve_until u (tz.toCiv now).1).map some
      | none => .ok none) with
    | .error e => .error e
    | .ok until_date =>
      let handles_during_internally := match schedule.expr with
        | .monthRepeat _ (.nearestWeekday _ (some _)) _ => true
        | _ => false
      nextFromLoop schedule.expr tz schedule.anchor schedule.during
        schedule.except until_date handles_during_internally 1000 now

/-- `matches` (named `matches_` because `matches` is reserved in Lean).
As for `next_from`, `resolve_until`'s `now.date()` is taken in the
schedule's resolved zone.  `diff % step` with a zero step panics in
Rust (`Int.tmod diff 0 = diff` here); parser-produced intervals are ≥ 1. -/
def matches_ (db : String → Option TimeZone) (schedule : Schedule)
    (datetime : Int) : Except ScheduleError Bool :=
  match resolve_tz db schedule.timezone with
  | .error e => .error e
  | .ok tz =>
    let zdt := datetime
    let date := (tz.toCiv zdt).1
    if !matches_during date schedule.during then .ok false
    else if is_excepted date schedule.except then .ok false
    else
      match (match schedule.until_ with
        | some u => (resolve_until u (tz.toCiv datetime).1).map some
        | none => .ok none) with
      | .error e => .error e
      | .ok until_date =>
        if (match until_date with
          | some u => decide (CivilDate.lt u date)
          | none => false) then .ok false
        else
          match schedule.expr with
          | .dayRepeat interval days times =>
            if !matches_day_filter date days then .ok false
            else if !time_matches_with_dst date times tz zdt then .ok false
            else if interval > 1 then
              let anchor_date := schedule.anchor.getD EPOCH_DATE
              let day_offset := days_between anchor_date date
              .ok (day_offset ≥ 0 && day_offset.tmod (interval : Int) = 0)
            else .ok true
          | .intervalRepeat interval unit from_ to_ day_filter =>
            if (match day_filter with
              | some df => !matches_day_filter date df
              | none => false) then .ok false
            else
              let from_minutes := (from_.hour : Int) * 60 + (from_.minute : Int)
              let to_minutes := (to_.hour : Int) * 60 + (to_.minute : Int)
              let ws := (tz.toCiv zdt).2
              let current_minutes := (ws.fdiv 3600) * 60 + (ws.emod 3600).fdiv 60
              if current_minutes < from_minutes || current_minutes > to_minutes then
                .ok false
              else
                let diff := current_minutes - from_minutes
                let step : Int := match unit with
                  | .minutes => (interval : Int)
                  | .hours => (interval : Int) * 60
                .ok (diff ≥ 0 && diff.tmod step = 0)
          | .weekRepeat interval days times =>
            if !days.contains date.weekday then .ok false
            else if !time_matches_with_dst date times tz zdt then .ok false
            else
              let anchor_date := schedule.anchor.getD EPOCH_MONDAY
              let weeks := weeks_between anchor_date date
              .ok (weeks ≥ 0 && weeks.tmod (interval : Int) = 0)
          | .monthRepeat interval target times =>
            if !time_matches_with_dst date times tz zdt then .ok false
            else if interval > 1 &&
                (let anchor_date := schedule.anchor.getD EPOCH_DATE
                 let month_offset := months_between_ym anchor_date date
                 month_offset < 0 || month_offset.tmod (interval : Int) ≠ 0) then
              .ok false
            else
              match target with
              | .days _ =>
                .ok (target.expand_days.any
                  (fun dn => ((dn % 256 : Nat) : Int) = date.day.emod 256))
              | .lastDay => .ok (date = last_day_of_month date.year date.month)
              | .lastWeekday =>
                .ok (date = last_weekday_of_month date.year date.month)
              | .nearestWeekday day direction =>
                match nearest_weekday date.year date.month day direction with
                | some target_date => .ok (date = target_date)
                | none => .ok false
          | .ordinalRepeat interval ordinal day times =>
            if !time_matches_with_dst date times tz zdt then .ok false
            else if interval > 1 &&
                (let anchor_date := schedule.anchor.getD EPOCH_DATE
                 let month_offset := months_between_ym anchor_date date
                 month_offset < 0 || month_offset.tmod (interval : Int) ≠ 0) then
              .ok false
            else
              match (match ordinal with
                | .last => some (last_weekday_in_month date.year date.month day)
                | _ => nth_weekday_of_month date.year date.month day
                    (ordinal_to_n ordinal)) with
              | some target_date => .ok (date = target_date)
              | none => .ok false
          | .singleDate date_spec times =>
            if !time_matches_with_dst date times tz zdt then .ok false
            else
              match date_spec with
              | .iso s =>
                match parseIsoDate s with
                | some target => .ok (date = target)
                | none => .error (.evalE ("invalid date '" ++ s ++ "'"))
              | .named month day =>
                .ok (date.month = (month.number : Int) && date.day = u8AsI8 day)
          | .yearRepeat interval target times =>
            if !time_matches_with_dst date times tz zdt then .ok false
            else if interval > 1 &&
                (let anchor_year := (schedule.anchor.getD EPOCH_DATE).year
                 let year_offset := date.year - anchor_year
                 year_offset < 0 || year_offset.tmod (interval : Int) ≠ 0) then
              .ok false
            else
              match target with
              | .date month day =>
                .ok (date.month = (month.number : Int) && date.day = u8AsI8 day)
              | .ordinalWeekday ordinal weekday month =>
                if date.month ≠ (month.number : Int) then .ok false
                else
                  match (match ordinal with
                    | .last =>
                      some (last_weekday_in_month date.year date.month weekday)
                    | _ => nth_weekday_of_month date.year date.month weekday
                        (ordinal_to_n ordinal)) with
                  | some target_date => .ok (date = target_date)
                  | none => .ok false
              | .dayOfMonth day month =>
                .ok (date.month = (month.number : Int) && date.day = u8AsI8 day)
              | .lastWeekday month =>
                if date.month ≠ (month.number : Int) then .ok false
                else .ok (date = last_weekday_of_month date.year date.month)

/-! ## Evaluation guard and invariance lemmas -/


/-- a synthetic coherent timezone used to witness the evaluation theorems -/
def witnessTZ : TimeZone where
  toInst d s := 86400 * (600 * d.year + 40 * d.month + d.day) + s
  toCiv i := (⟨max i 0, 1, 1⟩, 0)

theorem witnessTZ_coherent : witnessTZ.Coherent := by
  constructor
  · intro i
    show (1 : Int) ≤ 1 ∧ (1 : Int) ≤ 12 ∧ (1 : Int) ≤ 1 ∧ (1 : Int) ≤ 31
    norm_num
  · intro i d2 hlt hv
    obtain ⟨hm1, hm12, hd1, hd31⟩ := hv
    have hlt' : max i 0 < d2.year ∨ (max i 0 = d2.year ∧
        (1 < d2.month ∨ (1 = d2.month ∧ 1 < d2.day))) := hlt
    show i < 86400 * (600 * d2.year + 40 * d2.month + d2.day) + 0
    omega

theorem earliest_future_gt (date : CivilDate) (times : List TimeOfDay)
    (tz : TimeZone) (now : Int) :
    ∀ c, earliest_future_at_times date times tz now = some c → c > now := by
  unfold earliest_future_at_times
  suffices h : ∀ (l : List TimeOfDay) (best : Option Int),
      (∀ x, best = some x → x > now) →
      ∀ c, l.foldl (fun best tod =>
        let candidate := at_time_on_date date (to_time tod) tz
        if candidate > now then
          match best with
          | some prev => if candidate < prev then some candidate else some prev
          | none => some candidate
        else best) best = some c → c > now by
    intro c hc
    exact h times none (by intro x hx; cases hx) c hc
  intro l
  induction l with
  | nil =>
    intro best hb c hc
    exact hb c hc
  | cons tod rest ih =>
    intro best hb c hc
    rw [List.foldl_cons] at hc
    refine ih _ ?_ c hc
    intro x hx
    dsimp only at hx
    by_cases hcand : at_time_on_date date (to_time tod) tz > now
    · rw [if_pos hcand] at hx
      cases best with
      | none =>
        dsimp only at hx
        injection hx with hx
        omega
      | some prev =>
        dsimp only at hx
        by_cases hlt : at_time_on_date date (to_time tod) tz < prev
        · rw [if_pos hlt] at hx
          injection hx with hx
          omega
        · rw [if_neg hlt] at hx
          injection hx with hx
          exact hx ▸ hb prev rfl
    · rw [if_neg hcand] at hx
      exact hb x hx


theorem nextDayScan_gt (days : DayFilter) (times : List TimeOfDay) (tz : TimeZone) (now : Int) :
    ∀ fuel date c, nextDayScan days times tz now fuel date = .ok (some c) → c > now := by
  intro fuel
  induction fuel with
  | zero =>
    intro x0 c h
    simp [nextDayScan] at h
  | succ fuel ih =>
    intro x0 c h
    rw [nextDayScan.eq_def] at h
    dsimp only at h
    repeat' split at h
    all_goals first
      | exact ih _ _ h
      | exact ih _ _ _ h
      | omega
      | (simp only [Except.ok.injEq, Option.some.injEq] at h
         omega)
      | (simp only [Except.ok.injEq, Option.some.injEq] at h
         subst h
         exact earliest_future_gt _ _ _ _ _ (by assumption))
      | (simp only [Except.ok.injEq, Option.some.injEq] at h
         subst h
         exact bestOfDates_gt _ _ _ _ _ (by assumption))
      | (simp only [Except.ok.injEq, Option.some.injEq] at h
         subst h
         exact weekDaysScan_gt _ _ _ _ _ _ (by assumption))
      | (simp at h
         done)

theorem nextDayAlignedScan_gt (times : List TimeOfDay) (tz : TimeZone) (now step : Int) :
    ∀ fuel cur c, nextDayAlignedScan times tz now step fuel cur = .ok (some c) → c > now := by
  intro fuel
  induction fuel with
  | zero =>
    intro x0 c h
    simp [nextDayAlignedScan] at h
  | succ fuel ih =>
    intro x0 c h
    rw [nextDayAlignedScan.eq_def] at h
    dsimp only at h
    repeat' split at h
    all_goals first
      | exact ih _ _ h
      | exact ih _ _ _ h
      | omega
      | (simp only [Except.ok.injEq, Option.some.injEq] at h
         omega)
      | (simp only [Except.ok.injEq, Option.some.injEq] at h
         subst h
         exact earliest_future_gt _ _ _ _ _ (by assumption))
      | (simp only [Except.ok.injEq, Option.some.injEq] at h
         subst h
         exact bestOfDates_gt _ _ _ _ _ (by assumption))
      | (simp only [Except.ok.injEq, Option.some.injEq] at h
         subst h
         exact weekDaysScan_gt _ _ _ _ _ _ (by assumption))
      | (simp at h
         done)

theorem next_day_repeat_gt (interval : Nat) (days : DayFilter)
    (times : List TimeOfDay) (tz : TimeZone) (anchor : Option CivilDate)
    (now : Int) (c : Int)
    (h : next_day_repeat interval days times tz anchor now = .ok (some c)) :
    c > now := by
  rw [next_day_repeat.eq_def] at h
  dsimp only at h
  split at h
  · split at h
    next m heq =>
      simp only [Except.ok.injEq, Option.some.injEq] at h
      subst h
      split at heq
      · exact earliest_future_gt _ _ _ _ _ heq
      · cases heq
    next => exact nextDayScan_gt _ _ _ _ _ _ _ h
  · exact nextDayAlignedScan_gt _ _ _ _ _ _ _ h

theorem nextIntervalScan_gt (day_filter : Option DayFilter) (tz : TimeZone)
    (now from_minutes to_minutes step_minutes : Int) (now_date : CivilDate)
    (now_wall : Int) :
    ∀ fuel date c, nextIntervalScan day_filter tz now from_minutes to_minutes
      step_minutes now_date now_wall fuel date = .ok (some c) → c > now := by
  intro fuel
  induction fuel with
  | zero =>
    intro x0 c h
    simp [nextIntervalScan] at h
  | succ fuel ih =>
    intro x0 c h
    rw [nextIntervalScan.eq_def] at h
    dsimp only at h
    repeat' split at h
    all_goals first
      | exact ih _ _ h
      | exact ih _ _ _ h
      | omega
      | (simp only [Except.ok.injEq, Option.some.injEq] at h
         omega)
      | (simp only [Except.ok.injEq, Option.some.injEq] at h
         subst h
         exact earliest_future_gt _ _ _ _ _ (by assumption))
      | (simp only [Except.ok.injEq, Option.some.injEq] at h
         subst h
         exact bestOfDates_gt _ _ _ _ _ (by assumption))
      | (simp only [Except.ok.injEq, Option.some.injEq] at h
         subst h
         exact weekDaysScan_gt _ _ _ _ _ _ (by assumption))
      | (simp at h
         done)

theorem next_interval_repeat_gt (interval : Nat) (unit : IntervalUnit)
    (from_ to_ : TimeOfDay) (day_filter : Option DayFilter) (tz : TimeZone)
    (now : Int) (c : Int)
    (h : next_interval_repeat interval unit from_ to_ day_filter tz now
      = .ok (some c)) : c > now := by
  rw [next_interval_repeat.eq_def] at h
  exact nextIntervalScan_gt _ _ _ _ _ _ _ _ _ _ _ h

theorem weekDaysScan_gt (cur_monday : CivilDate) (times : List TimeOfDay)
    (tz : TimeZone) (now : Int) :
    ∀ l c, weekDaysScan cur_monday times tz now l = some c → c > now := by
  intro l
  induction l with
  | nil =>
    intro c h
    simp [weekDaysScan] at h
  | cons wd rest ih =>
    intro c h
    rw [weekDaysScan.eq_def] at h
    dsimp only at h
    repeat' split at h
    all_goals first
      | exact ih _ h
      | (simp only [Option.some.injEq] at h
         subst h
         exact earliest_future_gt _ _ _ _ _ (by assumption))
      | (simp at h
         done)

theorem nextWeekAlignedScan_gt (sorted_days : List Weekday) (times : List TimeOfDay) (tz : TimeZone)
    (now skip_days : Int) :
    ∀ fuel cur c, nextWeekAlignedScan sorted_days times tz now skip_days fuel cur
      = .ok (some c) → c > now := by
  intro fuel
  induction fuel with
  | zero =>
    intro x0 c h
    simp [nextWeekAlignedScan] at h
  | succ fuel ih =>
    intro x0 c h
    rw [nextWeekAlignedScan.eq_def] at h
    dsimp only at h
    repeat' split at h
    all_goals first
      | exact ih _ _ h
      | exact ih _ _ _ h
      | omega
      | (simp only [Except.ok.injEq, Option.some.injEq] at h
         omega)
      | (simp only [Except.ok.injEq, Option.some.injEq] at h
         subst h
         exact earliest_future_gt _ _ _ _ _ (by assumption))
      | (simp only [Except.ok.injEq, Option.some.injEq] at h
         subst h
         exact bestOfDates_gt _ _ _ _ _ (by assumption))
      | (simp only [Except.ok.injEq, Option.some.injEq] at h
         subst h
         exact weekDaysScan_gt _ _ _ _ _ _ (by assumption))
      | (simp at h
         done)

theorem next_week_repeat_gt (interval : Nat) (days : List Weekday)
    (times : List TimeOfDay) (tz : TimeZone) (anchor : Option CivilDate)
    (now : Int) (c : Int)
    (h : next_week_repeat interval days times tz anchor now = .ok (some c)) :
    c > now := by
  rw [next_week_repeat.eq_def] at h
  exact nextWeekAlignedScan_gt _ _ _ _ _ _ _ _ h

theorem bestOfDates_gt (times : List TimeOfDay) (tz : TimeZone) (now : Int) :
    ∀ dates c, bestOfDates times tz now dates = some c → c > now := by
  unfold bestOfDates
  suffices h : ∀ (dates : List CivilDate) (best : Option Int),
      (∀ x, best = some x → x > now) →
      ∀ c, dates.foldl (fun best date =>
        match earliest_future_at_times date times tz now with
        | some candidate =>
          match best with
          | some prev => if candidate < prev then some candidate else some prev
          | none => some candidate
        | none => best) best = some c → c > now by
    intro dates c hc
    exact h dates none (by intro x hx; cases hx) c hc
  intro dates
  induction dates with
  | nil =>
    intro best hb c hc
    exact hb c hc
  | cons date rest ih =>
    intro best hb c hc
    rw [List.foldl_cons] at hc
    refine ih _ ?_ c hc
    intro x hx
    cases hce : earliest_future_at_times date times tz now with
    | none =>
      rw [hce] at hx
      exact hb x hx
    | some candidate =>
      rw [hce] at hx
      have hcgt := earliest_future_gt _ _ _ _ _ hce
      cases best with
      | none =>
        dsimp only at hx
        injection hx with hx
        omega
      | some prev =>
        dsimp only at hx
        by_cases hlt : candidate < prev
        · rw [if_pos hlt] at hx
          injection hx with hx
          omega
        · rw [if_neg hlt] at hx
          injection hx with hx
          exact hx ▸ hb prev rfl

theorem nextMonthScan_gt (interval : Nat) (target : MonthTarget)
    (times : List TimeOfDay) (tz : TimeZone) (anchor_date : CivilDate)
    (now : Int) (apply_during : Bool) (during : List MonthName) :
    ∀ fuel year month c, nextMonthScan interval target times tz anchor_date now
      apply_during during fuel year month = .ok (some c) → c > now := by
  intro fuel
  induction fuel with
  | zero =>
    intro x0 x1 c h
    simp [nextMonthScan] at h
  | succ fuel ih =>
    intro x0 x1 c h
    rw [nextMonthScan.eq_def] at h
    dsimp only at h
    repeat' split at h
    all_goals first
      | exact ih _ _ h
      | exact ih _ _ _ h
      | omega
      | (simp only [Except.ok.injEq, Option.some.injEq] at h
         omega)
      | (simp only [Except.ok.injEq, Option.some.injEq] at h
         subst h
         exact earliest_future_gt _ _ _ _ _ (by assumption))
      | (simp only [Except.ok.injEq, Option.some.injEq] at h
         subst h
         exact bestOfDates_gt _ _ _ _ _ (by assumption))
      | (simp only [Except.ok.injEq, Option.some.injEq] at h
         subst h
         exact weekDaysScan_gt _ _ _ _ _ _ (by assumption))
      | (simp at h
         done)

theorem next_month_repeat_gt (interval : Nat) (target : MonthTarget)
    (times : List TimeOfDay) (tz : TimeZone) (anchor : Option CivilDate)
    (now : Int) (during : List MonthName) (c : Int)
    (h : next_month_repeat interval target times tz anchor now during
      = .ok (some c)) : c > now := by
  rw [next_month_repeat.eq_def] at h
  exact nextMonthScan_gt _ _ _ _ _ _ _ _ _ _ _ _ h

theorem nextOrdinalScan_gt (interval : Nat) (ordinal : OrdinalPosition) (day : Weekday)
    (times : List TimeOfDay) (tz : TimeZone) (anchor_date : CivilDate)
    (now : Int) :
    ∀ fuel year month c, nextOrdinalScan interval ordinal day times tz
      anchor_date now fuel year month = .ok (some c) → c > now := by
  intro fuel
  induction fuel with
  | zero =>
    intro x0 x1 c h
    simp [nextOrdinalScan] at h
  | succ fuel ih =>
    intro x0 x1 c h
    rw [nextOrdinalScan.eq_def] at h
    dsimp only at h
    repeat' split at h
    all_goals first
      | exact ih _ _ h
      | exact ih _ _ _ h
      | omega
      | (simp only [Except.ok.injEq, Option.some.injEq] at h
         omega)
      | (simp only [Except.ok.injEq, Option.some.injEq] at h
         subst h
         exact earliest_future_gt _ _ _ _ _ (by assumption))
      | (simp only [Except.ok.injEq, Option.some.injEq] at h
         subst h
         exact bestOfDates_gt _ _ _ _ _ (by assumption))
      | (simp only [Except.ok.injEq, Option.some.injEq] at h
         subst h
         exact weekDaysScan_gt _ _ _ _ _ _ (by assumption))
      | (simp at h
         done)

theorem next_ordinal_repeat_gt (interval : Nat) (ordinal : OrdinalPosition)
    (day : Weekday) (times : List TimeOfDay) (tz : TimeZone)
    (anchor : Option CivilDate) (now : Int) (c : Int)
    (h : next_ordinal_repeat interval ordinal day times tz anchor now
      = .ok (some c)) : c > now := by
  rw [next_ordinal_repeat.eq_def] at h
  exact nextOrdinalScan_gt _ _ _ _ _ _ _ _ _ _ _ h

theorem nextSingleNamedScan_gt (month : MonthName) (day : Nat) (times : List TimeOfDay) (tz : TimeZone)
    (now : Int) :
    ∀ fuel year c, nextSingleNamedScan month day times tz now fuel year
      = .ok (some c) → c > now := by
  intro fuel
  induction fuel with
  | zero =>
    intro x0 c h
    simp [nextSingleNamedScan] at h
  | succ fuel ih =>
    intro x0 c h
    rw [nextSingleNamedScan.eq_def] at h
    dsimp only at h
    repeat' split at h
    all_goals first
      | exact ih _ _ h
      | exact ih _ _ _ h
      | omega
      | (simp only [Except.ok.injEq, Option.some.injEq] at h
         omega)
      | (simp only [Except.ok.injEq, Option.some.injEq] at h
         subst h
         exact earliest_future_gt _ _ _ _ _ (by assumption))
      | (simp only [Except.ok.injEq, Option.some.injEq] at h
         subst h
         exact bestOfDates_gt _ _ _ _ _ (by assumption))
      | (simp only [Except.ok.injEq, Option.some.injEq] at h
         subst h
         exact weekDaysScan_gt _ _ _ _ _ _ (by assumption))
      | (simp at h
         done)

theorem next_single_date_gt (date_spec : DateSpec) (times : List TimeOfDay)
    (tz : TimeZone) (now : Int) (c : Int)
    (h : next_single_date date_spec times tz now = .ok (some c)) : c > now := by
  rw [next_single_date.eq_def] at h
  dsimp only at h
  repeat' split at h
  all_goals first
    | exact nextSingleNamedScan_gt _ _ _ _ _ _ _ _ h
    | (simp only [Except.ok.injEq] at h
       exact earliest_future_gt _ _ _ _ _ h)
    | (simp at h
       done)

set_option maxHeartbeats 1000000 in
theorem nextYearScan_gt (interval : Nat) (target : YearTarget) (times : List TimeOfDay)
    (tz : TimeZone) (anchor_year : Int) (now : Int) :
    ∀ fuel year c, nextYearScan interval target times tz anchor_year now fuel year
      = .ok (some c) → c > now := by
  intro fuel
  induction fuel with
  | zero =>
    intro x0 c h
    simp [nextYearScan] at h
  | succ fuel ih =>
    intro x0 c h
    rw [nextYearScan.eq_def] at h
    dsimp only at h
    repeat' split at h
    all_goals first
      | exact ih _ _ h
      | exact ih _ _ _ h
      | omega
      | (simp only [Except.ok.injEq, Option.some.injEq] at h
         omega)
      | (simp only [Except.ok.injEq, Option.some.injEq] at h
         subst h
         exact earliest_future_gt _ _ _ _ _ (by assumption))
      | (simp only [Except.ok.injEq, Option.some.injEq] at h
         subst h
         exact bestOfDates_gt _ _ _ _ _ (by assumption))
      | (simp only [Except.ok.injEq, Option.some.injEq] at h
         subst h
         exact weekDaysScan_gt _ _ _ _ _ _ (by assumption))
      | (simp at h
         done)

theorem next_year_repeat_gt (interval : Nat) (target : YearTarget)
    (times : List TimeOfDay) (tz : TimeZone) (anchor : Option CivilDate)
    (now : Int) (c : Int)
    (h : next_year_repeat interval target times tz anchor now = .ok (some c)) :
    c > now := by
  rw [next_year_repeat.eq_def] at h
  exact nextYearScan_gt _ _ _ _ _ _ _ _ _ h

theorem next_expr_gt (expr : ScheduleExpr) (tz : TimeZone)
    (anchor : Option CivilDate) (now : Int) (during : List MonthName) (c : Int)
    (h : next_expr expr tz anchor now during = .ok (some c)) : c > now := by
  cases expr with
  | dayRepeat interval days times => exact next_day_repeat_gt _ _ _ _ _ _ _ h
  | intervalRepeat interval unit from_ to_ df =>
    exact next_interval_repeat_gt _ _ _ _ _ _ _ _ h
  | weekRepeat interval days times => exact next_week_repeat_gt _ _ _ _ _ _ _ h
  | monthRepeat interval target times =>
    exact next_month_repeat_gt _ _ _ _ _ _ _ _ h
  | ordinalRepeat interval ordinal day times =>
    exact next_ordinal_repeat_gt _ _ _ _ _ _ _ _ h
  | singleDate date times => exact next_single_date_gt _ _ _ _ _ h
  | yearRepeat interval target times => exact next_year_repeat_gt _ _ _ _ _ _ _ h


theorem daysInMonth_le31 (y m : Int) : daysInMonth y m ≤ 31 := by
  unfold daysInMonth
  split
  · split <;> omega
  · split <;> omega

theorem daysInMonth_pos (y m : Int) : 1 ≤ daysInMonth y m := by
  unfold daysInMonth
  split
  · split <;> omega
  · split <;> omega

theorem lt_tomorrow (d : CivilDate) : CivilDate.lt d d.tomorrow := by
  unfold CivilDate.tomorrow CivilDate.lt
  split
  · right
    exact ⟨rfl, .inr ⟨rfl, by dsimp only; omega⟩⟩
  · split
    · right
      exact ⟨rfl, .inl (by dsimp only; omega)⟩
    · left
      dsimp only
      omega

theorem validish_tomorrow {d : CivilDate} (h : ValidishDate d) :
    ValidishDate d.tomorrow := by
  obtain ⟨h1, h2, h3, h4⟩ := h
  unfold CivilDate.tomorrow
  have := daysInMonth_le31 d.year d.month
  split
  next hlt =>
    refine ⟨h1, h2, ?_, ?_⟩ <;> (dsimp only; omega)
  next =>
    split
    next hm =>
      refine ⟨?_, ?_, ?_, ?_⟩ <;> (dsimp only; omega)
    next =>
      refine ⟨?_, ?_, ?_, ?_⟩ <;> (dsimp only; omega)

theorem month_number_bounds (mn : MonthName) : 1 ≤ mn.number ∧ mn.number ≤ 12 := by
  cases mn <;> exact ⟨by decide, by decide⟩

theorem mem_sortNats_month_bounds {during : List MonthName} {m : Nat}
    (hm : m ∈ sortNats (during.map MonthName.number)) : 1 ≤ m ∧ m ≤ 12 := by
  have := (sortNats_perm (during.map MonthName.number)).mem_iff.mp hm
  rcases List.mem_map.mp this with ⟨mn, _, rfl⟩
  exact month_number_bounds mn

theorem validish_next_during (d : CivilDate) (during : List MonthName) :
    ValidishDate (next_during_month d during) := by
  unfold next_during_month
  dsimp only
  split
  next m heq =>
    have hmem := List.mem_of_find?_eq_some heq
    have := mem_sortNats_month_bounds hmem
    refine ⟨?_, ?_, ?_, ?_⟩ <;> (dsimp only; omega)
  next =>
    split
    next m0 rest heq =>
      have hmem : m0 ∈ sortNats (during.map MonthName.number) := by
        rw [heq]
        simp
      have := mem_sortNats_month_bounds hmem
      refine ⟨?_, ?_, ?_, ?_⟩ <;> (dsimp only; omega)
    next =>
      refine ⟨?_, ?_, ?_, ?_⟩ <;> (dsimp only; omega)

theorem lt_next_during (d : CivilDate) (during : List MonthName) :
    CivilDate.lt d (next_during_month d during) := by
  unfold next_during_month
  dsimp only
  split
  next m heq =>
    have hp := List.find?_some heq
    right
    refine ⟨rfl, .inl ?_⟩
    simpa using hp
  next =>
    split
    · left
      dsimp only
      omega
    · left
      dsimp only
      omega

theorem nextFromLoop_gt (expr : ScheduleExpr) (tz : TimeZone)
    (anchor : Option CivilDate) (during : List MonthName)
    (exceptions : List Exception) (until_date : Option CivilDate) (hdi : Bool)
    (hcoh : tz.Coherent) :
    ∀ fuel current u, nextFromLoop expr tz anchor during exceptions until_date
      hdi fuel current = .ok (some u) → u > current := by
  intro fuel
  induction fuel with
  | zero =>
    intro current u h
    simp [nextFromLoop] at h
  | succ fuel ih =>
    intro current u h
    rw [nextFromLoop.eq_def] at h
    dsimp only at h
    split at h
    · exact absurd h (by simp)
    · exact absurd h (by simp)
    next candidate heq =>
      have hcand : candidate > current := next_expr_gt _ _ _ _ _ _ heq
      split at h
      · exact absurd h (by simp)
      · split at h
        · -- during skip
          have hu := ih _ _ h
          have hlt := lt_next_during (tz.toCiv candidate).1 during
          have hv := validish_next_during (tz.toCiv candidate).1 during
          have hc := hcoh.2 candidate _ hlt hv
          unfold at_time_on_date at hu
          omega
        · split at h
          · -- exception skip
            have hu := ih _ _ h
            have hlt := lt_tomorrow (tz.toCiv candidate).1
            have hv := validish_tomorrow (hcoh.1 candidate)
            have hc := hcoh.2 candidate _ hlt hv
            unfold at_time_on_date at hu
            omega
          · simp only [Except.ok.injEq, Option.some.injEq] at h
            omega


/-- **C3**: temporal ordering — whenever `next_from` returns an instant for a
schedule whose resolved timezone is coherent, that instant is strictly
greater than the query instant.  Every candidate the per-variant searchers
return passes an explicit `> now` guard, and the retry loop's skip cursors
never move the clock backwards. -/
theorem C3_temporal_ordering (db : String → Option TimeZone) (S : Schedule)
    (t u : Int) (tz : TimeZone)
    (htz : resolve_tz db S.timezone = .ok tz) (hcoh : tz.Coherent)
    (h : next_from db S t = .ok (some u)) : u > t := by
  rw [next_from.eq_def] at h
  rw [htz] at h
  dsimp only at h
  split at h
  · exact absurd h (by simp)
  · exact nextFromLoop_gt _ _ _ _ _ _ _ hcoh _ _ _ h

def witnessDb : String → Option TimeZone := fun _ => some witnessTZ

def witnessSchedule : Schedule :=
  { Schedule.new (.dayRepeat 1 .every [⟨9, 0⟩]) with timezone := some "Zone" }

theorem C3_temporal_ordering_witness :
    next_from witnessDb witnessSchedule 0 = .ok (some 3574800)
    ∧ (3574800 : Int) > 0 :=
  ⟨by decide, C3_temporal_ordering witnessDb witnessSchedule 0 3574800 witnessTZ
    rfl witnessTZ_coherent (by decide)⟩


theorem nextFromLoop_filtered (expr : ScheduleExpr) (tz : TimeZone)
    (anchor : Option CivilDate) (during : List MonthName)
    (exceptions : List Exception)
    (h : ∀ current, next_expr expr tz anchor current during = .ok none
        ∨ ∃ c, next_expr expr tz anchor current during = .ok (some c)
            ∧ matches_during (tz.toCiv c).1 during = false)
    (hd : during ≠ []) :
    ∀ fuel current, nextFromLoop expr tz anchor during exceptions none false
      fuel current = .ok none := by
  intro fuel
  induction fuel with
  | zero => intro current; rfl
  | succ fuel ih =>
    intro current
    rw [nextFromLoop.eq_def]
    dsimp only
    rcases h current with hnone | ⟨c, hc, hfilt⟩
    · rw [hnone]
    · rw [hc]
      dsimp only
      rw [if_neg (by simp)]
      rw [if_pos (by simp [hfilt, hd])]
      exact ih _

theorem next_expr_anchor_free (expr : ScheduleExpr)
    (h : match expr with
      | .singleDate _ _ => True
      | .intervalRepeat _ _ _ _ _ => True
      | _ => False)
    (tz : TimeZone) (a a' : Option CivilDate) (now : Int)
    (during : List MonthName) :
    next_expr expr tz a now during = next_expr expr tz a' now during := by
  cases expr with
  | singleDate ds ts => rfl
  | intervalRepeat i u f g df => rfl
  | dayRepeat i d t => exact absurd h (by simp)
  | weekRepeat i d t => exact absurd h (by simp)
  | monthRepeat i d t => exact absurd h (by simp)
  | ordinalRepeat i o d t => exact absurd h (by simp)
  | yearRepeat i d t => exact absurd h (by simp)

theorem nextFromLoop_anchor_free (expr : ScheduleExpr)
    (h : match expr with
      | .singleDate _ _ => True
      | .intervalRepeat _ _ _ _ _ => True
      | _ => False)
    (tz : TimeZone) (a a' : Option CivilDate) (during : List MonthName)
    (exceptions : List Exception) (until_date : Option CivilDate) (hdi : Bool) :
    ∀ fuel current, nextFromLoop expr tz a during exceptions until_date hdi
        fuel current
      = nextFromLoop expr tz a' during exceptions until_date hdi fuel current := by
  intro fuel
  induction fuel with
  | zero => intro current; rfl
  | succ fuel ih =>
    intro current
    rw [nextFromLoop.eq_def, nextFromLoop.eq_def]
    dsimp only
    rw [next_expr_anchor_free expr h tz a a' current during]
    cases hx : next_expr expr tz a' current during with
    | error e => rfl
    | ok o =>
      cases o with
      | none => rfl
      | some c =>
        dsimp only
        simp only [ih]

/-- **C10**: for every schedule and civil date, `with_anchor` sets `anchor`
to `Some(date)` and leaves the `expr`, `timezone`, `except`, `until` and
`during` fields unchanged (every expression variant); moreover for the
`SingleDate` and `IntervalRepeat` variants the anchor is silently ignored by
evaluation — `next_from` and `matches` return identical results with or
without it. -/
theorem C10_with_anchor_frame (S : Schedule) (d : CivilDate) :
    (S.with_anchor d).anchor = some d
    ∧ (S.with_anchor d).expr = S.expr
    ∧ (S.with_anchor d).timezone = S.timezone
    ∧ (S.with_anchor d).except = S.except
    ∧ (S.with_anchor d).until_ = S.until_
    ∧ (S.with_anchor d).during = S.during
    ∧ ((match S.expr with
        | .singleDate _ _ => True
        | .intervalRepeat _ _ _ _ _ => True
        | _ => False) →
      (∀ db t, next_from db (S.with_anchor d) t = next_from db S t)
      ∧ (∀ db t, matches_ db (S.with_anchor d) t = matches_ db S t)) := by
  refine ⟨rfl, rfl, rfl, rfl, rfl, rfl, fun h => ⟨?_, ?_⟩⟩
  · intro db t
    rw [next_from.eq_def, next_from.eq_def]
    dsimp only [Schedule.with_anchor]
    cases resolve_tz db S.timezone with
    | error e => rfl
    | ok tz =>
      dsimp only
      cases hX : (match S.until_ with
        | some u => Except.map some (resolve_until u (tz.toCiv t).1)
        | none => (.ok none : Except ScheduleError (Option CivilDate))) with
      | error e => rfl
      | ok ud =>
        exact nextFromLoop_anchor_free S.expr h tz (some d) S.anchor _ _ _ _ _ _
  · intro db t
    match hexpr : S.expr, h with
    | .singleDate ds ts, _ =>
      rw [matches_.eq_def, matches_.eq_def]
      dsimp only [Schedule.with_anchor]
      rw [hexpr]
    | .intervalRepeat i u f g df, _ =>
      rw [matches_.eq_def, matches_.eq_def]
      dsimp only [Schedule.with_anchor]
      rw [hexpr]


/-- When every candidate the expression generates is cut off by the until
date, rejected by the `during` filter, or excepted, the retry loop returns
`Ok(None)` at every fuel level (it either runs out of budget or hits the
until cut-off). -/
theorem nextFromLoop_rejected (expr : ScheduleExpr) (tz : TimeZone)
    (anchor : Option CivilDate) (during : List MonthName)
    (exceptions : List Exception) (until_date : Option CivilDate) (hdib : Bool)
    (h : ∀ current, next_expr expr tz anchor current during = .ok none
      ∨ ∃ c, next_expr expr tz anchor current during = .ok (some c)
        ∧ ((match until_date with
            | some u => decide (CivilDate.lt u (tz.toCiv c).1)
            | none => false) = true
          ∨ (during ≠ [] ∧ hdib = false
            ∧ matches_during (tz.toCiv c).1 during = false)
          ∨ is_excepted (tz.toCiv c).1 exceptions = true)) :
    ∀ fuel current, nextFromLoop expr tz anchor during exceptions until_date hdib
      fuel current = .ok none := by
  intro fuel
  induction fuel with
  | zero => intro current; rfl
  | succ fuel ih =>
    intro current
    rw [nextFromLoop.eq_def]
    dsimp only
    rcases h current with hnone | ⟨c, hc, hrej⟩
    · rw [hnone]
    · rw [hc]
      dsimp only
      cases hcut : (match until_date with
        | some u => decide (CivilDate.lt u ((tz.toCiv c).1))
        | none => false) with
      | true => rw [if_pos rfl]
      | false =>
        rw [if_neg (by simp)]
        rcases hrej with hcut2 | ⟨hdne, hdibf, hmd⟩ | hexc
        · rw [hcut] at hcut2
          exact absurd hcut2 (by simp)
        · rw [if_pos (by simp [List.isEmpty_iff, hmd, hdne, hdibf])]
          exact ih _
        · cases hdr : (!during.isEmpty && !hdib
              && !matches_during ((tz.toCiv c).1) during) with
          | true =>
            rw [if_pos rfl]
            exact ih _
          | false =>
            rw [if_neg (by simp)]
            have hne : exceptions ≠ [] := by
              intro hnil
              rw [hnil] at hexc
              simp [is_excepted] at hexc
            rw [if_pos (by simp [List.isEmpty_iff, hexc, hne])]
            exact ih _

/-- **C9** (amended): when the schedule's until spec (if any) resolves, and
every candidate the expression generates is cut off by it, rejected by the
`during` filter, or excepted, the 1000-iteration retry loop of `next_from`
returns `Ok(None)` — not an `Err`.  (Resolution of an invalid named until
spec is the one `Err` source on this path; see the counterexample.) -/
theorem C9_retry_exhaustion (db : String → Option TimeZone) (S : Schedule)
    (t : Int) (tz : TimeZone) (until_date : Option CivilDate)
    (htz : resolve_tz db S.timezone = .ok tz)
    (h : ∀ current, next_expr S.expr tz S.anchor current S.during = .ok none
      ∨ ∃ c, next_expr S.expr tz S.anchor current S.during = .ok (some c)
        ∧ ((match until_date with
            | some u => decide (CivilDate.lt u (tz.toCiv c).1)
            | none => false) = true
          ∨ (S.during ≠ []
            ∧ (match S.expr with
              | .monthRepeat _ (.nearestWeekday _ (some _)) _ => true
              | _ => false) = false
            ∧ matches_during (tz.toCiv c).1 S.during = false)
          ∨ is_excepted (tz.toCiv c).1 S.except = true))
    (hu : (match S.until_ with
      | some u => (resolve_until u (tz.toCiv t).1).map some
      | none => .ok none) = .ok until_date) :
    next_from db S t = .ok none := by
  rw [next_from.eq_def, htz]
  dsimp only
  rw [hu]
  dsimp only
  exact nextFromLoop_rejected _ _ _ _ _ _ _ h 1000 t

/-- **C9, counterexample**: a parser-accepted schedule whose `during` filter
rejects every generated candidate (`feb 14` during `mar`) but whose named
until spec is invalid (`dec 99`): `next_from` returns an `Err` from
`resolve_until` before the retry loop runs, not `Ok(None)`. -/
theorem C9_counterexample :
    parse "on feb 14 at 09:00 until dec 99 during mar"
      = .ok { Schedule.new (.singleDate (.named .february 14) [⟨9, 0⟩]) with
          until_ := some (.named .december 99), during := [.march] }
    ∧ next_from (fun _ => none)
        { Schedule.new (.singleDate (.named .february 14) [⟨9, 0⟩]) with
          until_ := some (.named .december 99), during := [.march] } 0
      = .error (.evalE "invalid until date") := by
  exact ⟨by decide, by decide⟩

def witnessSchedule9 : Schedule :=
  { Schedule.new (.singleDate (.named .february 14) [⟨9, 0⟩]) with
    during := [.march], timezone := some "Zone" }

theorem earliest_single (date : CivilDate) (tod : TimeOfDay) (tz : TimeZone)
    (now : Int) (h : at_time_on_date date (to_time tod) tz > now) :
    earliest_future_at_times date [tod] tz now
      = some (at_time_on_date date (to_time tod) tz) := by
  unfold earliest_future_at_times
  rw [List.foldl_cons, List.foldl_nil]
  dsimp only
  rw [if_pos h]

theorem witness_feb14_filtered : ∀ current,
    next_expr witnessSchedule9.expr witnessTZ witnessSchedule9.anchor current
        witnessSchedule9.during = .ok none
    ∨ ∃ c, next_expr witnessSchedule9.expr witnessTZ witnessSchedule9.anchor
          current witnessSchedule9.during = .ok (some c)
        ∧ matches_during (witnessTZ.toCiv c).1 witnessSchedule9.during = false := by
  intro current
  right
  have hnew : CivilDate.new (max current 0) ((MonthName.number .february : Nat) : Int)
      (u8AsI8 14) = some ⟨max current 0, 2, 14⟩ := by
    unfold CivilDate.new
    rw [if_pos ?_]
    · rfl
    · have h14 : (14 : Int) ≤ daysInMonth (max current 0) 2 := by
        unfold daysInMonth
        rw [if_pos rfl]
        split <;> omega
      show dateValid (max current 0) 2 14 = true
      unfold dateValid
      simp [h14]
  have hcand : at_time_on_date ⟨max current 0, 2, 14⟩ (to_time ⟨9, 0⟩) witnessTZ
      > current := by
    show 86400 * (600 * max current 0 + 40 * 2 + 14) + ((9 : Int) * 3600 + 0 * 60)
      > current
    omega
  refine ⟨at_time_on_date ⟨max current 0, 2, 14⟩ (to_time ⟨9, 0⟩) witnessTZ, ?_, rfl⟩
  show next_single_date (.named .february 14) [⟨9, 0⟩] witnessTZ current = _
  rw [next_single_date.eq_def]
  dsimp only
  rw [nextSingleNamedScan.eq_def]
  dsimp only
  rw [show (witnessTZ.toCiv current).1.year = max current 0 from rfl]
  rw [hnew]
  dsimp only
  rw [earliest_single _ _ _ _ hcand]

theorem C9_retry_exhaustion_witness :
    next_from witnessDb witnessSchedule9 0 = .ok none :=
  C9_retry_exhaustion witnessDb witnessSchedule9 0 witnessTZ none rfl
    (fun current =>
      match witness_feb14_filtered current with
      | Or.inl hnone => Or.inl hnone
      | Or.inr ⟨c, hc, hf⟩ =>
        Or.inr ⟨c, hc, Or.inr (Or.inl
          ⟨by simp [witnessSchedule9, Schedule.new], rfl, hf⟩)⟩)
    rfl


/-- **C5** (amended): timezone resolution — a present name is looked up in
the timezone database and an unknown name is a fatal Eval error; an absent
timezone resolves to UTC (not the system zone). -/
theorem C5_resolve_tz (db : String → Option TimeZone) (name : String) :
    resolve_tz db none = .ok TimeZone.utc
    ∧ resolve_tz db (some name)
      = (match db name with
        | some z => .ok z
        | none => .error (.evalE ("invalid timezone '" ++ name ++ "'"))) :=
  ⟨rfl, rfl⟩

/-- **C5, counterexample**: with an absent timezone the resolver returns UTC
regardless of the environment (here an empty database), not the system
zone; the code comments call this deterministic fallback out explicitly. -/
theorem C5_counterexample :
    resolve_tz (fun _ => none) none = .ok TimeZone.utc := rfl


/-- **C2**: a parseable schedule whose successor is inconsistent with its own
membership test.  `every 2 weeks on monday at 09:00 starting 2026-01-07`
(a Wednesday anchor): `next_from` aligns candidates to the anchor week's
Monday (2026-01-05) and returns Monday 2026-01-19 09:00 UTC, but `matches`
counts `weeks_between(2026-01-07, 2026-01-19) = 12 / 7 = 1` — odd — and
rejects that very instant. -/
theorem C2_week_interval_mismatch :
    parse "every 2 weeks on monday at 09:00 starting 2026-01-07"
      = .ok { Schedule.new (.weekRepeat 2 [.monday] [⟨9, 0⟩]) with
          anchor := some ⟨2026, 1, 7⟩ }
    ∧ next_from (fun _ => none)
        { Schedule.new (.weekRepeat 2 [.monday] [⟨9, 0⟩]) with
          anchor := some ⟨2026, 1, 7⟩ }
        ((⟨2026, 1, 10⟩ : CivilDate).toDays * 86400)
      = .ok (some ((⟨2026, 1, 19⟩ : CivilDate).toDays * 86400 + 9 * 3600))
    ∧ matches_ (fun _ => none)
        { Schedule.new (.weekRepeat 2 [.monday] [⟨9, 0⟩]) with
          anchor := some ⟨2026, 1, 7⟩ }
        ((⟨2026, 1, 19⟩ : CivilDate).toDays * 86400 + 9 * 3600)
      = .ok false := by
  exact ⟨by decide, by decide, by decide⟩

